import Mathlib

/-!
Verification of the world-rs computational core against its specification.

The development shallowly embeds the core of the repository:
* `src/polyhedron.rs` — icosahedron construction and subdivision (`refine`,
  `make_sphere`); positions are embedded symbolically (the `Pos` type)
  because the Rust code keys its deduplication maps on exact positions:
  two occurrences of the same geometric point are produced by the same
  commutative computation, and distinct points of the mesh are distinct.
* `src/collisions.rs` — plane/ray intersection and nearest-face picking.
  Coordinates are embedded as exact rationals; the external `cgmath`
  `normalize` (a square root, not part of the repository) is a parameter
  of the embedding, constrained only where a claim needs it.
* `src/plate_simulation.rs` — plate partitioning (rejection-sampled seeds
  plus synchronized flood fill) and the simulation step.  The random
  generator is embedded as an explicit stream of naturals with a cursor;
  loops whose termination depends on the generator take a fuel argument
  and return `Option`.
* the Height Mapper (`apply_heights`) has no code under `src/`; it is
  modelled from the spec where needed.

Division on `ℚ` is total with `x / 0 = 0`; places where the Rust code can
divide by zero are discussed at the corresponding claims.
-/

/-! ### Rational 3-vectors (embedding of `cgmath::Vector3<f32>`) -/

structure Vec3 where
  x : ℚ
  y : ℚ
  z : ℚ
deriving DecidableEq, Repr

def Vec3.add (a b : Vec3) : Vec3 := ⟨a.x + b.x, a.y + b.y, a.z + b.z⟩

def Vec3.sub (a b : Vec3) : Vec3 := ⟨a.x - b.x, a.y - b.y, a.z - b.z⟩

def Vec3.dot (a b : Vec3) : ℚ := a.x * b.x + a.y * b.y + a.z * b.z

def Vec3.mulS (a : Vec3) (s : ℚ) : Vec3 := ⟨a.x * s, a.y * s, a.z * s⟩

def Vec3.smul (s : ℚ) (a : Vec3) : Vec3 := ⟨s * a.x, s * a.y, s * a.z⟩

/-! ### Embedding of `src/collisions.rs` -/

/-- Embedding of `collisions.rs::Ray`. -/
structure Ray where
  orig : Vec3
  dir : Vec3
deriving DecidableEq, Repr

/-- Embedding of `collisions.rs::Plane`. -/
structure Plane where
  normal : Vec3
  d : ℚ
deriving DecidableEq, Repr

/-- Embedding of `collisions.rs::PlaneSide`. -/
inductive PlaneSide where
  | Above
  | On
  | Below
deriving DecidableEq, Repr

/-- Embedding of `collisions.rs::Plane::from_points`.  The source normalizes
the Newell normal with `cgmath`'s `normalize`; that external function is the
parameter `norm3`. -/
def Plane.fromPoints (norm3 : Vec3 → Vec3) (v1 v2 v3 : Vec3) : Plane :=
  let e21 := v1.sub v2
  let e32 := v2.sub v3
  let e13 := v3.sub v1
  { normal := norm3 ⟨v1.y * e32.z + v2.y * e13.z + v3.y * e21.z,
                    v1.z * e32.x + v2.z * e13.x + v3.z * e21.x,
                    v1.x * e32.y + v2.x * e13.y + v3.x * e21.y⟩,
    d := -(v1.x * (v2.y * v3.z - v3.y * v2.z) +
           v2.x * (v3.y * v1.z - v1.y * v3.z) +
           v3.x * (v1.y * v2.z - v2.y * v1.z)) }

/-- Embedding of `collisions.rs::Plane::intersection_point`.  The source
divides by `ray.dir.dot(normal)` with no guard; in this exact embedding a
zero denominator makes the quotient `0` (total division on `ℚ`). -/
def Plane.intersectionPoint (pl : Plane) (ray : Ray) : Vec3 × ℚ :=
  let t := -(ray.orig.dot pl.normal + pl.d) / ray.dir.dot pl.normal
  (ray.orig.add (ray.dir.mulS t), t)

/-- Embedding of `collisions.rs::Plane::get_plane_side`. -/
def Plane.getPlaneSide (pl : Plane) (point : Vec3) : PlaneSide :=
  let dist := -(point.dot pl.normal)
  if dist < 0 then PlaneSide.Above
  else if dist > 0 then PlaneSide.Below
  else PlaneSide.On

/-- Embedding of `collisions.rs::Ray::intersection_dist`. -/
def Ray.intersectionDist (norm3 : Vec3 → Vec3) (ray : Ray)
    (w1 w2 w3 : Vec3) : Option ℚ :=
  let plane := Plane.fromPoints norm3 w1 w2 w3
  let res := plane.intersectionPoint ray
  let planes0 := Plane.fromPoints norm3 ray.orig w1 w2
  let planes1 := Plane.fromPoints norm3 ray.orig w2 w3
  let planes2 := Plane.fromPoints norm3 ray.orig w3 w1
  if planes0.getPlaneSide res.1 ≠ PlaneSide.Below
      ∧ planes1.getPlaneSide res.1 ≠ PlaneSide.Below
      ∧ planes2.getPlaneSide res.1 ≠ PlaneSide.Below then
    some res.2
  else
    none

/-! ### Embedding of the mesh data model (`src/polyhedron.rs`)

The Rust structures store `f32` positions; the embedding is generic in the
position type `P` so that the collision code can use exact rational
coordinates and the subdivision code can use exact symbolic positions. -/

/-- Embedding of `polyhedron.rs::PolyVertex`. -/
structure PolyVertex (P : Type) where
  pos : P
  edge_indices : List ℕ
  face_indices : List ℕ
deriving DecidableEq, Repr

/-- Embedding of `polyhedron.rs::Edge` (two vertex indices plus the adjacent
face list filled in by the adjacency pass). -/
structure Edge where
  vertex_indices : ℕ × ℕ
  face_indices : List ℕ
deriving DecidableEq, Repr

/-- Embedding of `polyhedron.rs::Face`. -/
structure Face where
  vertex_indices : ℕ × ℕ × ℕ
  edge_indices : ℕ × ℕ × ℕ
deriving DecidableEq, Repr

/-- Embedding of `polyhedron.rs::Polyhedron`. -/
structure Polyhedron (P : Type) where
  vertices : List (PolyVertex P)
  edges : List Edge
  faces : List Face
deriving DecidableEq, Repr

def Polyhedron.vertexPos (poly : Polyhedron Vec3) (i : ℕ) : Vec3 :=
  (poly.vertices.getD i ⟨⟨0, 0, 0⟩, [], []⟩).pos

/-- The intersection parameter of the ray with face `i` of the mesh, `none`
when the face fails the edge-plane containment test (the body of the loop of
`collisions.rs::intersecting_triangle_id`). -/
def Polyhedron.faceDist (poly : Polyhedron Vec3) (norm3 : Vec3 → Vec3)
    (ray : Ray) (i : ℕ) : Option ℚ :=
  let face := poly.faces.getD i ⟨(0, 0, 0), (0, 0, 0)⟩
  ray.intersectionDist norm3
    (poly.vertexPos face.vertex_indices.1)
    (poly.vertexPos face.vertex_indices.2.1)
    (poly.vertexPos face.vertex_indices.2.2)

/-- One update of the running nearest candidate, as in the `match` inside the
loop of `collisions.rs::intersecting_triangle_id`. -/
def nearestStep (f : ℕ → Option ℚ) (acc : Option (ℕ × ℚ)) (i : ℕ) :
    Option (ℕ × ℚ) :=
  match f i with
  | some dist =>
    match acc with
    | some (j, old_dist) => if old_dist > dist then some (i, dist) else some (j, old_dist)
    | none => some (i, dist)
  | none => acc

/-- The loop of `collisions.rs::intersecting_triangle_id` over face indices
`0, …, n-1`. -/
def nearestScan (f : ℕ → Option ℚ) (n : ℕ) : Option (ℕ × ℚ) :=
  (List.range n).foldl (nearestStep f) none

/-- Embedding of `collisions.rs::intersecting_triangle_id`. -/
def intersectingTriangleId (norm3 : Vec3 → Vec3) (poly : Polyhedron Vec3)
    (ray : Ray) : Option ℕ :=
  match nearestScan (poly.faceDist norm3 ray) poly.faces.length with
  | some (nearest_idx, _) => some nearest_idx
  | none => none

/-- `norm3` rescales every vector by some positive factor, as the exact
normalization `v ↦ v / |v|` does (for `v ≠ 0`). -/
def ScalesPos (norm3 : Vec3 → Vec3) : Prop :=
  ∀ v : Vec3, ∃ c : ℚ, 0 < c ∧ norm3 v = Vec3.smul c v

/-- First vertex of a triangle lying in the plane `z = 1`. -/
def cTriV1 : Vec3 := ⟨1, 0, 1⟩

def cTriV2 : Vec3 := ⟨-1, 1, 1⟩

def cTriV3 : Vec3 := ⟨-1, -1, 1⟩

/-- A ray travelling parallel to that plane. -/
def cRayPar : Ray := ⟨⟨0, 0, 5⟩, ⟨1, 0, 0⟩⟩

/-! ### Embedding of `src/plate_simulation.rs` — simulation state and step -/

/-- Embedding of `plate_simulation.rs::PlatePoint`. -/
structure PlatePoint where
  pos : Vec3
  nbr_indices : List ℕ
  speed : ℚ
deriving DecidableEq, Repr

/-- Embedding of `PlatePoint::new` (initial speed `rad(1.0)`). -/
def PlatePoint.mkNew (pos : Vec3) (nbr_indices : List ℕ) : PlatePoint :=
  ⟨pos, nbr_indices, 1⟩

/-- Out-of-range reads panic in the source; the embedding supplies an
arbitrary default that well-formed inputs never reach. -/
def defaultPlatePoint : PlatePoint := ⟨⟨0, 0, 0⟩, [], 1⟩

/-- Embedding of `PlatePoint::move_around`.  The axis-angle rotation is done
by the external `cgmath::Basis3`; it is the parameter `rot` taking the axis,
the angle and the vector. -/
def PlatePoint.moveAround (rot : Vec3 → ℚ → Vec3 → Vec3) (p : PlatePoint)
    (move_axis : Vec3) : PlatePoint :=
  { p with pos := rot move_axis p.speed p.pos }

/-- Embedding of `plate_simulation.rs::Plate`. -/
structure Plate where
  vertex_indices : List ℕ
  move_axis : Vec3
  move_speed : ℚ
  height : ℚ
deriving DecidableEq, Repr

/-- Embedding of `Plate::simulate`: rotate every member vertex in place. -/
def Plate.simulate (rot : Vec3 → ℚ → Vec3 → Vec3) (pl : Plate)
    (vertices : List PlatePoint) : List PlatePoint :=
  pl.vertex_indices.foldl
    (fun vs idx => vs.set idx ((vs.getD idx defaultPlatePoint).moveAround rot pl.move_axis))
    vertices

/-- Embedding of `plate_simulation.rs::PlateSimulation`. -/
structure PlateSimulation where
  initial_distance : ℚ
  verts : List PlatePoint
  plates : List Plate
deriving DecidableEq, Repr

/-- The accumulation `sum += v.pos.dot(&v2.pos).max(DOT_THRESHOLD)` of
`simulate_plates_step`, with `DOT_THRESHOLD = 0.5`. -/
def clampedDotSum (verts : List PlatePoint) (v : PlatePoint) : ℚ :=
  verts.foldl (fun sum v2 => sum + max (v.pos.dot v2.pos) (1/2)) 0

/-- The `avg_dist` value `simulate_plates_step` computes for a vertex:
subtract `len · 0.5` from the clamped sum and divide by `len`. -/
def avgDist (verts : List PlatePoint) (v : PlatePoint) : ℚ :=
  (clampedDotSum verts v - (verts.length : ℚ) * (1/2)) / (verts.length : ℚ)

/-- Phase (a) of `simulate_plates_step`: every plate rotates its member
vertices. -/
def rotatePhase (rot : Vec3 → ℚ → Vec3 → Vec3) (s : PlateSimulation) :
    List PlatePoint :=
  s.plates.foldl (fun vs pl => pl.simulate rot vs) s.verts

/-- Embedding of `PlateSimulation::simulate_plates_step`: rotate all plates,
then scale every vertex speed by `1 - avg_dist / initial_distance`.  The
`min_dist`/`max_dist` accumulators of the source are computed but never used
and are omitted. -/
def PlateSimulation.simulatePlatesStep (rot : Vec3 → ℚ → Vec3 → Vec3)
    (s : PlateSimulation) : PlateSimulation :=
  let verts1 := rotatePhase rot s
  { s with verts := verts1.map (fun v =>
      { v with speed := v.speed * (1 - avgDist verts1 v / s.initial_distance) }) }

/-- Embedding of `PlateSimulation::simulate_plates`. -/
def PlateSimulation.simulatePlates (rot : Vec3 → ℚ → Vec3 → Vec3)
    (s : PlateSimulation) (steps : ℕ) : PlateSimulation :=
  (List.range steps).foldl (fun st _ => st.simulatePlatesStep rot) s

/-- Embedding of `plate_simulation.rs::get_edge_length`: the length of edge 0
of the mesh.  The external `cgmath` Euclidean length (a square root) is the
parameter `vlen`. -/
def getEdgeLength (vlen : Vec3 → ℚ) (poly : Polyhedron Vec3) : ℚ :=
  let edge := poly.edges.getD 0 ⟨(0, 0), []⟩
  vlen ((poly.vertexPos edge.vertex_indices.1).sub (poly.vertexPos edge.vertex_indices.2))

/-- The convergence metric as claim C3 words it: average clamped closeness to
all OTHER vertices (the vertex itself excluded), normalized by the vertex
count.  Spec-side definition, for comparison with `avgDist`. -/
def avgDistSpecOther (verts : List PlatePoint) (i : ℕ) : ℚ :=
  (((List.range verts.length).filter (fun j => j ≠ i)).map
    (fun j => max ((verts.getD i defaultPlatePoint).pos.dot
      (verts.getD j defaultPlatePoint).pos - 1/2) 0)).sum / (verts.length : ℚ)

/-- Concrete one-vertex, one-plate simulation state used to separate
`avgDist` from the "all other vertices" reading. -/
def c3State : PlateSimulation :=
  ⟨1, [⟨⟨1, 0, 0⟩, [], 1⟩], [⟨[0], ⟨0, 0, 1⟩, 1, 1⟩]⟩

/-! ### Embedding of `src/plate_simulation.rs` — partitioning

The `rand::Rng` generator state is embedded as an explicit stream of
naturals with a cursor; each draw consumes one stream value.  The rejection
sampling loop and the flood-fill `while` loop can run forever in the source,
so their embeddings take fuel and return `none` when it runs out. -/

/-- Explicit random source (embeds the `&mut R : Rng` threaded through the
partitioner). -/
structure Rng where
  stream : ℕ → ℕ
  pos : ℕ

/-- Model of `Rng::gen_range(lo, hi)` on `uint`: the next stream value
reduced into `[lo, hi)`; advances the cursor. -/
def Rng.genRangeNat (r : Rng) (lo hi : ℕ) : ℕ × Rng :=
  (lo + r.stream r.pos % (hi - lo), ⟨r.stream, r.pos + 1⟩)

/-- Model of `Rng::gen_range(lo, hi)` on `f32`: a rational in `[lo, hi)`
derived from the next stream value; advances the cursor. -/
def Rng.genRangeQ (r : Rng) (lo hi : ℚ) : ℚ × Rng :=
  (lo + (hi - lo) * ((r.stream r.pos % 1000 : ℕ) : ℚ) / 1000, ⟨r.stream, r.pos + 1⟩)

/-- Embedding of `plate_simulation.rs::random_axis`; the external `cgmath`
`normalize` is the parameter `norm3`. -/
def randomAxis (norm3 : Vec3 → Vec3) (r : Rng) : Vec3 × Rng :=
  let p1 := r.genRangeQ (1/10000) 1
  let p2 := p1.2.genRangeQ (1/10000) 1
  let p3 := p2.2.genRangeQ (1/10000) 1
  (norm3 ⟨p1.1, p2.1, p3.1⟩, p3.2)

/-- Embedding of `Plate::from_points` (`HEIGHT_DEV = 0.02`): a random axis,
a random speed in `[0.01, 0.1)` and a random height in `[0.98, 1.02)`. -/
def Plate.fromPoints (norm3 : Vec3 → Vec3) (r : Rng)
    (vertex_indices : List ℕ) : Plate × Rng :=
  let pa := randomAxis norm3 r
  let ps := pa.2.genRangeQ (1/100) (1/10)
  let ph := ps.2.genRangeQ (1 - 1/50) (1 + 1/50)
  (⟨vertex_indices, pa.1, ps.1, ph.1⟩, ph.2)

/-- Embedding of `plate_simulation.rs::get_nbr_idx`. -/
def getNbrIdx (edge : Edge) (vert_idx : ℕ) : ℕ :=
  if edge.vertex_indices.1 = vert_idx then edge.vertex_indices.2
  else edge.vertex_indices.1

/-- State mutated by `assign_neighbors` (the returned `num_assigned` counter
included). -/
structure AssignState where
  plate_points : List (List ℕ)
  new_frontier : List ℕ
  plate_id_for_verts : List ℤ
  num_assigned : ℕ
deriving Repr

/-- The body of the loop of `assign_neighbors`: claim one neighbor if it is
still unclaimed. -/
def assignOne (plate_idx : ℕ) (st : AssignState) (nbr_idx : ℕ) : AssignState :=
  if st.plate_id_for_verts.getD nbr_idx (-1) = -1 then
    { plate_points := st.plate_points.set plate_idx
        ((st.plate_points.getD plate_idx []) ++ [nbr_idx]),
      new_frontier := st.new_frontier ++ [nbr_idx],
      plate_id_for_verts := st.plate_id_for_verts.set nbr_idx (plate_idx : ℤ),
      num_assigned := st.num_assigned + 1 }
  else st

/-- Embedding of `plate_simulation.rs::assign_neighbors`: claim every still
unclaimed neighbor for plate `plate_idx`. -/
def assignNeighbors (plate_idx : ℕ) (st : AssignState)
    (nbr_indices : List ℕ) : AssignState :=
  nbr_indices.foldl (assignOne plate_idx) st

/-- State of the `flood_fill` loop. -/
structure FloodState where
  plate_id_for_verts : List ℤ
  plate_points : List (List ℕ)
  frontier_points : List (List ℕ)
  filled_points : ℕ
deriving Repr

/-- The per-plate body of the `while` loop of `flood_fill`: plate
`plate_idx` consumes its frontier, claiming unclaimed neighbors and building
the next frontier. -/
def floodPlateStep (verts : List PlatePoint) (st : FloodState)
    (plate_idx : ℕ) : FloodState :=
  let a1 := (st.frontier_points.getD plate_idx []).foldl
    (fun a point_idx =>
      assignNeighbors plate_idx a (verts.getD point_idx defaultPlatePoint).nbr_indices)
    ⟨st.plate_points, [], st.plate_id_for_verts, 0⟩
  { plate_id_for_verts := a1.plate_id_for_verts,
    plate_points := a1.plate_points,
    frontier_points := st.frontier_points.set plate_idx a1.new_frontier,
    filled_points := st.filled_points + a1.num_assigned }

/-- One iteration of the `while` loop of `flood_fill`: every plate in index
order consumes its frontier and claims the unclaimed neighbors. -/
def floodRound (verts : List PlatePoint) (st : FloodState) : FloodState :=
  (List.range st.plate_points.length).foldl (floodPlateStep verts) st

/-- The `while filled_points < verts.len()` loop of `flood_fill`, with fuel
bounding the number of iterations. -/
def floodFill (verts : List PlatePoint) : ℕ → FloodState → Option FloodState
  | 0, st => if st.filled_points < verts.length then none else some st
  | fuel + 1, st =>
    if st.filled_points < verts.length then
      floodFill verts fuel (floodRound verts st)
    else some st

/-- Entry to `flood_fill`: `filled_points` starts at `plate_points.len()` and
the frontier starts as a copy of the seeded `plate_points`. -/
def floodFillEntry (fuel : ℕ) (verts : List PlatePoint)
    (plate_id_for_verts : List ℤ) (plate_points : List (List ℕ)) :
    Option FloodState :=
  floodFill verts fuel ⟨plate_id_for_verts, plate_points, plate_points, plate_points.length⟩

/-- The rejection-sampling `loop` of `random_partition` choosing the seed
vertex of plate `plate_idx`, with fuel (the source loops forever once every
vertex is claimed). -/
def findSeed (verts_len plate_idx : ℕ) :
    ℕ → Rng → List ℤ → List (List ℕ) → Option (Rng × List ℤ × List (List ℕ))
  | 0, _, _, _ => none
  | fuel + 1, r, plate_id_for_verts, plate_points =>
    let p := r.genRangeNat 0 verts_len
    if plate_id_for_verts.getD p.1 (-1) = -1 then
      some (p.2, plate_id_for_verts.set p.1 (plate_idx : ℤ), plate_points ++ [[p.1]])
    else
      findSeed verts_len plate_idx fuel p.2 plate_id_for_verts plate_points

/-- The seed loop of `random_partition` over the plate indices. -/
def seedLoop (verts_len fuel : ℕ) :
    List ℕ → Rng × List ℤ × List (List ℕ) → Option (Rng × List ℤ × List (List ℕ))
  | [], st => some st
  | plate_idx :: rest, st =>
    match findSeed verts_len plate_idx fuel st.1 st.2.1 st.2.2 with
    | some st1 => seedLoop verts_len fuel rest st1
    | none => none

/-- The final `map` of `random_partition`, threading the generator through
`Plate::from_points` for each plate. -/
def platesFromPoints (norm3 : Vec3 → Vec3) (r : Rng)
    (ptss : List (List ℕ)) : List Plate × Rng :=
  ptss.foldl (fun acc points =>
    let pr := Plate.fromPoints norm3 acc.2 points
    (acc.1 ++ [pr.1], pr.2)) ([], r)

/-- Embedding of `plate_simulation.rs::random_partition`. -/
def randomPartition (norm3 : Vec3 → Vec3) (fuel : ℕ) (r : Rng)
    (verts : List PlatePoint) (num_plates : ℕ) : Option (List Plate × Rng) :=
  let plate_id_for_verts := List.replicate verts.length (-1 : ℤ)
  match seedLoop verts.length fuel (List.range num_plates)
      (r, plate_id_for_verts, []) with
  | none => none
  | some st =>
    match floodFillEntry fuel verts st.2.1 st.2.2 with
    | none => none
    | some fst => some (platesFromPoints norm3 st.1 fst.plate_points)

/-- The vertex-list construction at the top of `PlateSimulation::new`: one
`PlatePoint` per mesh vertex, with neighbor indices read off the mesh
edges. -/
def mkSimVerts (poly : Polyhedron Vec3) : List PlatePoint :=
  (List.range poly.vertices.length).map (fun vert_idx =>
    let vert := poly.vertices.getD vert_idx ⟨⟨0, 0, 0⟩, [], []⟩
    PlatePoint.mkNew vert.pos
      (vert.edge_indices.map (fun i => getNbrIdx (poly.edges.getD i ⟨(0, 0), []⟩) vert_idx)))

/-- The loop after partitioning in `PlateSimulation::new`: each vertex takes
the speed of its owning plate. -/
def assignPlateSpeeds (plates : List Plate) (verts : List PlatePoint) :
    List PlatePoint :=
  plates.foldl (fun vs pl =>
    pl.vertex_indices.foldl (fun vs vert_idx =>
      vs.set vert_idx { vs.getD vert_idx defaultPlatePoint with
                          speed := pl.move_speed }) vs) verts

/-- Embedding of `PlateSimulation::new`: the configuration check, the
neighbor-list construction, the partition, and the per-plate speed
assignment.  `Except.error` is the source's configuration panic;
`Except.ok none` is fuel exhaustion (a diverging source run). -/
def PlateSimulation.mkNew (norm3 : Vec3 → Vec3) (vlen : Vec3 → ℚ) (fuel : ℕ)
    (poly : Polyhedron Vec3) (num_plates : ℕ) (r : Rng) :
    Except String (Option (PlateSimulation × Rng)) :=
  if poly.faces.length < num_plates then
    Except.error "cannot split faces into plates"
  else
    match randomPartition norm3 fuel r (mkSimVerts poly) num_plates with
    | none => Except.ok none
    | some pr =>
      Except.ok (some (⟨getEdgeLength vlen poly,
        assignPlateSpeeds pr.1 (mkSimVerts poly), pr.1⟩, pr.2))

/-! ### Partition bookkeeping used to state and prove C2/C10 -/

/-- Total number of occurrences of vertex `v` across all plate vertex
lists. -/
def occCount (ptss : List (List ℕ)) (v : ℕ) : ℕ :=
  (ptss.map (fun l => l.count v)).sum

/-- Number of already claimed vertices (entries of `plate_id_for_verts`
different from `-1`). -/
def claimedCount (ids : List ℤ) : ℕ :=
  (ids.filter (fun x => x ≠ -1)).length

/-- The partition invariant tying `plate_id_for_verts` to the plate vertex
lists: claimed vertices occur exactly once overall, unclaimed and
out-of-range ones never. -/
def PartIds (n : ℕ) (ids : List ℤ) (ptss : List (List ℕ)) : Prop :=
  ids.length = n ∧
  (∀ v, v < n → occCount ptss v = (if ids.getD v (-1) = -1 then 0 else 1)) ∧
  (∀ v, n ≤ v → occCount ptss v = 0)

/-- Invariant of the flood-fill state: partition bookkeeping plus the
`filled_points` counter agreeing with the number of claimed vertices. -/
def GoodFlood (n : ℕ) (st : FloodState) : Prop :=
  PartIds n st.plate_id_for_verts st.plate_points ∧
  st.filled_points = claimedCount st.plate_id_for_verts

/-- A stream is fair for modulus `n` when beyond every cursor it hits every
residue class. -/
def FairStream (s : ℕ → ℕ) (n : ℕ) : Prop :=
  ∀ k v, v < n → ∃ m, k ≤ m ∧ s m % n = v

/-- Concrete two-vertex input (each vertex the other's neighbor) for
exercising the partitioner. -/
def cVertsPair : List PlatePoint :=
  [⟨⟨1, 0, 0⟩, [1], 1⟩, ⟨⟨0, 1, 0⟩, [0], 1⟩]

/-- The all-zero random stream at cursor 0. -/
def cRngZero : Rng := ⟨fun _ => 0, 0⟩

/-- A mesh with the icosahedron's vertex and face counts (12 vertices, 20
faces), for exercising the plate-count configuration check. -/
def cPoly12 : Polyhedron Vec3 :=
  ⟨List.replicate 12 ⟨⟨0, 0, 0⟩, [], []⟩, [],
   List.replicate 20 ⟨(0, 0, 0), (0, 0, 0)⟩⟩

/-! ### Height Mapper, modelled from the spec (no `apply_heights` in src/) -/

/-- Modelled from the spec: the per-vertex weighted density of `apply_heights`
(spec §4.4, absent from `src/`): sum the dot products against every
plate-simulation vertex whose dot product exceeds the fixed threshold `0.1`,
divided by the count of such neighbors.  Division by a zero count yields `0`
(the "treat as zero" policy the spec offers for the degeneracy). -/
def heightDelta (simVerts : List Vec3) (v : Vec3) : ℚ :=
  let hits := simVerts.filter (fun w => (1/10 : ℚ) < v.dot w)
  (hits.map (fun w => v.dot w)).sum / (hits.length : ℚ)

/-- Smallest element of a list of rationals (0 for an empty list). -/
def minOfList (l : List ℚ) : ℚ :=
  match l with
  | [] => 0
  | h :: t => t.foldl min h

/-- Largest element of a list of rationals (0 for an empty list). -/
def maxOfList (l : List ℚ) : ℚ :=
  match l with
  | [] => 0
  | h :: t => t.foldl max h

/-- Modelled from the spec: `apply_heights` (spec §4.4, absent from `src/`).
Per render-mesh vertex compute the weighted density, normalize it into the
observed `[min, max]` range, center it, and scale the vertex radially by
`1 + centered · (2 / (max - min))` so the elevation spread is bounded to
`±1`. -/
def applyHeights (render : List Vec3) (simVerts : List Vec3) : List Vec3 :=
  let deltas := render.map (heightDelta simVerts)
  let dmin := minOfList deltas
  let dmax := maxOfList deltas
  let mid := (dmin + dmax) / 2
  let sf := 2 / (dmax - dmin)
  render.map (fun v => Vec3.smul (1 + (heightDelta simVerts v - mid) * sf) v)

/-! ### Symbolic positions for the icosphere subdivision (C1)

`polyhedron.rs` keys its deduplication maps on the exact vertex positions:
the same geometric point is always produced by the same commutative `f32`
computation (`v1.add(v2).normalize()` with IEEE-commutative addition), and
distinct mesh points are geometrically distinct.  The embedding therefore
uses exact symbolic positions: the 12 icosahedron vertices are atoms and the
normalized midpoint of two positions is a constructor applied to the
unordered pair. -/

/-- Symbolic vertex position: an icosahedron atom or a normalized edge
midpoint. -/
inductive Pos where
  | base : ℕ → Pos
  | mid : Pos → Pos → Pos
deriving DecidableEq, Repr

instance : Inhabited Pos := ⟨Pos.base 0⟩

/-- Structural comparison on symbolic positions. -/
def Pos.cmp : Pos → Pos → Ordering
  | .base m, .base n => compare m n
  | .base _, .mid _ _ => .lt
  | .mid _ _, .base _ => .gt
  | .mid a b, .mid c d => (Pos.cmp a c).then (Pos.cmp b d)

/-- The normalized midpoint `v1.add(v2).normalize()` as a symbolic position:
commutative by ordering the two arguments. -/
def mkMid (a b : Pos) : Pos :=
  match Pos.cmp a b with
  | .gt => Pos.mid b a
  | _ => Pos.mid a b

/-- Height of a symbolic position: subdivision generation at which it first
appears. -/
def Pos.ht : Pos → ℕ
  | .base _ => 0
  | .mid a b => max a.ht b.ht + 1

/-! ### Embedding of `polyhedron.rs` mesh construction -/

/-- The two endpoint indices of an edge, in stored order. -/
def edgeVertList (e : Edge) : List ℕ := [e.vertex_indices.1, e.vertex_indices.2]

/-- The three vertex indices of a face, in stored order. -/
def refFaceVertList (f : Face) : List ℕ :=
  [f.vertex_indices.1, f.vertex_indices.2.1, f.vertex_indices.2.2]

/-- The three edge indices of a face, in stored order. -/
def refFaceEdgeList (f : Face) : List ℕ :=
  [f.edge_indices.1, f.edge_indices.2.1, f.edge_indices.2.2]

def dfltFace : Face := ⟨(0, 0, 0), (0, 0, 0)⟩

def dfltEdge : Edge := ⟨(0, 0), []⟩

/-- The adjacency passes shared by `make_icosahedron` and `refine`: for each
edge push its index onto both endpoint vertices; for each face push its
index onto its three vertices and onto its three edges. -/
def buildAdjacency {P : Type} (poly : Polyhedron P) : Polyhedron P :=
  let vs1 := (List.range poly.edges.length).foldl (fun vs i =>
    (edgeVertList (poly.edges.getD i dfltEdge)).foldl
      (fun vs vert_idx => vs.modify
        (fun v => { v with edge_indices := v.edge_indices ++ [i] }) vert_idx) vs)
    poly.vertices
  let vs2 := (List.range poly.faces.length).foldl (fun vs i =>
    (refFaceVertList (poly.faces.getD i dfltFace)).foldl
      (fun vs vert_idx => vs.modify
        (fun v => { v with face_indices := v.face_indices ++ [i] }) vert_idx) vs)
    vs1
  let es1 := (List.range poly.faces.length).foldl (fun es i =>
    (refFaceEdgeList (poly.faces.getD i dfltFace)).foldl
      (fun es edge_idx => es.modify
        (fun e => { e with face_indices := e.face_indices ++ [i] }) edge_idx) es)
    poly.edges
  ⟨vs2, es1, poly.faces⟩

/-- The 30 edges of the base icosahedron (`make_icosahedron`). -/
def icoEdges : List Edge :=
  [⟨(0, 1), []⟩, ⟨(0, 4), []⟩, ⟨(0, 5), []⟩, ⟨(0, 8), []⟩, ⟨(0, 10), []⟩,
   ⟨(1, 6), []⟩, ⟨(1, 7), []⟩, ⟨(1, 8), []⟩, ⟨(1, 10), []⟩, ⟨(2, 3), []⟩,
   ⟨(2, 4), []⟩, ⟨(2, 5), []⟩, ⟨(2, 9), []⟩, ⟨(2, 11), []⟩, ⟨(3, 6), []⟩,
   ⟨(3, 7), []⟩, ⟨(3, 9), []⟩, ⟨(3, 11), []⟩, ⟨(4, 5), []⟩, ⟨(4, 8), []⟩,
   ⟨(4, 9), []⟩, ⟨(5, 10), []⟩, ⟨(5, 11), []⟩, ⟨(6, 7), []⟩, ⟨(6, 8), []⟩,
   ⟨(6, 9), []⟩, ⟨(7, 10), []⟩, ⟨(7, 11), []⟩, ⟨(8, 9), []⟩, ⟨(10, 11), []⟩]

/-- The 20 faces of the base icosahedron (`make_icosahedron`). -/
def icoFaces : List Face :=
  [⟨(0, 1, 8), (0, 7, 3)⟩, ⟨(0, 4, 5), (1, 18, 2)⟩, ⟨(0, 5, 10), (2, 21, 4)⟩,
   ⟨(0, 8, 4), (3, 19, 1)⟩, ⟨(0, 10, 1), (4, 8, 0)⟩, ⟨(1, 6, 8), (5, 24, 7)⟩,
   ⟨(1, 7, 6), (6, 23, 5)⟩, ⟨(1, 10, 7), (8, 26, 6)⟩, ⟨(2, 3, 11), (9, 17, 13)⟩,
   ⟨(2, 4, 9), (10, 20, 12)⟩, ⟨(2, 5, 4), (11, 18, 10)⟩, ⟨(2, 9, 3), (12, 16, 9)⟩,
   ⟨(2, 11, 5), (13, 22, 11)⟩, ⟨(3, 6, 7), (14, 23, 15)⟩, ⟨(3, 7, 11), (15, 27, 17)⟩,
   ⟨(3, 9, 6), (16, 25, 14)⟩, ⟨(4, 8, 9), (19, 28, 20)⟩, ⟨(5, 11, 10), (22, 29, 21)⟩,
   ⟨(6, 9, 8), (25, 28, 24)⟩, ⟨(7, 10, 11), (26, 29, 27)⟩]

/-- Embedding of `polyhedron.rs::make_icosahedron`, generic in the 12 vertex
positions (the source's golden-ratio `f32` coordinates are 12 distinct
points). -/
def makeIcosahedron {P : Type} (ps : List P) : Polyhedron P :=
  buildAdjacency ⟨ps.map (fun p => ⟨p, [], []⟩), icoEdges, icoFaces⟩

/-- Index of the first occurrence of a key in the insertion-ordered key list
(the length if absent): the index a `TreeMap` entry received at insertion
time in `get_or_create`. -/
def idxK {K : Type} [DecidableEq K] : List K → K → ℕ
  | [], _ => 0
  | a :: as, k => if a = k then 0 else idxK as k + 1

/-- Embedding of `polyhedron.rs::get_or_create`: look up the key, inserting
it with the next index when absent. -/
def getOrCreate {K : Type} [DecidableEq K] (l : List K) (k : K) :
    List K × ℕ :=
  if k ∈ l then (l, idxK l k) else (l ++ [k], l.length)

/-- The canonicalized edge key: smaller index first (the
`if a < b { (a, b) } else { (b, a) }` of `refine`). -/
def sortPairN (a b : ℕ) : ℕ × ℕ := if a < b then (a, b) else (b, a)

/-- The accumulating state of the `refine` loop: the vertex-key map, the
edge-key map, and the faces pushed so far. -/
structure RefState (P : Type) where
  verts : List P
  edges : List (ℕ × ℕ)
  faces : List Face

/-- Position of vertex `i` of a mesh. -/
def posAt {P : Type} [Inhabited P] (old : Polyhedron P) (i : ℕ) : P :=
  (old.vertices.getD i ⟨default, [], []⟩).pos

/-- A block of sequential `get_or_create` calls: feed the keys in order,
returning the final map and the index each call returned. -/
def dedupSeq {K : Type} [DecidableEq K] (l : List K) : List K → List K × List ℕ
  | [] => (l, [])
  | k :: ks =>
    let g := getOrCreate l k
    let rest := dedupSeq g.1 ks
    (rest.1, g.2 :: rest.2)

/-- The body of the face loop of `polyhedron.rs::refine`: compute the three
normalized midpoints, feed the six vertex keys to `get_or_create` in program
order, build the nine edge keys (six canonicalized boundary keys, three
interior keys in raw order) and feed them to `get_or_create`, then push the
four child faces. -/
def refineFace {P : Type} [DecidableEq P] [Inhabited P] (mid : P → P → P)
    (old : Polyhedron P) (st : RefState P) (face : Face) : RefState P :=
  let v1 := posAt old face.vertex_indices.1
  let v2 := posAt old face.vertex_indices.2.1
  let v3 := posAt old face.vertex_indices.2.2
  let gv := dedupSeq st.verts [v1, v2, v3, mid v1 v2, mid v2 v3, mid v3 v1]
  let a := gv.2.getD 0 0
  let b := gv.2.getD 1 0
  let c := gv.2.getD 2 0
  let ab := gv.2.getD 3 0
  let bc := gv.2.getD 4 0
  let ca := gv.2.getD 5 0
  let ge := dedupSeq st.edges [sortPairN a ab, sortPairN ab b, sortPairN b bc,
    sortPairN bc c, sortPairN c ca, sortPairN ca a, (ab, ca), (ab, bc), (bc, ca)]
  let i1 := ge.2.getD 0 0
  let i2 := ge.2.getD 1 0
  let i3 := ge.2.getD 2 0
  let i4 := ge.2.getD 3 0
  let i5 := ge.2.getD 4 0
  let i6 := ge.2.getD 5 0
  let i7 := ge.2.getD 6 0
  let i8 := ge.2.getD 7 0
  let i9 := ge.2.getD 8 0
  { verts := gv.1, edges := ge.1,
    faces := st.faces ++
      [⟨(a, ab, ca), (i1, i7, i6)⟩,
       ⟨(ab, b, bc), (i2, i3, i8)⟩,
       ⟨(bc, c, ca), (i4, i5, i9)⟩,
       ⟨(ab, bc, ca), (i8, i9, i7)⟩] }

/-- Embedding of `polyhedron.rs::refine`: run the face loop, materialize the
deduplicated vertex and edge maps in index order, and run the adjacency
passes. -/
def refine {P : Type} [DecidableEq P] [Inhabited P] (mid : P → P → P)
    (poly : Polyhedron P) : Polyhedron P :=
  let st := poly.faces.foldl (refineFace mid poly) ⟨[], [], []⟩
  buildAdjacency ⟨st.verts.map (fun p => ⟨p, [], []⟩),
                  st.edges.map (fun ab => ⟨ab, []⟩),
                  st.faces⟩

/-- Embedding of `polyhedron.rs::make_sphere`: refine the icosahedron
`detail_level` times. -/
def makeSphere {P : Type} [DecidableEq P] [Inhabited P] (mid : P → P → P)
    (ps : List P) (detail_level : ℕ) : Polyhedron P :=
  (List.range detail_level).foldl (fun sphere _ => refine mid sphere)
    (makeIcosahedron ps)

/-- The 12 icosahedron vertex positions as symbolic atoms. -/
def icoPosList : List Pos := (List.range 12).map Pos.base

/-- `make_sphere` in the symbolic-position model. -/
def icoSphere (k : ℕ) : Polyhedron Pos := makeSphere mkMid icoPosList k

/-! ### Spec-side closed forms for the refine loop (proof devices) -/

/-- Insert a key if absent (the list component of `get_or_create`). -/
def insertKey {K : Type} [DecidableEq K] (l : List K) (k : K) : List K :=
  if k ∈ l then l else l ++ [k]

/-- Fold `insertKey` over a key stream. -/
def dedupAppend {K : Type} [DecidableEq K] (l : List K) (ks : List K) :
    List K :=
  ks.foldl insertKey l

/-- The six vertex keys a face feeds to `get_or_create`, in program order. -/
def vKeysOfFace {P : Type} [Inhabited P] (mid : P → P → P)
    (old : Polyhedron P) (f : Face) : List P :=
  let v1 := posAt old f.vertex_indices.1
  let v2 := posAt old f.vertex_indices.2.1
  let v3 := posAt old f.vertex_indices.2.2
  [v1, v2, v3, mid v1 v2, mid v2 v3, mid v3 v1]

/-- All vertex keys of a refine pass. -/
def refVK {P : Type} [Inhabited P] (mid : P → P → P) (old : Polyhedron P) :
    List P :=
  old.faces.flatMap (vKeysOfFace mid old)

/-- The final vertex list of a refine pass. -/
def refFV {P : Type} [DecidableEq P] [Inhabited P] (mid : P → P → P)
    (old : Polyhedron P) : List P :=
  dedupAppend [] (refVK mid old)

/-- The nine edge keys a face feeds to `get_or_create`, in program order,
with vertex indices resolved in the final vertex list. -/
def eKeysOfFace {P : Type} [DecidableEq P] [Inhabited P] (mid : P → P → P)
    (old : Polyhedron P) (FV : List P) (f : Face) : List (ℕ × ℕ) :=
  let v1 := posAt old f.vertex_indices.1
  let v2 := posAt old f.vertex_indices.2.1
  let v3 := posAt old f.vertex_indices.2.2
  let a := idxK FV v1
  let b := idxK FV v2
  let c := idxK FV v3
  let ab := idxK FV (mid v1 v2)
  let bc := idxK FV (mid v2 v3)
  let ca := idxK FV (mid v3 v1)
  [sortPairN a ab, sortPairN ab b, sortPairN b bc, sortPairN bc c,
   sortPairN c ca, sortPairN ca a, (ab, ca), (ab, bc), (bc, ca)]

/-- All edge keys of a refine pass. -/
def refEK {P : Type} [DecidableEq P] [Inhabited P] (mid : P → P → P)
    (old : Polyhedron P) : List (ℕ × ℕ) :=
  old.faces.flatMap (eKeysOfFace mid old (refFV mid old))

/-- The final edge list of a refine pass. -/
def refFE {P : Type} [DecidableEq P] [Inhabited P] (mid : P → P → P)
    (old : Polyhedron P) : List (ℕ × ℕ) :=
  dedupAppend [] (refEK mid old)

/-- The four child faces a face pushes, with indices resolved in the final
vertex and edge lists. -/
def facesOfFace {P : Type} [DecidableEq P] [Inhabited P] (mid : P → P → P)
    (old : Polyhedron P) (FV : List P) (FE : List (ℕ × ℕ)) (f : Face) :
    List Face :=
  let v1 := posAt old f.vertex_indices.1
  let v2 := posAt old f.vertex_indices.2.1
  let v3 := posAt old f.vertex_indices.2.2
  let a := idxK FV v1
  let b := idxK FV v2
  let c := idxK FV v3
  let ab := idxK FV (mid v1 v2)
  let bc := idxK FV (mid v2 v3)
  let ca := idxK FV (mid v3 v1)
  [⟨(a, ab, ca), (idxK FE (sortPairN a ab), idxK FE (ab, ca), idxK FE (sortPairN ca a))⟩,
   ⟨(ab, b, bc), (idxK FE (sortPairN ab b), idxK FE (sortPairN b bc), idxK FE (ab, bc))⟩,
   ⟨(bc, c, ca), (idxK FE (sortPairN bc c), idxK FE (sortPairN c ca), idxK FE (bc, ca))⟩,
   ⟨(ab, bc, ca), (idxK FE (ab, bc), idxK FE (bc, ca), idxK FE (ab, ca))⟩]

/-- The stored endpoint pair of an edge equals `(x, y)` in one of the two
orders. -/
def sideEq (e : Edge) (x y : ℕ) : Prop :=
  e.vertex_indices = (x, y) ∨ e.vertex_indices = (y, x)

instance (e : Edge) (x y : ℕ) : Decidable (sideEq e x y) := by
  unfold sideEq
  infer_instance

/-- Structural invariant of the symbolic icosphere meshes at subdivision
generation `d`: distinct vertex positions of height at most `d`; faces with
three distinct in-range vertices whose three edges carry exactly the three
sides; edges with distinct in-range endpoints of maximal height exactly `d`,
pairwise distinct as unordered pairs, each referenced by exactly two face
slots; every vertex on some face; two faces share at most one edge. -/
def GoodPoly (poly : Polyhedron Pos) (d : ℕ) : Prop :=
  (poly.vertices.map (fun v => v.pos)).Nodup ∧
  (∀ v ∈ poly.vertices, Pos.ht v.pos ≤ d) ∧
  (∀ f ∈ poly.faces,
    f.vertex_indices.1 < poly.vertices.length ∧
    f.vertex_indices.2.1 < poly.vertices.length ∧
    f.vertex_indices.2.2 < poly.vertices.length ∧
    f.vertex_indices.1 ≠ f.vertex_indices.2.1 ∧
    f.vertex_indices.2.1 ≠ f.vertex_indices.2.2 ∧
    f.vertex_indices.2.2 ≠ f.vertex_indices.1 ∧
    f.edge_indices.1 < poly.edges.length ∧
    f.edge_indices.2.1 < poly.edges.length ∧
    f.edge_indices.2.2 < poly.edges.length ∧
    sideEq (poly.edges.getD f.edge_indices.1 dfltEdge)
      f.vertex_indices.1 f.vertex_indices.2.1 ∧
    sideEq (poly.edges.getD f.edge_indices.2.1 dfltEdge)
      f.vertex_indices.2.1 f.vertex_indices.2.2 ∧
    sideEq (poly.edges.getD f.edge_indices.2.2 dfltEdge)
      f.vertex_indices.2.2 f.vertex_indices.1) ∧
  (∀ e ∈ poly.edges,
    e.vertex_indices.1 < poly.vertices.length ∧
    e.vertex_indices.2 < poly.vertices.length ∧
    e.vertex_indices.1 ≠ e.vertex_indices.2 ∧
    max (Pos.ht (posAt poly e.vertex_indices.1))
      (Pos.ht (posAt poly e.vertex_indices.2)) = d) ∧
  (poly.edges.map (fun e => sortPairN e.vertex_indices.1 e.vertex_indices.2)).Nodup ∧
  (∀ i, i < poly.edges.length →
    (poly.faces.flatMap refFaceEdgeList).count i = 2) ∧
  (∀ v, v < poly.vertices.length → ∃ f ∈ poly.faces, v ∈ refFaceVertList f) ∧
  List.Pairwise (fun f g => ∀ i ∈ refFaceEdgeList f, ∀ j ∈ refFaceEdgeList f,
    i ∈ refFaceEdgeList g → j ∈ refFaceEdgeList g → i = j) poly.faces

/-- The `(edge index, face index)` push operations of the face-to-edge
adjacency pass, in execution order. -/
def edgeOps (fs : List Face) : List (ℕ × ℕ) :=
  (List.range fs.length).flatMap (fun i =>
    (refFaceEdgeList (fs.getD i dfltFace)).map (fun e => (e, i)))

/-- The normalized midpoint of an edge's endpoints. -/
def midOfEdge (old : Polyhedron Pos) (e : Edge) : Pos :=
  mkMid (posAt old e.vertex_indices.1) (posAt old e.vertex_indices.2)

/-- Canonical enumeration of the distinct vertex keys of a refine pass: the
old vertex positions, then the midpoint of each old edge. -/
def vListC (old : Polyhedron Pos) : List Pos :=
  old.vertices.map (fun v => v.pos) ++ old.edges.map (midOfEdge old)

/-- The two boundary edge keys contributed by an old edge: the index of each
endpoint paired with the index of the edge midpoint, canonicalized. -/
def bKeysOfEdge (old : Polyhedron Pos) (FV : List Pos) (e : Edge) :
    List (ℕ × ℕ) :=
  [sortPairN (idxK FV (posAt old e.vertex_indices.1)) (idxK FV (midOfEdge old e)),
   sortPairN (idxK FV (posAt old e.vertex_indices.2)) (idxK FV (midOfEdge old e))]

/-- The six boundary edge keys a face feeds to `get_or_create`, in program
order. -/
def bSixOfFace (old : Polyhedron Pos) (FV : List Pos) (f : Face) :
    List (ℕ × ℕ) :=
  let v1 := posAt old f.vertex_indices.1
  let v2 := posAt old f.vertex_indices.2.1
  let v3 := posAt old f.vertex_indices.2.2
  let a := idxK FV v1
  let b := idxK FV v2
  let c := idxK FV v3
  let ab := idxK FV (mkMid v1 v2)
  let bc := idxK FV (mkMid v2 v3)
  let ca := idxK FV (mkMid v3 v1)
  [sortPairN a ab, sortPairN ab b, sortPairN b bc, sortPairN bc c,
   sortPairN c ca, sortPairN ca a]

/-- The three interior edge keys a face feeds to `get_or_create`, in program
order. -/
def iKeysOfFace (old : Polyhedron Pos) (FV : List Pos) (f : Face) :
    List (ℕ × ℕ) :=
  let v1 := posAt old f.vertex_indices.1
  let v2 := posAt old f.vertex_indices.2.1
  let v3 := posAt old f.vertex_indices.2.2
  let ab := idxK FV (mkMid v1 v2)
  let bc := idxK FV (mkMid v2 v3)
  let ca := idxK FV (mkMid v3 v1)
  [(ab, ca), (ab, bc), (bc, ca)]

/-- Canonical enumeration of the distinct edge keys of a refine pass: two
boundary keys per old edge, then three interior keys per old face. -/
def eListC (old : Polyhedron Pos) : List (ℕ × ℕ) :=
  old.edges.flatMap (bKeysOfEdge old (refFV mkMid old)) ++
  old.faces.flatMap (iKeysOfFace old (refFV mkMid old))

/-- The twelve edge-key references made by the four child faces of a parent
face, in stored order. -/
def wKeysOfFace (old : Polyhedron Pos) (FV : List Pos) (f : Face) :
    List (ℕ × ℕ) :=
  let v1 := posAt old f.vertex_indices.1
  let v2 := posAt old f.vertex_indices.2.1
  let v3 := posAt old f.vertex_indices.2.2
  let a := idxK FV v1
  let b := idxK FV v2
  let c := idxK FV v3
  let ab := idxK FV (mkMid v1 v2)
  let bc := idxK FV (mkMid v2 v3)
  let ca := idxK FV (mkMid v3 v1)
  [sortPairN a ab, (ab, ca), sortPairN ca a,
   sortPairN ab b, sortPairN b bc, (ab, bc),
   sortPairN bc c, sortPairN c ca, (bc, ca),
   (ab, bc), (bc, ca), (ab, ca)]

/-! ## Theorems -/

theorem nearestScan_succ (f : ℕ → Option ℚ) (n : ℕ) :
    nearestScan f (n + 1) = nearestStep f (nearestScan f n) n := by
  simp [nearestScan, List.range_succ]

theorem nearestScan_none_iff (f : ℕ → Option ℚ) (n : ℕ) :
    nearestScan f n = none ↔ ∀ j < n, f j = none := by
  induction n with
  | zero => simp [nearestScan]
  | succ n ih =>
    rw [nearestScan_succ]
    constructor
    · intro h
      unfold nearestStep at h
      rcases hf : f n with _ | d
      · rw [hf] at h
        intro j hj
        rcases Nat.lt_succ_iff_lt_or_eq.mp hj with hj' | rfl
        · exact (ih.mp h) j hj'
        · exact hf
      · rw [hf] at h
        rcases hacc : nearestScan f n with _ | p
        · rw [hacc] at h
          simp at h
        · rw [hacc] at h
          rcases p with ⟨j, od⟩
          by_cases hod : od > d <;> simp [hod] at h
    · intro h
      have hn : nearestScan f n = none := ih.mpr (fun j hj => h j (Nat.lt_succ_of_lt hj))
      rw [hn]
      unfold nearestStep
      rw [h n (Nat.lt_succ_self n)]

theorem nearestScan_some_spec (f : ℕ → Option ℚ) (n : ℕ) (i : ℕ) (t : ℚ)
    (h : nearestScan f n = some (i, t)) :
    i < n ∧ f i = some t ∧ (∀ j, j < n → ∀ u, f j = some u → t ≤ u) ∧
      (∀ j, j < i → ∀ u, f j = some u → t < u) := by
  induction n generalizing i t with
  | zero => simp [nearestScan] at h
  | succ n ih =>
    rw [nearestScan_succ] at h
    unfold nearestStep at h
    rcases hf : f n with _ | d
    · rw [hf] at h
      obtain ⟨h1, h2, h3, h4⟩ := ih i t h
      refine ⟨Nat.lt_succ_of_lt h1, h2, ?_, h4⟩
      intro j hj u hu
      rcases Nat.lt_succ_iff_lt_or_eq.mp hj with hj' | rfl
      · exact h3 j hj' u hu
      · rw [hf] at hu; exact absurd hu (by simp)
    · rw [hf] at h
      rcases hacc : nearestScan f n with _ | ⟨j₀, od⟩
      · rw [hacc] at h
        have hall : ∀ j < n, f j = none := (nearestScan_none_iff f n).mp hacc
        simp only [Option.some.injEq, Prod.mk.injEq] at h
        obtain ⟨rfl, rfl⟩ := h
        refine ⟨Nat.lt_succ_self _, hf, ?_, ?_⟩
        · intro j hj u hu
          rcases Nat.lt_succ_iff_lt_or_eq.mp hj with hj' | rfl
          · rw [hall j hj'] at hu; exact absurd hu (by simp)
          · rw [hf] at hu
            simp only [Option.some.injEq] at hu
            exact le_of_eq hu
        · intro j hj u hu
          rw [hall j hj] at hu; exact absurd hu (by simp)
      · rw [hacc] at h
        obtain ⟨hj₀n, hfj₀, hmin, hfirst⟩ := ih j₀ od hacc
        by_cases hod : od > d
        · simp only [if_pos hod, Option.some.injEq, Prod.mk.injEq] at h
          obtain ⟨rfl, rfl⟩ := h
          refine ⟨Nat.lt_succ_self _, hf, ?_, ?_⟩
          · intro j hj u hu
            rcases Nat.lt_succ_iff_lt_or_eq.mp hj with hj' | rfl
            · have := hmin j hj' u hu
              linarith
            · rw [hf] at hu
              simp only [Option.some.injEq] at hu
              linarith [hu.le]
          · intro j hj u hu
            have := hmin j hj u hu
            linarith
        · simp only [if_neg hod, Option.some.injEq, Prod.mk.injEq] at h
          obtain ⟨rfl, rfl⟩ := h
          push_neg at hod
          refine ⟨Nat.lt_succ_of_lt hj₀n, hfj₀, ?_, hfirst⟩
          intro j hj u hu
          rcases Nat.lt_succ_iff_lt_or_eq.mp hj with hj' | rfl
          · exact hmin j hj' u hu
          · rw [hf] at hu
            simp only [Option.some.injEq] at hu
            linarith [le_of_eq hu]

theorem nearestScan_some_iff (f : ℕ → Option ℚ) (n : ℕ) (i : ℕ) (t : ℚ) :
    nearestScan f n = some (i, t) ↔
      (i < n ∧ f i = some t ∧ (∀ j, j < n → ∀ u, f j = some u → t ≤ u) ∧
        (∀ j, j < i → ∀ u, f j = some u → t < u)) := by
  constructor
  · exact nearestScan_some_spec f n i t
  · rintro ⟨hin, hfi, hmin, hfirst⟩
    rcases hres : nearestScan f n with _ | ⟨i', t'⟩
    · have := (nearestScan_none_iff f n).mp hres i hin
      rw [this] at hfi
      exact absurd hfi (by simp)
    · obtain ⟨hin', hfi', hmin', hfirst'⟩ := nearestScan_some_spec f n i' t' hres
      have htt : t = t' :=
        le_antisymm (hmin i' hin' t' hfi') (hmin' i hin t hfi)
      have hii : i = i' := by
        rcases lt_trichotomy i i' with hlt | heq | hgt
        · have := hfirst' i hlt t hfi
          exact absurd (htt ▸ this) (lt_irrefl t)
        · exact heq
        · have h2 := hfirst i' hgt t' hfi'
          rw [htt] at h2
          exact absurd h2 (lt_irrefl t')
      rw [hii, htt]

/-- **C4** — `intersecting_triangle_id` returns `some i` exactly when face `i`
passes the edge-plane containment test with the smallest intersection
parameter, ties between equal parameters going to the smaller face index, and
returns `none` exactly when no face passes the test. -/
theorem c4_pick_nearest_face_first_tie (norm3 : Vec3 → Vec3)
    (poly : Polyhedron Vec3) (ray : Ray) :
    (∀ i, intersectingTriangleId norm3 poly ray = some i ↔
      ∃ t, i < poly.faces.length ∧ poly.faceDist norm3 ray i = some t ∧
        (∀ j, j < poly.faces.length → ∀ u, poly.faceDist norm3 ray j = some u → t ≤ u) ∧
        (∀ j, j < i → ∀ u, poly.faceDist norm3 ray j = some u → t < u)) ∧
    (intersectingTriangleId norm3 poly ray = none ↔
      ∀ j, j < poly.faces.length → poly.faceDist norm3 ray j = none) := by
  constructor
  · intro i
    unfold intersectingTriangleId
    rcases hres : nearestScan (poly.faceDist norm3 ray) poly.faces.length with _ | ⟨i', t'⟩
    · simp only []
      constructor
      · intro h; exact absurd h (by simp)
      · rintro ⟨t, hin, hfi, -, -⟩
        have := (nearestScan_none_iff _ _).mp hres i hin
        rw [this] at hfi
        exact absurd hfi (by simp)
    · simp only [Option.some.injEq]
      constructor
      · rintro rfl
        obtain ⟨h1, h2, h3, h4⟩ := nearestScan_some_spec _ _ _ _ hres
        exact ⟨t', h1, h2, h3, h4⟩
      · rintro ⟨t, hin, hfi, hmin, hfirst⟩
        have := (nearestScan_some_iff (poly.faceDist norm3 ray)
          poly.faces.length i t).mpr ⟨hin, hfi, hmin, hfirst⟩
        rw [this] at hres
        injection hres with h'
        injection h' with ha hb
        exact ha.symm
  · unfold intersectingTriangleId
    rcases hres : nearestScan (poly.faceDist norm3 ray) poly.faces.length with _ | ⟨i', t'⟩
    · constructor
      · intro _
        exact (nearestScan_none_iff _ _).mp hres
      · intro _
        rfl
    · simp only []
      constructor
      · intro h; exact absurd h (by simp)
      · intro h
        have : nearestScan (poly.faceDist norm3 ray) poly.faces.length = none :=
          (nearestScan_none_iff _ _).mpr h
        rw [this] at hres
        exact absurd hres (by simp)

/-! ### C6 — behaviour on a ray parallel to a face plane

`Plane::intersection_point` divides by `ray.dir.dot(normal)` with no branch
testing the denominator.  `cgmath`'s `normalize` rescales a vector by a
positive factor; the demonstration below only uses that property. -/

theorem getPlaneSide_normal_eq (pl pl' : Plane) (h : pl.normal = pl'.normal)
    (p : Vec3) : pl.getPlaneSide p = pl'.getPlaneSide p := by
  unfold Plane.getPlaneSide
  rw [h]

theorem getPlaneSide_smul (c : ℚ) (hc : 0 < c) (n : Vec3) (d d' : ℚ)
    (p : Vec3) :
    Plane.getPlaneSide ⟨Vec3.smul c n, d⟩ p = Plane.getPlaneSide ⟨n, d'⟩ p := by
  have hdot : p.dot (Vec3.smul c n) = c * p.dot n := by
    simp only [Vec3.dot, Vec3.smul]
    ring
  unfold Plane.getPlaneSide
  simp only [hdot]
  have h1 : (-(c * p.dot n) < 0) = (-(p.dot n) < 0) := by
    apply propext
    constructor <;> intro h <;> nlinarith
  have h2 : (-(c * p.dot n) > 0) = (-(p.dot n) > 0) := by
    apply propext
    constructor <;> intro h <;> nlinarith
  simp only [h1, h2]

theorem cPlane_eval (norm3 : Vec3 → Vec3) :
    Plane.fromPoints norm3 cTriV1 cTriV2 cTriV3 = ⟨norm3 ⟨0, 0, 4⟩, -4⟩ := by
  simp only [Plane.fromPoints, Vec3.sub, cTriV1, cTriV2, cTriV3]
  norm_num

theorem cEdgePlane1_eval (norm3 : Vec3 → Vec3) :
    (Plane.fromPoints norm3 cRayPar.orig cTriV1 cTriV2).normal = norm3 ⟨4, 8, 1⟩ := by
  simp only [Plane.fromPoints, Vec3.sub, cTriV1, cTriV2, cRayPar]
  norm_num

theorem cEdgePlane2_eval (norm3 : Vec3 → Vec3) :
    (Plane.fromPoints norm3 cRayPar.orig cTriV2 cTriV3).normal = norm3 ⟨-8, 0, 2⟩ := by
  simp only [Plane.fromPoints, Vec3.sub, cTriV2, cTriV3, cRayPar]
  norm_num

theorem cEdgePlane3_eval (norm3 : Vec3 → Vec3) :
    (Plane.fromPoints norm3 cRayPar.orig cTriV3 cTriV1).normal = norm3 ⟨4, -8, 1⟩ := by
  simp only [Plane.fromPoints, Vec3.sub, cTriV3, cTriV1, cRayPar]
  norm_num

/-- **C6** — there is no guard: on a ray exactly parallel to a face's
supporting plane the denominator `dir · normal` is `0`, the division is
performed anyway, and the face is reported as intersected (`some 0` in the
exact model, where `x / 0 = 0`) instead of being treated as not
intersected. -/
theorem c6_parallel_ray_not_rejected (norm3 : Vec3 → Vec3)
    (h : ScalesPos norm3) :
    Vec3.dot cRayPar.dir (Plane.fromPoints norm3 cTriV1 cTriV2 cTriV3).normal = 0 ∧
    Ray.intersectionDist norm3 cRayPar cTriV1 cTriV2 cTriV3 ≠ none ∧
    Ray.intersectionDist norm3 cRayPar cTriV1 cTriV2 cTriV3 = some 0 := by
  obtain ⟨c0, hc0, h0⟩ := h ⟨0, 0, 4⟩
  obtain ⟨c1, hc1, h1⟩ := h ⟨4, 8, 1⟩
  obtain ⟨c2, hc2, h2⟩ := h ⟨-8, 0, 2⟩
  obtain ⟨c3, hc3, h3⟩ := h ⟨4, -8, 1⟩
  have hden : Vec3.dot cRayPar.dir (Vec3.smul c0 ⟨0, 0, 4⟩) = 0 := by
    simp [Vec3.dot, Vec3.smul, cRayPar]
  have hpt : Plane.intersectionPoint ⟨Vec3.smul c0 ⟨0, 0, 4⟩, -4⟩ cRayPar
      = (⟨0, 0, 5⟩, 0) := by
    unfold Plane.intersectionPoint
    simp only [hden, div_zero]
    simp [Vec3.add, Vec3.mulS, cRayPar]
  have hs1 : Plane.getPlaneSide ⟨norm3 ⟨4, 8, 1⟩,
      (Plane.fromPoints norm3 cRayPar.orig cTriV1 cTriV2).d⟩ (⟨0, 0, 5⟩ : Vec3)
      = PlaneSide.Above := by
    rw [h1, getPlaneSide_smul c1 hc1 _ _ 0]
    norm_num [Plane.getPlaneSide, Vec3.dot]
  have hs2 : Plane.getPlaneSide ⟨norm3 ⟨-8, 0, 2⟩,
      (Plane.fromPoints norm3 cRayPar.orig cTriV2 cTriV3).d⟩ (⟨0, 0, 5⟩ : Vec3)
      = PlaneSide.Above := by
    rw [h2, getPlaneSide_smul c2 hc2 _ _ 0]
    norm_num [Plane.getPlaneSide, Vec3.dot]
  have hs3 : Plane.getPlaneSide ⟨norm3 ⟨4, -8, 1⟩,
      (Plane.fromPoints norm3 cRayPar.orig cTriV3 cTriV1).d⟩ (⟨0, 0, 5⟩ : Vec3)
      = PlaneSide.Above := by
    rw [h3, getPlaneSide_smul c3 hc3 _ _ 0]
    norm_num [Plane.getPlaneSide, Vec3.dot]
  have hmain : Vec3.dot cRayPar.dir (Plane.fromPoints norm3 cTriV1 cTriV2 cTriV3).normal = 0 := by
    rw [cPlane_eval, h0]
    exact hden
  have g1 : Plane.getPlaneSide (Plane.fromPoints norm3 cRayPar.orig cTriV1 cTriV2)
      (⟨0, 0, 5⟩ : Vec3) = PlaneSide.Above := by
    rw [getPlaneSide_normal_eq _ ⟨norm3 ⟨4, 8, 1⟩,
      (Plane.fromPoints norm3 cRayPar.orig cTriV1 cTriV2).d⟩ (cEdgePlane1_eval norm3)]
    exact hs1
  have g2 : Plane.getPlaneSide (Plane.fromPoints norm3 cRayPar.orig cTriV2 cTriV3)
      (⟨0, 0, 5⟩ : Vec3) = PlaneSide.Above := by
    rw [getPlaneSide_normal_eq _ ⟨norm3 ⟨-8, 0, 2⟩,
      (Plane.fromPoints norm3 cRayPar.orig cTriV2 cTriV3).d⟩ (cEdgePlane2_eval norm3)]
    exact hs2
  have g3 : Plane.getPlaneSide (Plane.fromPoints norm3 cRayPar.orig cTriV3 cTriV1)
      (⟨0, 0, 5⟩ : Vec3) = PlaneSide.Above := by
    rw [getPlaneSide_normal_eq _ ⟨norm3 ⟨4, -8, 1⟩,
      (Plane.fromPoints norm3 cRayPar.orig cTriV3 cTriV1).d⟩ (cEdgePlane3_eval norm3)]
    exact hs3
  refine ⟨hmain, ?_, ?_⟩ <;>
  · unfold Ray.intersectionDist
    rw [cPlane_eval norm3, h0]
    simp only [hpt, g1, g2, g3]
    simp

/-- Witness for C6 at the identity rescaling (factor 1). -/
theorem c6_parallel_ray_not_rejected_witness :
    Vec3.dot cRayPar.dir (Plane.fromPoints (fun v => v) cTriV1 cTriV2 cTriV3).normal = 0 ∧
    Ray.intersectionDist (fun v => v) cRayPar cTriV1 cTriV2 cTriV3 ≠ none ∧
    Ray.intersectionDist (fun v => v) cRayPar cTriV1 cTriV2 cTriV3 = some 0 :=
  c6_parallel_ray_not_rejected (fun v => v)
    (fun v => ⟨1, one_pos, by simp [Vec3.smul]⟩)

/-! ### C5 — the configuration check of `PlateSimulation::new` -/

/-- **C5** — constructing the plate partition raises the configuration error
exactly when the requested plate count exceeds the face count of the mesh;
for `num_plates ≤ faces.len()` no configuration error is raised. -/
theorem c5_config_error_iff_too_many_plates (norm3 : Vec3 → Vec3)
    (vlen : Vec3 → ℚ) (fuel : ℕ) (poly : Polyhedron Vec3) (num_plates : ℕ)
    (r : Rng) :
    (∃ msg, PlateSimulation.mkNew norm3 vlen fuel poly num_plates r
        = Except.error msg) ↔ poly.faces.length < num_plates := by
  unfold PlateSimulation.mkNew
  by_cases h : poly.faces.length < num_plates
  · simp [h]
  · rcases hrp : randomPartition norm3 fuel r (mkSimVerts poly) num_plates with _ | pr <;>
      simp [h, hrp]

/-! ### C8 — determinism of `random_partition` in the generator -/

/-- **C8** — `random_partition` depends on nothing but its explicit inputs:
two runs whose generators hold pointwise identical streams and equal cursors
return identical plates (same vertex sets, axes, speeds and height biases);
there is no implicit global random state in the embedding of
`plate_simulation.rs::random_partition`, whose only random source is the
`rng` argument. -/
theorem c8_random_partition_deterministic (norm3 : Vec3 → Vec3) (fuel : ℕ)
    (verts : List PlatePoint) (num_plates : ℕ) (s1 s2 : ℕ → ℕ) (pos : ℕ)
    (h : ∀ i, s1 i = s2 i) :
    randomPartition norm3 fuel ⟨s1, pos⟩ verts num_plates =
      randomPartition norm3 fuel ⟨s2, pos⟩ verts num_plates := by
  have hs : s1 = s2 := funext h
  rw [hs]

/-- Witness for C8 on a concrete one-vertex mesh and two syntactically
different but pointwise equal streams. -/
theorem c8_random_partition_deterministic_witness :
    randomPartition (fun v => v) 3 ⟨fun i => i, 0⟩ [defaultPlatePoint] 1 =
      randomPartition (fun v => v) 3 ⟨fun i => 0 + i, 0⟩ [defaultPlatePoint] 1 :=
  c8_random_partition_deterministic (fun v => v) 3 [defaultPlatePoint] 1
    (fun i => i) (fun i => 0 + i) 0 (fun i => (Nat.zero_add i).symm)

/-! ### C3 — the damping formula of `simulate_plates_step` -/

theorem foldl_add_map_sum {α : Type} (g : α → ℚ) (l : List α) (a : ℚ) :
    l.foldl (fun s x => s + g x) a = a + (l.map g).sum := by
  induction l generalizing a with
  | nil => simp
  | cons x xs ih =>
    simp only [List.foldl_cons, List.map_cons, List.sum_cons, ih]
    ring

theorem clampedDotSum_eq_sum (verts : List PlatePoint) (v : PlatePoint) :
    clampedDotSum verts v
      = (verts.map (fun v2 => max (v.pos.dot v2.pos) (1/2))).sum := by
  unfold clampedDotSum
  rw [foldl_add_map_sum]
  ring

theorem map_sub_const_sum {α : Type} (g : α → ℚ) (c : ℚ) (l : List α) :
    (l.map (fun x => g x - c)).sum = (l.map g).sum - l.length * c := by
  induction l with
  | nil => simp
  | cons x xs ih =>
    simp only [List.map_cons, List.sum_cons, ih, List.length_cons]
    push_cast
    ring

/-- `avg_dist` equals the average of the per-vertex clamped contributions
`max (dot - 1/2) 0`: dot products below the threshold `0.5` contribute
zero. -/
theorem avgDist_eq_clamped_contributions (verts : List PlatePoint)
    (v : PlatePoint) :
    avgDist verts v
      = (verts.map (fun v2 => max (v.pos.dot v2.pos - 1/2) 0)).sum
          / (verts.length : ℚ) := by
  unfold avgDist
  rw [clampedDotSum_eq_sum]
  congr 1
  have hmax : ∀ v2 : PlatePoint,
      max (v.pos.dot v2.pos) (1/2) - 1/2 = max (v.pos.dot v2.pos - 1/2) 0 := by
    intro v2
    rw [← max_sub_sub_right]
    norm_num
  calc (verts.map (fun v2 => max (v.pos.dot v2.pos) (1/2))).sum
        - (verts.length : ℚ) * (1/2)
      = (verts.map (fun v2 => max (v.pos.dot v2.pos) (1/2) - 1/2)).sum := by
        rw [map_sub_const_sum]
    _ = (verts.map (fun v2 => max (v.pos.dot v2.pos - 1/2) 0)).sum := by
        simp only [hmax]

theorem length_plate_simulate (rot : Vec3 → ℚ → Vec3 → Vec3) (pl : Plate)
    (vs : List PlatePoint) : (pl.simulate rot vs).length = vs.length := by
  unfold Plate.simulate
  generalize pl.vertex_indices = l
  induction l generalizing vs with
  | nil => rfl
  | cons x xs ih =>
    simp only [List.foldl_cons]
    rw [ih]
    exact List.length_set ..

theorem length_rotatePhase (rot : Vec3 → ℚ → Vec3 → Vec3)
    (s : PlateSimulation) : (rotatePhase rot s).length = s.verts.length := by
  unfold rotatePhase
  generalize hv : s.verts = vs
  generalize s.plates = ps
  clear hv
  induction ps generalizing vs with
  | nil => rfl
  | cons p ps ih =>
    simp only [List.foldl_cons]
    rw [ih, length_plate_simulate]

/-- **C3** (amended) — after the rotation phase, each simulation step scales
vertex `i`'s per-vertex angular speed by `1 - avg_dist / initial_distance`,
where `avg_dist` averages the clamped contributions `max (dot - 1/2) 0` over
ALL vertices (the vertex itself included, contributing `max (|p|² - 1/2) 0`),
normalized by the vertex count; dot products below the `0.5` threshold
contribute zero; positions are not changed by the damping phase;
`initial_distance` is untouched by the step and is set at construction to the
mesh's edge-0 length. -/
theorem c3_step_damping_all_vertices (rot : Vec3 → ℚ → Vec3 → Vec3)
    (norm3 : Vec3 → Vec3) (vlen : Vec3 → ℚ) (fuel : ℕ)
    (s : PlateSimulation) (i : ℕ) (h : i < s.verts.length) :
    (((s.simulatePlatesStep rot).verts.getD i defaultPlatePoint).speed
      = ((rotatePhase rot s).getD i defaultPlatePoint).speed *
        (1 - avgDist (rotatePhase rot s) ((rotatePhase rot s).getD i defaultPlatePoint)
              / s.initial_distance))
    ∧ (((s.simulatePlatesStep rot).verts.getD i defaultPlatePoint).pos
        = ((rotatePhase rot s).getD i defaultPlatePoint).pos)
    ∧ (avgDist (rotatePhase rot s) ((rotatePhase rot s).getD i defaultPlatePoint)
        = ((rotatePhase rot s).map (fun v2 =>
            max ((((rotatePhase rot s).getD i defaultPlatePoint).pos.dot v2.pos) - 1/2) 0)).sum
            / (s.verts.length : ℚ))
    ∧ (s.simulatePlatesStep rot).initial_distance = s.initial_distance
    ∧ (∀ (poly : Polyhedron Vec3) (num_plates : ℕ) (r : Rng)
        (out : PlateSimulation × Rng),
        PlateSimulation.mkNew norm3 vlen fuel poly num_plates r = Except.ok (some out) →
        out.1.initial_distance = getEdgeLength vlen poly) := by
  have h1 : i < (rotatePhase rot s).length := by
    rw [length_rotatePhase]; exact h
  have h2 : i < ((rotatePhase rot s).map (fun v =>
      { v with speed := v.speed *
          (1 - avgDist (rotatePhase rot s) v / s.initial_distance) })).length := by
    rw [List.length_map]; exact h1
  refine ⟨?_, ?_, ?_, rfl, ?_⟩
  · show ((((rotatePhase rot s).map (fun v =>
        { v with speed := v.speed *
            (1 - avgDist (rotatePhase rot s) v / s.initial_distance) })).getD i
          defaultPlatePoint).speed = _)
    rw [List.getD_eq_getElem _ _ h2, List.getElem_map,
      List.getD_eq_getElem _ _ h1]
  · show ((((rotatePhase rot s).map (fun v =>
        { v with speed := v.speed *
            (1 - avgDist (rotatePhase rot s) v / s.initial_distance) })).getD i
          defaultPlatePoint).pos = _)
    rw [List.getD_eq_getElem _ _ h2, List.getElem_map,
      List.getD_eq_getElem _ _ h1]
  · rw [avgDist_eq_clamped_contributions, length_rotatePhase]
  · intro poly num_plates r out hmk
    unfold PlateSimulation.mkNew at hmk
    by_cases hc : poly.faces.length < num_plates
    · rw [if_pos hc] at hmk
      exact absurd hmk (by simp)
    · rw [if_neg hc] at hmk
      rcases hrp : randomPartition norm3 fuel r (mkSimVerts poly) num_plates with _ | pr <;>
        rw [hrp] at hmk
      · exact absurd hmk (by simp)
      · simp only [Except.ok.injEq, Option.some.injEq] at hmk
        rw [← hmk]

/-- Witness for C3 at a concrete one-vertex state with the identity
rotation. -/
theorem c3_step_damping_all_vertices_witness :
    (((c3State.simulatePlatesStep (fun _ _ v => v)).verts.getD 0 defaultPlatePoint).speed
      = ((rotatePhase (fun _ _ v => v) c3State).getD 0 defaultPlatePoint).speed *
        (1 - avgDist (rotatePhase (fun _ _ v => v) c3State)
              ((rotatePhase (fun _ _ v => v) c3State).getD 0 defaultPlatePoint)
              / c3State.initial_distance))
    ∧ (((c3State.simulatePlatesStep (fun _ _ v => v)).verts.getD 0 defaultPlatePoint).pos
        = ((rotatePhase (fun _ _ v => v) c3State).getD 0 defaultPlatePoint).pos)
    ∧ (avgDist (rotatePhase (fun _ _ v => v) c3State)
          ((rotatePhase (fun _ _ v => v) c3State).getD 0 defaultPlatePoint)
        = ((rotatePhase (fun _ _ v => v) c3State).map (fun v2 =>
            max ((((rotatePhase (fun _ _ v => v) c3State).getD 0 defaultPlatePoint).pos.dot v2.pos) - 1/2) 0)).sum
            / (c3State.verts.length : ℚ))
    ∧ (c3State.simulatePlatesStep (fun _ _ v => v)).initial_distance = c3State.initial_distance
    ∧ (∀ (poly : Polyhedron Vec3) (num_plates : ℕ) (r : Rng)
        (out : PlateSimulation × Rng),
        PlateSimulation.mkNew (fun v => v) (fun _ => 1) 2 poly num_plates r = Except.ok (some out) →
        out.1.initial_distance = getEdgeLength (fun _ => 1) poly) :=
  c3_step_damping_all_vertices (fun _ _ v => v) (fun v => v) (fun _ => 1) 2
    c3State 0 (by decide)

/-- **C3 counterexample** — at a concrete one-vertex state the code's damped
speed (`1/2`) differs from the value demanded by the claim's "average
closeness to all other vertices" reading (which would leave the speed at
`1`): the code's sum includes the vertex itself. -/
theorem c3_other_vertices_reading_false :
    ((c3State.simulatePlatesStep (fun _ _ v => v)).verts.getD 0 defaultPlatePoint).speed ≠
      ((rotatePhase (fun _ _ v => v) c3State).getD 0 defaultPlatePoint).speed *
        (1 - avgDistSpecOther (rotatePhase (fun _ _ v => v) c3State) 0
              / c3State.initial_distance) := by
  have hl : ((c3State.simulatePlatesStep (fun _ _ v => v)).verts.getD 0 defaultPlatePoint).speed
      = 1/2 := by
    simp [PlateSimulation.simulatePlatesStep, rotatePhase, Plate.simulate,
      PlatePoint.moveAround, avgDist, clampedDotSum, c3State, defaultPlatePoint,
      Vec3.dot]
    norm_num
  have hr : ((rotatePhase (fun _ _ v => v) c3State).getD 0 defaultPlatePoint).speed *
      (1 - avgDistSpecOther (rotatePhase (fun _ _ v => v) c3State) 0
            / c3State.initial_distance) = 1 := by
    simp [rotatePhase, Plate.simulate, PlatePoint.moveAround, avgDistSpecOther,
      c3State, defaultPlatePoint, Vec3.dot, List.filter]
  rw [hl, hr]
  norm_num

/-! ### C2 — helper lemmas about the partition bookkeeping -/

theorem getD_set_self {α : Type} (l : List α) (i : ℕ) (x d : α)
    (h : i < l.length) : (l.set i x).getD i d = x := by
  rw [List.getD_eq_getElem _ _ (by simpa using h), List.getElem_set_self (by simpa using h)]

theorem getD_set_ne {α : Type} (l : List α) (i j : ℕ) (x d : α)
    (h : i ≠ j) : (l.set i x).getD j d = l.getD j d := by
  simp only [List.getD, List.get?_eq_getElem?]
  rw [List.getElem?_set_ne h]

theorem occCount_append_single (ptss : List (List ℕ)) (l : List ℕ) (v : ℕ) :
    occCount (ptss ++ [l]) v = occCount ptss v + l.count v := by
  simp [occCount]

theorem occCount_set (ptss : List (List ℕ)) (p : ℕ) (w : List ℕ) (v : ℕ)
    (h : p < ptss.length) :
    occCount (ptss.set p w) v + (ptss.getD p []).count v
      = occCount ptss v + w.count v := by
  induction ptss generalizing p with
  | nil => simp at h
  | cons a as ih =>
    cases p with
    | zero => simp [occCount, List.getD]; ring
    | succ p =>
      simp only [List.set_cons_succ, occCount, List.map_cons, List.sum_cons]
      have := ih p (by simpa using h)
      simp only [occCount] at this
      have hgd : (a :: as).getD (p + 1) [] = as.getD p [] := by
        simp [List.getD]
      rw [hgd]
      omega

theorem claimedCount_replicate (n : ℕ) :
    claimedCount (List.replicate n (-1 : ℤ)) = 0 := by
  induction n with
  | zero => rfl
  | succ n ih => simpa [claimedCount, List.replicate_succ, List.filter] using ih

theorem claimedCount_le_length (ids : List ℤ) :
    claimedCount ids ≤ ids.length := by
  simpa [claimedCount] using List.length_filter_le _ ids

theorem claimedCount_set_new (ids : List ℤ) (v : ℕ) (x : ℤ)
    (hv : v < ids.length) (hold : ids.getD v (-1) = -1) (hx : x ≠ -1) :
    claimedCount (ids.set v x) = claimedCount ids + 1 := by
  induction ids generalizing v with
  | nil => simp at hv
  | cons a as ih =>
    cases v with
    | zero =>
      have ha : a = -1 := by simpa [List.getD] using hold
      subst ha
      simp [claimedCount, List.filter, hx]
    | succ v =>
      have h1 : v < as.length := by simpa using hv
      have h2 : as.getD v (-1) = -1 := by simpa [List.getD] using hold
      have := ih v h1 h2
      by_cases ha : a = -1 <;>
        simp_all [claimedCount, List.set_cons_succ, List.filter, ha]

theorem claimedCount_full (ids : List ℤ)
    (h : claimedCount ids = ids.length) :
    ∀ v, v < ids.length → ids.getD v (-1) ≠ -1 := by
  induction ids with
  | nil => intro v hv; simp at hv
  | cons a as ih =>
    intro v hv
    by_cases ha : a = -1
    · exfalso
      subst ha
      have hlt : claimedCount ((-1 : ℤ) :: as) = claimedCount as := by
        simp [claimedCount, List.filter]
      rw [hlt] at h
      have := claimedCount_le_length as
      simp only [List.length_cons] at h
      omega
    · cases v with
      | zero => simpa [List.getD] using ha
      | succ v =>
        have hstep : claimedCount (a :: as) = claimedCount as + 1 := by
          simp [claimedCount, List.filter, ha]
        rw [hstep] at h
        simp only [List.length_cons] at h
        have h2 : v < as.length := by simpa using hv
        have := ih (by omega) v h2
        simpa [List.getD] using this

theorem claimedCount_all (ids : List ℤ)
    (h : ∀ v, v < ids.length → ids.getD v (-1) ≠ -1) :
    claimedCount ids = ids.length := by
  induction ids with
  | nil => rfl
  | cons a as ih =>
    have ha : a ≠ -1 := by
      have := h 0 (by simp)
      simpa [List.getD] using this
    have has : claimedCount as = as.length := by
      apply ih
      intro v hv
      have := h (v + 1) (by simpa using Nat.succ_lt_succ hv)
      simpa [List.getD] using this
    have hstep : claimedCount (a :: as) = claimedCount as + 1 := by
      simp [claimedCount, List.filter, ha]
    rw [hstep, has]
    simp

theorem natCast_ne_negOne (k : ℕ) : (k : ℤ) ≠ -1 := by omega

theorem count_singleton_eval (x v : ℕ) :
    List.count v [x] = if x = v then 1 else 0 := by
  by_cases h : x = v <;> simp [h, List.count_singleton]

theorem assignOne_spec (n plate_idx x : ℕ) (a : AssignState)
    (hp : plate_idx < a.plate_points.length) (hx : x < n)
    (hI : PartIds n a.plate_id_for_verts a.plate_points) :
    PartIds n (assignOne plate_idx a x).plate_id_for_verts
      (assignOne plate_idx a x).plate_points ∧
    (assignOne plate_idx a x).plate_points.length = a.plate_points.length ∧
    (assignOne plate_idx a x).num_assigned + claimedCount a.plate_id_for_verts
      = a.num_assigned + claimedCount (assignOne plate_idx a x).plate_id_for_verts := by
  obtain ⟨hlen, hocc, hoob⟩ := hI
  unfold assignOne
  by_cases hcl : a.plate_id_for_verts.getD x (-1) = -1
  · rw [if_pos hcl]
    have hxlen : x < a.plate_id_for_verts.length := by rw [hlen]; exact hx
    have hclaim := claimedCount_set_new a.plate_id_for_verts x (plate_idx : ℤ)
      hxlen hcl (natCast_ne_negOne plate_idx)
    refine ⟨⟨by simpa using hlen, ?_, ?_⟩, by simp, by simp [hclaim]; omega⟩
    · intro v hv
      have hset := occCount_set a.plate_points plate_idx
        (a.plate_points.getD plate_idx [] ++ [x]) v hp
      rw [List.count_append] at hset
      have hocc' : occCount (a.plate_points.set plate_idx
          (a.plate_points.getD plate_idx [] ++ [x])) v
          = occCount a.plate_points v + List.count v [x] := by omega
      show occCount _ v = _
      by_cases hvx : v = x
      · subst hvx
        rw [hocc', hocc v hv, if_pos hcl, count_singleton_eval]
        rw [getD_set_self _ _ _ _ hxlen]
        simp [natCast_ne_negOne plate_idx]
      · have hxv : x ≠ v := fun hh => hvx hh.symm
        rw [hocc', hocc v hv, count_singleton_eval,
          getD_set_ne _ _ _ _ _ hxv]
        simp [hxv]
    · intro v hnv
      have hxv : x ≠ v := by omega
      have hset := occCount_set a.plate_points plate_idx
        (a.plate_points.getD plate_idx [] ++ [x]) v hp
      rw [List.count_append] at hset
      show occCount (a.plate_points.set plate_idx
        (a.plate_points.getD plate_idx [] ++ [x])) v = 0
      have := hoob v hnv
      rw [count_singleton_eval] at hset
      simp only [hxv, if_false] at hset
      omega
  · rw [if_neg hcl]
    exact ⟨⟨hlen, hocc, hoob⟩, rfl, rfl⟩

theorem assignNeighbors_spec (n plate_idx : ℕ) (nbrs : List ℕ)
    (a : AssignState)
    (hp : plate_idx < a.plate_points.length)
    (hn : ∀ x ∈ nbrs, x < n)
    (hI : PartIds n a.plate_id_for_verts a.plate_points) :
    PartIds n (assignNeighbors plate_idx a nbrs).plate_id_for_verts
      (assignNeighbors plate_idx a nbrs).plate_points ∧
    (assignNeighbors plate_idx a nbrs).plate_points.length = a.plate_points.length ∧
    (assignNeighbors plate_idx a nbrs).num_assigned + claimedCount a.plate_id_for_verts
      = a.num_assigned + claimedCount (assignNeighbors plate_idx a nbrs).plate_id_for_verts := by
  induction nbrs generalizing a with
  | nil => exact ⟨hI, rfl, rfl⟩
  | cons x xs ih =>
    have hstep : assignNeighbors plate_idx a (x :: xs)
        = assignNeighbors plate_idx (assignOne plate_idx a x) xs := by
      simp [assignNeighbors]
    obtain ⟨hI1, hlen1, hnum1⟩ := assignOne_spec n plate_idx x a hp
      (hn x (by simp)) hI
    have hp1 : plate_idx < (assignOne plate_idx a x).plate_points.length := by
      rw [hlen1]; exact hp
    obtain ⟨hI2, hlen2, hnum2⟩ := ih (assignOne plate_idx a x) hp1
      (fun y hy => hn y (by simp [hy])) hI1
    rw [hstep]
    refine ⟨hI2, by rw [hlen2, hlen1], by omega⟩

theorem frontierFold_spec (n plate_idx : ℕ) (verts : List PlatePoint)
    (pts : List ℕ) (a : AssignState)
    (hp : plate_idx < a.plate_points.length)
    (hwf : ∀ point_idx, ∀ x ∈ (verts.getD point_idx defaultPlatePoint).nbr_indices, x < n)
    (hI : PartIds n a.plate_id_for_verts a.plate_points) :
    PartIds n
      (pts.foldl (fun b point_idx =>
        assignNeighbors plate_idx b (verts.getD point_idx defaultPlatePoint).nbr_indices) a).plate_id_for_verts
      (pts.foldl (fun b point_idx =>
        assignNeighbors plate_idx b (verts.getD point_idx defaultPlatePoint).nbr_indices) a).plate_points ∧
    (pts.foldl (fun b point_idx =>
        assignNeighbors plate_idx b (verts.getD point_idx defaultPlatePoint).nbr_indices) a).plate_points.length
      = a.plate_points.length ∧
    (pts.foldl (fun b point_idx =>
        assignNeighbors plate_idx b (verts.getD point_idx defaultPlatePoint).nbr_indices) a).num_assigned
        + claimedCount a.plate_id_for_verts
      = a.num_assigned + claimedCount
        (pts.foldl (fun b point_idx =>
          assignNeighbors plate_idx b (verts.getD point_idx defaultPlatePoint).nbr_indices) a).plate_id_for_verts := by
  induction pts generalizing a with
  | nil => exact ⟨hI, rfl, rfl⟩
  | cons p ps ih =>
    simp only [List.foldl_cons]
    obtain ⟨hI1, hlen1, hnum1⟩ := assignNeighbors_spec n plate_idx
      (verts.getD p defaultPlatePoint).nbr_indices a hp (hwf p) hI
    obtain ⟨hI2, hlen2, hnum2⟩ := ih
      (assignNeighbors plate_idx a (verts.getD p defaultPlatePoint).nbr_indices)
      (by rw [hlen1]; exact hp) hI1
    exact ⟨hI2, by rw [hlen2, hlen1], by omega⟩

theorem floodPlateStep_spec (n : ℕ) (verts : List PlatePoint)
    (st : FloodState) (plate_idx : ℕ)
    (hp : plate_idx < st.plate_points.length)
    (hwf : ∀ point_idx, ∀ x ∈ (verts.getD point_idx defaultPlatePoint).nbr_indices, x < n)
    (hG : GoodFlood n st) :
    GoodFlood n (floodPlateStep verts st plate_idx) ∧
    (floodPlateStep verts st plate_idx).plate_points.length
      = st.plate_points.length := by
  obtain ⟨hI, hfill⟩ := hG
  obtain ⟨hI1, hlen1, hnum1⟩ := frontierFold_spec n plate_idx verts
    (st.frontier_points.getD plate_idx [])
    ⟨st.plate_points, [], st.plate_id_for_verts, 0⟩ hp hwf hI
  unfold floodPlateStep
  refine ⟨⟨hI1, ?_⟩, hlen1⟩
  dsimp only
  dsimp only at hnum1
  omega

theorem floodFold_spec (n : ℕ) (verts : List PlatePoint) (idxs : List ℕ)
    (st : FloodState)
    (hall : ∀ p ∈ idxs, p < st.plate_points.length)
    (hwf : ∀ point_idx, ∀ x ∈ (verts.getD point_idx defaultPlatePoint).nbr_indices, x < n)
    (hG : GoodFlood n st) :
    GoodFlood n (idxs.foldl (floodPlateStep verts) st) ∧
    (idxs.foldl (floodPlateStep verts) st).plate_points.length
      = st.plate_points.length := by
  induction idxs generalizing st with
  | nil => exact ⟨hG, rfl⟩
  | cons p ps ih =>
    simp only [List.foldl_cons]
    obtain ⟨hG1, hlen1⟩ := floodPlateStep_spec n verts st p
      (hall p (by simp)) hwf hG
    obtain ⟨hG2, hlen2⟩ := ih (floodPlateStep verts st p)
      (fun q hq => by rw [hlen1]; exact hall q (by simp [hq])) hG1
    exact ⟨hG2, by rw [hlen2, hlen1]⟩

theorem floodRound_spec (n : ℕ) (verts : List PlatePoint) (st : FloodState)
    (hwf : ∀ point_idx, ∀ x ∈ (verts.getD point_idx defaultPlatePoint).nbr_indices, x < n)
    (hG : GoodFlood n st) :
    GoodFlood n (floodRound verts st) ∧
    (floodRound verts st).plate_points.length = st.plate_points.length := by
  unfold floodRound
  exact floodFold_spec n verts (List.range st.plate_points.length) st
    (fun p hp => List.mem_range.mp hp) hwf hG

theorem floodFill_spec (n : ℕ) (verts : List PlatePoint) (fuel : ℕ)
    (st out : FloodState)
    (hwf : ∀ point_idx, ∀ x ∈ (verts.getD point_idx defaultPlatePoint).nbr_indices, x < n)
    (hG : GoodFlood n st)
    (h : floodFill verts fuel st = some out) :
    GoodFlood n out ∧ verts.length ≤ out.filled_points := by
  induction fuel generalizing st with
  | zero =>
    unfold floodFill at h
    by_cases hlt : st.filled_points < verts.length
    · rw [if_pos hlt] at h
      exact absurd h (by simp)
    · rw [if_neg hlt] at h
      injection h with h'
      subst h'
      exact ⟨hG, Nat.le_of_not_lt hlt⟩
  | succ fuel ih =>
    unfold floodFill at h
    by_cases hlt : st.filled_points < verts.length
    · rw [if_pos hlt] at h
      exact ih (floodRound verts st) (floodRound_spec n verts st hwf hG).1 h
    · rw [if_neg hlt] at h
      injection h with h'
      subst h'
      exact ⟨hG, Nat.le_of_not_lt hlt⟩

theorem getD_replicate (n v : ℕ) (x : ℤ) :
    (List.replicate n x).getD v x = x := by
  induction n generalizing v with
  | zero => cases v <;> rfl
  | succ n ih =>
    cases v with
    | zero => rfl
    | succ v => simpa [List.replicate_succ, List.getD] using ih v

theorem PartIds_init (n : ℕ) : PartIds n (List.replicate n (-1 : ℤ)) [] := by
  refine ⟨by simp, ?_, ?_⟩
  · intro v hv
    simp [occCount, getD_replicate]
  · intro v hv
    simp [occCount]

theorem findSeed_spec (n plate_idx fuel : ℕ) (r : Rng) (ids : List ℤ)
    (ptss : List (List ℕ)) (out : Rng × List ℤ × List (List ℕ))
    (hn : 0 < n)
    (hI : PartIds n ids ptss)
    (h : findSeed n plate_idx fuel r ids ptss = some out) :
    PartIds n out.2.1 out.2.2 ∧ out.2.2.length = ptss.length + 1 ∧
      claimedCount out.2.1 = claimedCount ids + 1 := by
  induction fuel generalizing r with
  | zero => exact absurd h (by simp [findSeed])
  | succ fuel ih =>
    unfold findSeed at h
    dsimp only at h
    by_cases hcl : ids.getD (r.genRangeNat 0 n).1 (-1) = -1
    · rw [if_pos hcl] at h
      injection h with h'
      subst h'
      obtain ⟨hlen, hocc, hoob⟩ := hI
      have hlt : (r.genRangeNat 0 n).1 < n := by
        simp only [Rng.genRangeNat, Nat.zero_add]
        exact Nat.lt_of_lt_of_le (Nat.mod_lt _ (by omega)) (by omega)
      have hxlen : (r.genRangeNat 0 n).1 < ids.length := by rw [hlen]; exact hlt
      refine ⟨⟨by simpa using hlen, ?_, ?_⟩, by simp, ?_⟩
      · intro v hv
        rw [occCount_append_single, count_singleton_eval]
        by_cases hvx : (r.genRangeNat 0 n).1 = v
        · subst hvx
          rw [hocc _ hv, if_pos hcl, getD_set_self _ _ _ _ hxlen]
          simp [natCast_ne_negOne plate_idx]
        · rw [hocc v hv, getD_set_ne _ _ _ _ _ hvx]
          simp [hvx]
      · intro v hnv
        have hvx : (r.genRangeNat 0 n).1 ≠ v := by omega
        rw [occCount_append_single, count_singleton_eval, hoob v hnv]
        simp [hvx]
      · exact claimedCount_set_new ids _ _ hxlen hcl (natCast_ne_negOne plate_idx)
    · rw [if_neg hcl] at h
      exact ih _ h

theorem seedLoop_spec (n fuel : ℕ) (idxs : List ℕ)
    (st out : Rng × List ℤ × List (List ℕ))
    (hn : 0 < n) (hI : PartIds n st.2.1 st.2.2)
    (h : seedLoop n fuel idxs st = some out) :
    PartIds n out.2.1 out.2.2 ∧
      out.2.2.length = st.2.2.length + idxs.length ∧
      claimedCount out.2.1 = claimedCount st.2.1 + idxs.length := by
  induction idxs generalizing st with
  | nil =>
    unfold seedLoop at h
    injection h with h'
    subst h'
    exact ⟨hI, by simp, by simp⟩
  | cons i is ih =>
    unfold seedLoop at h
    rcases hfs : findSeed n i fuel st.1 st.2.1 st.2.2 with _ | st1 <;> rw [hfs] at h
    · exact absurd h (by simp)
    · obtain ⟨hI1, hlen1, hnum1⟩ := findSeed_spec n i fuel st.1 st.2.1 st.2.2 st1 hn hI hfs
      obtain ⟨hI2, hlen2, hnum2⟩ := ih st1 hI1 h
      refine ⟨hI2, ?_, ?_⟩ <;> simp only [List.length_cons] <;> omega

theorem platesFromPoints_foldl_map (norm3 : Vec3 → Vec3)
    (ptss : List (List ℕ)) (acc : List Plate) (r : Rng) :
    ((ptss.foldl (fun acc2 points =>
      ((acc2.1 ++ [(Plate.fromPoints norm3 acc2.2 points).1],
        (Plate.fromPoints norm3 acc2.2 points).2) : List Plate × Rng)) (acc, r)).1).map
        (fun pl => pl.vertex_indices)
      = acc.map (fun pl => pl.vertex_indices) ++ ptss := by
  induction ptss generalizing acc r with
  | nil => simp
  | cons pts rest ih =>
    simp only [List.foldl_cons]
    rw [ih]
    simp [Plate.fromPoints]

theorem platesFromPoints_map (norm3 : Vec3 → Vec3) (r : Rng)
    (ptss : List (List ℕ)) :
    ((platesFromPoints norm3 r ptss).1).map (fun pl => pl.vertex_indices) = ptss := by
  have := platesFromPoints_foldl_map norm3 ptss [] r
  simpa [platesFromPoints] using this

theorem mem_le_map_sum {α : Type} (f : α → ℕ) (l : List α) (x : α)
    (hx : x ∈ l) : f x ≤ (l.map f).sum := by
  induction l with
  | nil => simp at hx
  | cons a as ih =>
    rcases List.mem_cons.mp hx with rfl | hx'
    · simp
    · simp only [List.map_cons, List.sum_cons]
      exact le_trans (ih hx') (Nat.le_add_left _ _)

theorem exists_mem_of_map_sum_pos {α : Type} (f : α → ℕ) (l : List α)
    (h : 0 < (l.map f).sum) : ∃ x ∈ l, 0 < f x := by
  induction l with
  | nil => simp at h
  | cons a as ih =>
    simp only [List.map_cons, List.sum_cons] at h
    by_cases ha : 0 < f a
    · exact ⟨a, by simp, ha⟩
    · have : 0 < (as.map f).sum := by omega
      obtain ⟨x, hx, hfx⟩ := ih this
      exact ⟨x, by simp [hx], hfx⟩

theorem two_getElem_le_map_sum {α : Type} (f : α → ℕ) (l : List α)
    (i j : ℕ) (hi : i < l.length) (hj : j < l.length) (hij : i < j) :
    f l[i] + f l[j] ≤ (l.map f).sum := by
  induction l generalizing i j with
  | nil => simp at hi
  | cons a as ih =>
    cases i with
    | zero =>
      cases j with
      | zero => omega
      | succ j =>
        have hj' : j < as.length := by simpa using hj
        simp only [List.getElem_cons_zero, List.getElem_cons_succ,
          List.map_cons, List.sum_cons]
        have := mem_le_map_sum f as as[j] (List.getElem_mem hj')
        omega
    | succ i =>
      cases j with
      | zero => omega
      | succ j =>
        have hi' : i < as.length := by simpa using hi
        have hj' : j < as.length := by simpa using hj
        simp only [List.getElem_cons_succ, List.map_cons, List.sum_cons]
        have := ih i j hi' hj' (by omega)
        omega

theorem getD_oob {α : Type} (l : List α) (i : ℕ) (d : α)
    (h : l.length ≤ i) : l.getD i d = d := by
  simp [List.getD, List.get?_eq_getElem?, List.getElem?_eq_none h]

theorem nbrs_wf (verts : List PlatePoint)
    (hwf : ∀ pt ∈ verts, ∀ x ∈ pt.nbr_indices, x < verts.length) :
    ∀ point_idx, ∀ x ∈ (verts.getD point_idx defaultPlatePoint).nbr_indices,
      x < verts.length := by
  intro pi x hx
  by_cases hpi : pi < verts.length
  · rw [List.getD_eq_getElem _ _ hpi] at hx
    exact hwf _ (List.getElem_mem hpi) x hx
  · rw [getD_oob _ _ _ (le_of_not_lt hpi)] at hx
    simp [defaultPlatePoint] at hx

/-- **C2** — whenever `random_partition` returns, its plates are a true
partition of the vertex indices: every vertex index occurs exactly once over
all plates, all listed indices are valid vertex indices, every vertex belongs
to some plate, and distinct plates are disjoint. -/
theorem c2_random_partition_is_partition (norm3 : Vec3 → Vec3) (fuel : ℕ)
    (r : Rng) (verts : List PlatePoint) (num_plates : ℕ)
    (plates : List Plate) (r' : Rng)
    (hn : 0 < verts.length)
    (hwf : ∀ pt ∈ verts, ∀ x ∈ pt.nbr_indices, x < verts.length)
    (h : randomPartition norm3 fuel r verts num_plates = some (plates, r')) :
    (∀ v, v < verts.length →
      (plates.map (fun pl => List.count v pl.vertex_indices)).sum = 1) ∧
    (∀ pl ∈ plates, ∀ v ∈ pl.vertex_indices, v < verts.length) ∧
    (∀ v, v < verts.length → ∃ pl ∈ plates, v ∈ pl.vertex_indices) ∧
    List.Pairwise (fun p q => ∀ v, v ∈ p.vertex_indices → v ∉ q.vertex_indices)
      plates := by
  unfold randomPartition at h
  dsimp only at h
  rcases hsl : seedLoop verts.length fuel (List.range num_plates)
      (r, List.replicate verts.length (-1 : ℤ), []) with _ | st1 <;> rw [hsl] at h <;>
    dsimp only at h
  · exact absurd h (by simp)
  · rcases hff : floodFillEntry fuel verts st1.2.1 st1.2.2 with _ | out <;>
      rw [hff] at h <;> dsimp only at h
    · exact absurd h (by simp)
    · obtain ⟨hI1, hlen1, hnum1⟩ := seedLoop_spec verts.length fuel
        (List.range num_plates) _ st1 hn (PartIds_init verts.length) hsl
      simp only [List.length_nil, List.length_range, Nat.zero_add,
        claimedCount_replicate] at hlen1 hnum1
      have hwf' := nbrs_wf verts hwf
      have hGinit : GoodFlood verts.length
          ⟨st1.2.1, st1.2.2, st1.2.2, st1.2.2.length⟩ := by
        refine ⟨hI1, ?_⟩
        dsimp only
        omega
      obtain ⟨⟨hIo, hfillo⟩, hge⟩ := floodFill_spec verts.length verts fuel
        _ out hwf' hGinit hff
      obtain ⟨hleno, hocco, hoobo⟩ := hIo
      -- every vertex is claimed at exit
      have hfull : claimedCount out.plate_id_for_verts
          = out.plate_id_for_verts.length := by
        have h1 := claimedCount_le_length out.plate_id_for_verts
        omega
      have hclaimed := claimedCount_full out.plate_id_for_verts hfull
      have hocc1 : ∀ v, v < verts.length →
          occCount out.plate_points v = 1 := by
        intro v hv
        rw [hocco v hv, if_neg (hclaimed v (by rw [hleno]; exact hv))]
      -- connect the returned plates to the final plate point lists
      have hplates : plates = (platesFromPoints norm3 st1.1 out.plate_points).1 := by
        injection h with h2
        exact (congrArg Prod.fst h2).symm ▸ rfl
      have hmap : plates.map (fun pl => pl.vertex_indices) = out.plate_points := by
        rw [hplates, platesFromPoints_map]
      have hsum : ∀ v, (plates.map (fun pl => List.count v pl.vertex_indices)).sum
          = occCount out.plate_points v := by
        intro v
        have : plates.map (fun pl => List.count v pl.vertex_indices)
            = (plates.map (fun pl => pl.vertex_indices)).map (fun l => List.count v l) := by
          rw [List.map_map]
          rfl
        rw [this, hmap]
        rfl
      refine ⟨?_, ?_, ?_, ?_⟩
      · intro v hv
        rw [hsum v, hocc1 v hv]
      · intro pl hpl v hvm
        by_contra hge'
        push_neg at hge'
        have hcnt : 0 < List.count v pl.vertex_indices := List.count_pos_iff.mpr hvm
        have hle : List.count v pl.vertex_indices
            ≤ (plates.map (fun pl => List.count v pl.vertex_indices)).sum :=
          mem_le_map_sum (fun pl => List.count v pl.vertex_indices) plates pl hpl
        rw [hsum v, hoobo v hge'] at hle
        omega
      · intro v hv
        have : 0 < (plates.map (fun pl => List.count v pl.vertex_indices)).sum := by
          rw [hsum v, hocc1 v hv]
          omega
        obtain ⟨pl, hpl, hpos⟩ := exists_mem_of_map_sum_pos _ _ this
        exact ⟨pl, hpl, List.count_pos_iff.mp hpos⟩
      · rw [List.pairwise_iff_getElem]
        intro i j hi hj hij
        intro v hvi hvj
        have hci : 0 < List.count v plates[i].vertex_indices :=
          List.count_pos_iff.mpr hvi
        have hcj : 0 < List.count v plates[j].vertex_indices :=
          List.count_pos_iff.mpr hvj
        have h2 := two_getElem_le_map_sum
          (fun pl => List.count v pl.vertex_indices) plates i j hi hj hij
        dsimp only at h2
        have hle1 : (plates.map (fun pl => List.count v pl.vertex_indices)).sum ≤ 1 := by
          by_cases hv : v < verts.length
        -- in range: sum is 1; out of range: sum is 0
          · rw [hsum v, hocc1 v hv]
          · push_neg at hv
            rw [hsum v, hoobo v hv]
            omega
        omega

/-- Witness for C2 on the concrete two-vertex mesh, one plate, zero
stream. -/
theorem c2_random_partition_is_partition_witness :
    (∀ v, v < cVertsPair.length →
      ((((randomPartition (fun v => v) 3 cRngZero cVertsPair 1).getD
          ([], cRngZero)).1).map
        (fun pl => List.count v pl.vertex_indices)).sum = 1) ∧
    (∀ pl ∈ ((randomPartition (fun v => v) 3 cRngZero cVertsPair 1).getD
          ([], cRngZero)).1,
      ∀ v ∈ pl.vertex_indices, v < cVertsPair.length) ∧
    (∀ v, v < cVertsPair.length →
      ∃ pl ∈ ((randomPartition (fun v => v) 3 cRngZero cVertsPair 1).getD
          ([], cRngZero)).1, v ∈ pl.vertex_indices) ∧
    List.Pairwise (fun p q => ∀ v, v ∈ p.vertex_indices → v ∉ q.vertex_indices)
      ((randomPartition (fun v => v) 3 cRngZero cVertsPair 1).getD
          ([], cRngZero)).1 := by
  have hs : (randomPartition (fun v => v) 3 cRngZero cVertsPair 1).isSome = true := by
    rfl
  obtain ⟨pr, hpr⟩ := Option.isSome_iff_exists.mp hs
  exact c2_random_partition_is_partition (fun v => v) 3 cRngZero cVertsPair 1
    ((randomPartition (fun v => v) 3 cRngZero cVertsPair 1).getD ([], cRngZero)).1
    ((randomPartition (fun v => v) 3 cRngZero cVertsPair 1).getD ([], cRngZero)).2
    (by decide) (by decide) (by rw [hpr]; rfl)

/-! ### C10 — termination behaviour of the seed-selection loop -/

theorem exists_unclaimed (ids : List ℤ)
    (h : claimedCount ids < ids.length) :
    ∃ v, v < ids.length ∧ ids.getD v (-1) = -1 := by
  by_contra hc
  push_neg at hc
  have : claimedCount ids = ids.length :=
    claimedCount_all ids (fun v hv => hc v hv)
  omega

theorem genRangeNat_fst (s : ℕ → ℕ) (p n : ℕ) :
    (Rng.genRangeNat ⟨s, p⟩ 0 n).1 = s p % n := by
  simp [Rng.genRangeNat]

theorem genRangeNat_snd (s : ℕ → ℕ) (p n : ℕ) :
    (Rng.genRangeNat ⟨s, p⟩ 0 n).2 = ⟨s, p + 1⟩ := by
  simp [Rng.genRangeNat]

theorem findSeed_none_of_full (n plate_idx : ℕ) (ids : List ℤ)
    (ptss : List (List ℕ)) (hn : 0 < n) (hlen : ids.length = n)
    (hfull : ∀ v, v < n → ids.getD v (-1) ≠ -1) :
    ∀ fuel r, findSeed n plate_idx fuel r ids ptss = none := by
  intro fuel
  induction fuel with
  | zero => intro r; rfl
  | succ fuel ih =>
    intro r
    unfold findSeed
    dsimp only
    have hlt : (r.genRangeNat 0 n).1 < n := by
      simp only [Rng.genRangeNat, Nat.zero_add]
      exact Nat.lt_of_lt_of_le (Nat.mod_lt _ (by omega)) (by omega)
    rw [if_neg (hfull _ hlt)]
    exact ih _

theorem findSeed_ids_spec (n plate_idx fuel : ℕ) (r : Rng) (ids : List ℤ)
    (ptss : List (List ℕ)) (out : Rng × List ℤ × List (List ℕ))
    (hn : 0 < n) (hlen : ids.length = n)
    (h : findSeed n plate_idx fuel r ids ptss = some out) :
    out.1.stream = r.stream ∧ out.2.1.length = n ∧
      claimedCount out.2.1 = claimedCount ids + 1 := by
  induction fuel generalizing r with
  | zero => exact absurd h (by simp [findSeed])
  | succ fuel ih =>
    unfold findSeed at h
    dsimp only at h
    by_cases hcl : ids.getD (r.genRangeNat 0 n).1 (-1) = -1
    · rw [if_pos hcl] at h
      injection h with h'
      subst h'
      have hlt : (r.genRangeNat 0 n).1 < n := by
        simp only [Rng.genRangeNat, Nat.zero_add]
        exact Nat.lt_of_lt_of_le (Nat.mod_lt _ (by omega)) (by omega)
      refine ⟨rfl, by simpa using hlen, ?_⟩
      exact claimedCount_set_new ids _ _ (by omega) hcl (natCast_ne_negOne plate_idx)
    · rw [if_neg hcl] at h
      obtain ⟨h1, h2, h3⟩ := ih _ h
      exact ⟨h1, h2, h3⟩

theorem seedLoop_none_of_overflow (n fuel : ℕ) (idxs : List ℕ)
    (st : Rng × List ℤ × List (List ℕ))
    (hn : 0 < n) (hlen : st.2.1.length = n)
    (hover : n < claimedCount st.2.1 + idxs.length) :
    seedLoop n fuel idxs st = none := by
  induction idxs generalizing st with
  | nil =>
    exfalso
    have := claimedCount_le_length st.2.1
    simp only [List.length_nil] at hover
    omega
  | cons i is ih =>
    unfold seedLoop
    by_cases hc : claimedCount st.2.1 = n
    · have hfull := claimedCount_full st.2.1 (by omega)
      rw [findSeed_none_of_full n i st.2.1 st.2.2 hn hlen
        (fun v hv => hfull v (by omega)) fuel st.1]
    · rcases hfs : findSeed n i fuel st.1 st.2.1 st.2.2 with _ | st1
      · rfl
      · obtain ⟨-, hlen1, hnum1⟩ := findSeed_ids_spec n i fuel st.1 st.2.1
          st.2.2 st1 hn hlen hfs
        exact ih st1 hlen1 (by simp only [List.length_cons] at hover; omega)

/-- The seed loop of `random_partition` can never return once the requested
plate count exceeds the vertex count, so `random_partition` returns nothing
for any fuel: the source loops forever. -/
theorem randomPartition_none_of_overflow (norm3 : Vec3 → Vec3) (fuel : ℕ)
    (r : Rng) (verts : List PlatePoint) (num_plates : ℕ)
    (hn : 0 < verts.length) (hover : verts.length < num_plates) :
    randomPartition norm3 fuel r verts num_plates = none := by
  unfold randomPartition
  dsimp only
  rw [seedLoop_none_of_overflow verts.length fuel (List.range num_plates)
    _ hn (by simp) (by simp [claimedCount_replicate]; omega)]

theorem findSeed_hit (n plate_idx : ℕ) (s : ℕ → ℕ) (ids : List ℤ)
    (ptss : List (List ℕ)) (v : ℕ)
    (hn : 0 < n) (hv : ids.getD v (-1) = -1) :
    ∀ d pos, s (pos + d) % n = v →
      ∃ fuel, (findSeed n plate_idx fuel ⟨s, pos⟩ ids ptss).isSome = true := by
  intro d
  induction d with
  | zero =>
    intro pos hhit
    refine ⟨1, ?_⟩
    unfold findSeed
    dsimp only
    rw [genRangeNat_fst]
    rw [show s pos % n = v from by simpa using hhit, if_pos hv]
    rfl
  | succ d ih =>
    intro pos hhit
    by_cases h0 : ids.getD (s pos % n) (-1) = -1
    · refine ⟨1, ?_⟩
      unfold findSeed
      dsimp only
      rw [genRangeNat_fst, if_pos h0]
      rfl
    · obtain ⟨fuel, hout⟩ := ih (pos + 1) (by
        rw [show pos + 1 + d = pos + (d + 1) from by omega]
        exact hhit)
      refine ⟨fuel + 1, ?_⟩
      unfold findSeed
      dsimp only
      rw [genRangeNat_fst, if_neg h0, genRangeNat_snd]
      exact hout

theorem findSeed_mono (n plate_idx : ℕ) (ids : List ℤ)
    (ptss : List (List ℕ)) (out : Rng × List ℤ × List (List ℕ)) :
    ∀ fuel fuel' (r : Rng), fuel ≤ fuel' →
      findSeed n plate_idx fuel r ids ptss = some out →
      findSeed n plate_idx fuel' r ids ptss = some out := by
  intro fuel
  induction fuel with
  | zero => intro fuel' r _ h; exact absurd h (by simp [findSeed])
  | succ fuel ih =>
    intro fuel' r hle h
    cases fuel' with
    | zero => omega
    | succ fuel' =>
      unfold findSeed at h ⊢
      dsimp only at h ⊢
      by_cases hcl : ids.getD (r.genRangeNat 0 n).1 (-1) = -1
      · rw [if_pos hcl] at h ⊢
        exact h
      · rw [if_neg hcl] at h ⊢
        exact ih fuel' _ (by omega) h

theorem seedLoop_mono (n : ℕ) (idxs : List ℕ)
    (st out : Rng × List ℤ × List (List ℕ)) :
    ∀ fuel fuel', fuel ≤ fuel' →
      seedLoop n fuel idxs st = some out →
      seedLoop n fuel' idxs st = some out := by
  induction idxs generalizing st with
  | nil => intro fuel fuel' _ h; exact h
  | cons i is ih =>
    intro fuel fuel' hle h
    unfold seedLoop at h ⊢
    rcases hfs : findSeed n i fuel st.1 st.2.1 st.2.2 with _ | st1 <;>
      rw [hfs] at h
    · exact absurd h (by simp)
    · rw [findSeed_mono n i st.2.1 st.2.2 st1 fuel fuel' st.1 hle hfs]
      exact ih st1 fuel fuel' hle h

theorem seedLoop_some_of_fair (n : ℕ) (s : ℕ → ℕ)
    (hfair : FairStream s n) (hn : 0 < n) :
    ∀ (idxs : List ℕ) (st : Rng × List ℤ × List (List ℕ)),
      st.1.stream = s → st.2.1.length = n →
      claimedCount st.2.1 + idxs.length ≤ n →
      ∃ fuel out, seedLoop n fuel idxs st = some out := by
  intro idxs
  induction idxs with
  | nil => intro st _ _ _; exact ⟨0, st, rfl⟩
  | cons i is ih =>
    intro st hstream hlen hcap
    have hclt : claimedCount st.2.1 < st.2.1.length := by
      simp only [List.length_cons] at hcap
      omega
    obtain ⟨v, hvlt, hvun⟩ := exists_unclaimed st.2.1 hclt
    obtain ⟨m, hmge, hmhit⟩ := hfair st.1.pos v (by omega)
    obtain ⟨f1, hsome1⟩ := findSeed_hit n i s st.2.1 st.2.2 v hn hvun
      (m - st.1.pos) st.1.pos
      (by rw [show st.1.pos + (m - st.1.pos) = m from by omega]; exact hmhit)
    obtain ⟨out1, hout1⟩ := Option.isSome_iff_exists.mp hsome1
    have hrw : (⟨s, st.1.pos⟩ : Rng) = st.1 := by
      obtain ⟨st1, st2⟩ := st
      obtain ⟨sts, stp⟩ := st1
      simp only at hstream ⊢
      rw [hstream]
    rw [hrw] at hout1
    obtain ⟨hstr1, hlen1, hnum1⟩ := findSeed_ids_spec n i f1 st.1 st.2.1
      st.2.2 out1 hn hlen hout1
    obtain ⟨f2, out2, hout2⟩ := ih out1 (by rw [hstr1, hstream])
      hlen1 (by simp only [List.length_cons] at hcap; omega)
    refine ⟨max f1 f2, out2, ?_⟩
    unfold seedLoop
    rw [findSeed_mono n i st.2.1 st.2.2 out1 f1 (max f1 f2) st.1
      (Nat.le_max_left _ _) hout1]
    exact seedLoop_mono n is out1 out2 f2 (max f1 f2) (Nat.le_max_right _ _) hout2

theorem mkSimVerts_length (poly : Polyhedron Vec3) :
    (mkSimVerts poly).length = poly.vertices.length := by
  simp [mkSimVerts]

/-- **C10** — the seed-selection loop terminates (for a fair stream) whenever
`num_plates ≤ verts.len()`, and can never return once `num_plates`
exceeds the vertex count — after all vertices are claimed the rejection
sampling never finds an unclaimed vertex, so `random_partition` returns
nothing for every fuel.  The face-count check of `PlateSimulation::new`
still admits that regime: on a 12-vertex, 20-face icosahedron mesh any
plate count from 13 to 20 passes the check yet makes the construction run
forever (`Except.ok none` at every fuel). -/
theorem c10_seed_loop_termination :
    (∀ (verts : List PlatePoint) (num_plates : ℕ) (s : ℕ → ℕ) (pos : ℕ),
      0 < verts.length → num_plates ≤ verts.length →
      FairStream s verts.length →
      ∃ fuel out, seedLoop verts.length fuel (List.range num_plates)
        ((⟨s, pos⟩ : Rng), List.replicate verts.length (-1 : ℤ), ([] : List (List ℕ)))
          = some out) ∧
    (∀ (norm3 : Vec3 → Vec3) (fuel : ℕ) (r : Rng) (verts : List PlatePoint)
      (num_plates : ℕ), 0 < verts.length → verts.length < num_plates →
      randomPartition norm3 fuel r verts num_plates = none) ∧
    (∀ (poly : Polyhedron Vec3) (num_plates : ℕ),
      poly.vertices.length = 12 → poly.faces.length = 20 →
      13 ≤ num_plates → num_plates ≤ 20 →
      ¬(poly.faces.length < num_plates) ∧
      (∀ (norm3 : Vec3 → Vec3) (vlen : Vec3 → ℚ) (fuel : ℕ) (r : Rng),
        PlateSimulation.mkNew norm3 vlen fuel poly num_plates r
          = Except.ok none)) := by
  refine ⟨?_, ?_, ?_⟩
  · intro verts num_plates s pos hn hle hfair
    exact seedLoop_some_of_fair verts.length s hfair hn (List.range num_plates)
      ((⟨s, pos⟩ : Rng), List.replicate verts.length (-1 : ℤ), ([] : List (List ℕ)))
      rfl (by simp) (by simp [claimedCount_replicate]; omega)
  · intro norm3 fuel r verts num_plates hn hover
    exact randomPartition_none_of_overflow norm3 fuel r verts num_plates hn hover
  · intro poly num_plates hv hf h13 h20
    refine ⟨by omega, ?_⟩
    intro norm3 vlen fuel r
    unfold PlateSimulation.mkNew
    rw [if_neg (by omega)]
    rw [randomPartition_none_of_overflow norm3 fuel r (mkSimVerts poly) num_plates
      (by rw [mkSimVerts_length, hv]; omega) (by rw [mkSimVerts_length, hv]; omega)]

/-- Witness for C10: termination on the two-vertex mesh with two plates and
the identity stream; guaranteed divergence with three plates; the check
regime on a 12-vertex, 20-face mesh with 13 plates. -/
theorem c10_seed_loop_termination_witness :
    (∃ fuel out, seedLoop cVertsPair.length fuel (List.range 2)
      ((⟨fun i => i, 0⟩ : Rng), List.replicate cVertsPair.length (-1 : ℤ),
        ([] : List (List ℕ))) = some out) ∧
    randomPartition (fun v => v) 7 cRngZero cVertsPair 3 = none ∧
    ¬(cPoly12.faces.length < 13) ∧
    (∀ (norm3 : Vec3 → Vec3) (vlen : Vec3 → ℚ) (fuel : ℕ) (r : Rng),
      PlateSimulation.mkNew norm3 vlen fuel cPoly12 13 r = Except.ok none) := by
  have hfair : FairStream (fun i => i) cVertsPair.length := by
    intro k v hv
    have hl : cVertsPair.length = 2 := rfl
    rw [hl] at hv ⊢
    refine ⟨2 * (k + 1) + v, by omega, ?_⟩
    show (2 * (k + 1) + v) % 2 = v
    omega
  have h1 := c10_seed_loop_termination.1 cVertsPair 2 (fun i => i) 0
    (by decide) (by decide) hfair
  have h2 := c10_seed_loop_termination.2.1 (fun v => v) 7 cRngZero cVertsPair 3
    (by decide) (by decide)
  have h3 := c10_seed_loop_termination.2.2 cPoly12 13 (by decide) (by decide)
    (by decide) (by decide)
  exact ⟨h1, h2, h3.1, h3.2⟩

/-! ### C9 — `apply_heights` keeps radii bounded -/

theorem foldl_min_le_init (l : List ℚ) (a : ℚ) : l.foldl min a ≤ a := by
  induction l generalizing a with
  | nil => exact le_refl a
  | cons h t ih => exact le_trans (ih (min a h)) (min_le_left a h)

theorem foldl_min_le_mem (l : List ℚ) (a x : ℚ) (hx : x ∈ l) :
    l.foldl min a ≤ x := by
  induction l generalizing a with
  | nil => simp at hx
  | cons h t ih =>
    rcases List.mem_cons.mp hx with rfl | hx'
    · exact le_trans (foldl_min_le_init t (min a x)) (min_le_right a x)
    · exact ih (min a h) hx'

theorem foldl_max_init_le (l : List ℚ) (a : ℚ) : a ≤ l.foldl max a := by
  induction l generalizing a with
  | nil => exact le_refl a
  | cons h t ih => exact le_trans (le_max_left a h) (ih (max a h))

theorem foldl_max_mem_le (l : List ℚ) (a x : ℚ) (hx : x ∈ l) :
    x ≤ l.foldl max a := by
  induction l generalizing a with
  | nil => simp at hx
  | cons h t ih =>
    rcases List.mem_cons.mp hx with rfl | hx'
    · exact le_trans (le_max_right a x) (foldl_max_init_le t (max a x))
    · exact ih (max a h) hx'

theorem minOfList_le (l : List ℚ) (x : ℚ) (hx : x ∈ l) : minOfList l ≤ x := by
  cases l with
  | nil => simp at hx
  | cons h t =>
    rcases List.mem_cons.mp hx with rfl | hx'
    · exact foldl_min_le_init t x
    · exact foldl_min_le_mem t h x hx'

theorem le_maxOfList (l : List ℚ) (x : ℚ) (hx : x ∈ l) : x ≤ maxOfList l := by
  cases l with
  | nil => simp at hx
  | cons h t =>
    rcases List.mem_cons.mp hx with rfl | hx'
    · exact foldl_max_init_le t x
    · exact foldl_max_mem_le t h x hx'

/-- **C9** — every output vertex of `apply_heights` is its input vertex
scaled radially by a factor in `[0, 2]`: no radius diverges and none becomes
negative (the radius is at most doubled and at least zero). -/
theorem c9_apply_heights_bounded (render simVerts : List Vec3) (i : ℕ)
    (h : i < render.length) :
    ∃ c : ℚ, 0 ≤ c ∧ c ≤ 2 ∧
      (applyHeights render simVerts).getD i ⟨0, 0, 0⟩
        = Vec3.smul c (render.getD i ⟨0, 0, 0⟩) := by
  have hmap : (applyHeights render simVerts).getD i ⟨0, 0, 0⟩
      = Vec3.smul (1 + (heightDelta simVerts (render.getD i ⟨0, 0, 0⟩)
          - (minOfList (render.map (heightDelta simVerts))
            + maxOfList (render.map (heightDelta simVerts))) / 2)
          * (2 / (maxOfList (render.map (heightDelta simVerts))
            - minOfList (render.map (heightDelta simVerts)))))
        (render.getD i ⟨0, 0, 0⟩) := by
    unfold applyHeights
    have hlen : i < (render.map (fun v => Vec3.smul
        (1 + (heightDelta simVerts v
          - (minOfList (render.map (heightDelta simVerts))
            + maxOfList (render.map (heightDelta simVerts))) / 2)
          * (2 / (maxOfList (render.map (heightDelta simVerts))
            - minOfList (render.map (heightDelta simVerts))))) v)).length := by
      rw [List.length_map]; exact h
    rw [List.getD_eq_getElem _ _ hlen, List.getElem_map,
      List.getD_eq_getElem _ _ h]
  set d := heightDelta simVerts (render.getD i ⟨0, 0, 0⟩) with hd
  set dmin := minOfList (render.map (heightDelta simVerts)) with hdmin
  set dmax := maxOfList (render.map (heightDelta simVerts)) with hdmax
  have hdmem : d ∈ render.map (heightDelta simVerts) := by
    rw [hd, List.getD_eq_getElem _ _ h]
    exact List.mem_map_of_mem _ (List.getElem_mem h)
  have h1 : dmin ≤ d := minOfList_le _ _ hdmem
  have h2 : d ≤ dmax := le_maxOfList _ _ hdmem
  refine ⟨1 + (d - (dmin + dmax) / 2) * (2 / (dmax - dmin)), ?_, ?_, hmap⟩
  · by_cases hz : dmax - dmin = 0
    · have : d - (dmin + dmax) / 2 = 0 := by
        have : dmax = dmin := by linarith
        rw [this] at h2 ⊢
        have : d = dmin := le_antisymm h2 h1
        rw [this]
        ring
      rw [this]
      norm_num
    · have hpos : 0 < dmax - dmin := lt_of_le_of_ne (by linarith) (Ne.symm hz)
      have hb : -1 ≤ (d - (dmin + dmax) / 2) * (2 / (dmax - dmin)) := by
        rw [mul_div_assoc']
        rw [le_div_iff hpos]
        linarith
      linarith
  · by_cases hz : dmax - dmin = 0
    · have : d - (dmin + dmax) / 2 = 0 := by
        have heq : dmax = dmin := by linarith
        rw [heq] at h2
        have : d = dmin := le_antisymm h2 h1
        rw [this, heq]
        ring
      rw [this]
      norm_num
    · have hpos : 0 < dmax - dmin := lt_of_le_of_ne (by linarith) (Ne.symm hz)
      have hb : (d - (dmin + dmax) / 2) * (2 / (dmax - dmin)) ≤ 1 := by
        rw [mul_div_assoc']
        rw [div_le_one hpos]
        linarith
      linarith

/-- Witness for C9 at a concrete two-vertex render mesh. -/
theorem c9_apply_heights_bounded_witness :
    ∃ c : ℚ, 0 ≤ c ∧ c ≤ 2 ∧
      (applyHeights [⟨1, 0, 0⟩, ⟨0, 1, 0⟩] [⟨1, 0, 0⟩]).getD 0 ⟨0, 0, 0⟩
        = Vec3.smul c (([⟨1, 0, 0⟩, ⟨0, 1, 0⟩] : List Vec3).getD 0 ⟨0, 0, 0⟩) :=
  c9_apply_heights_bounded [⟨1, 0, 0⟩, ⟨0, 1, 0⟩] [⟨1, 0, 0⟩] 0 (by decide)

/-! ### C1 — properties of symbolic positions -/

theorem Ordering_swap_then (x y : Ordering) :
    (x.then y).swap = x.swap.then y.swap := by
  cases x <;> cases y <;> rfl

theorem Pos_cmp_eq_iff (a b : Pos) : Pos.cmp a b = Ordering.eq ↔ a = b := by
  induction a generalizing b with
  | base m =>
    cases b with
    | base n => simpa [Pos.cmp] using Nat.compare_eq_eq
    | mid c d => simp [Pos.cmp]
  | mid x y ihx ihy =>
    cases b with
    | base n => simp [Pos.cmp]
    | mid c d =>
      simp only [Pos.cmp]
      constructor
      · intro h
        have hx : Pos.cmp x c = Ordering.eq := by
          cases hc : Pos.cmp x c <;> simp [hc, Ordering.then] at h <;> try rfl
        have hy : Pos.cmp y d = Ordering.eq := by
          rw [hx] at h
          simpa [Ordering.then] using h
        rw [(ihx c).mp hx, (ihy d).mp hy]
      · intro h
        injection h with h1 h2
        rw [(ihx c).mpr h1, (ihy d).mpr h2]
        rfl

theorem Pos_cmp_swap (a b : Pos) : (Pos.cmp a b).swap = Pos.cmp b a := by
  induction a generalizing b with
  | base m =>
    cases b with
    | base n =>
      simp only [Pos.cmp]
      rcases Nat.lt_trichotomy m n with h | h | h
      · rw [Nat.compare_eq_lt.mpr h, Nat.compare_eq_gt.mpr h]
        rfl
      · subst h
        rw [Nat.compare_eq_eq.mpr rfl]
        rfl
      · rw [Nat.compare_eq_gt.mpr h, Nat.compare_eq_lt.mpr h]
        rfl
    | mid c d => rfl
  | mid x y ihx ihy =>
    cases b with
    | base n => rfl
    | mid c d =>
      simp only [Pos.cmp]
      rw [Ordering_swap_then, ihx c, ihy d]

theorem mkMid_cases (a b : Pos) :
    mkMid a b = Pos.mid a b ∨ mkMid a b = Pos.mid b a := by
  unfold mkMid
  cases Pos.cmp a b <;> simp

theorem mkMid_comm (a b : Pos) : mkMid a b = mkMid b a := by
  unfold mkMid
  rcases hc : Pos.cmp a b with - | - | -
  · have : Pos.cmp b a = Ordering.gt := by
      rw [← Pos_cmp_swap a b, hc]
      rfl
    rw [this]
  · have ha : a = b := (Pos_cmp_eq_iff a b).mp hc
    subst ha
    rw [hc]
  · have : Pos.cmp b a = Ordering.lt := by
      rw [← Pos_cmp_swap a b, hc]
      rfl
    rw [this]

theorem mkMid_inj (a b c d : Pos) (h : mkMid a b = mkMid c d) :
    (a = c ∧ b = d) ∨ (a = d ∧ b = c) := by
  rcases mkMid_cases a b with h1 | h1 <;> rcases mkMid_cases c d with h2 | h2 <;>
    rw [h1, h2] at h <;> injection h with e1 e2
  · exact Or.inl ⟨e1, e2⟩
  · exact Or.inr ⟨e1, e2⟩
  · exact Or.inr ⟨e2, e1⟩
  · exact Or.inl ⟨e2, e1⟩

theorem ht_mkMid (a b : Pos) :
    (mkMid a b).ht = max a.ht b.ht + 1 := by
  rcases mkMid_cases a b with h | h <;> rw [h] <;> simp [Pos.ht] <;> omega

theorem mkMid_ne_of_ht (a b p : Pos) (d : ℕ)
    (hab : max a.ht b.ht = d) (hp : p.ht ≤ d) : mkMid a b ≠ p := by
  intro h
  have := ht_mkMid a b
  rw [h, hab] at this
  omega

/-! ### C1 — key-list lemmas -/

theorem idxK_lt_of_mem {K : Type} [DecidableEq K] (l : List K) (k : K)
    (h : k ∈ l) : idxK l k < l.length := by
  induction l with
  | nil => simp at h
  | cons a as ih =>
    unfold idxK
    by_cases ha : a = k
    · simp [ha]
    · rcases List.mem_cons.mp h with h' | h'
      · exact absurd h'.symm ha
      · simpa [ha] using ih h'

theorem getD_idxK {K : Type} [DecidableEq K] (l : List K) (k d : K)
    (h : k ∈ l) : l.getD (idxK l k) d = k := by
  induction l with
  | nil => simp at h
  | cons a as ih =>
    unfold idxK
    by_cases ha : a = k
    · simpa [ha] using ha
    · rcases List.mem_cons.mp h with h' | h'
      · exact absurd h'.symm ha
      · simpa [ha, List.getD] using ih h'

theorem idxK_append_of_mem {K : Type} [DecidableEq K] (l t : List K) (k : K)
    (h : k ∈ l) : idxK (l ++ t) k = idxK l k := by
  induction l with
  | nil => simp at h
  | cons a as ih =>
    by_cases ha : a = k
    · simp [idxK, ha]
    · rcases List.mem_cons.mp h with h' | h'
      · exact absurd h'.symm ha
      · simp [idxK, ha, ih h']

theorem idxK_append_self {K : Type} [DecidableEq K] (l : List K) (k : K)
    (h : k ∉ l) : idxK (l ++ [k]) k = l.length := by
  induction l with
  | nil => simp [idxK]
  | cons a as ih =>
    have ha : a ≠ k := fun hh => h (by simp [hh])
    simp only [List.cons_append, idxK, ha, if_false, List.length_cons]
    rw [show as.append [k] = as ++ [k] from rfl]
    rw [ih (fun hh => h (by simp [hh]))]

theorem getOrCreate_eq {K : Type} [DecidableEq K] (l : List K) (k : K) :
    getOrCreate l k = (insertKey l k, idxK (insertKey l k) k) := by
  unfold getOrCreate insertKey
  by_cases h : k ∈ l
  · simp [h]
  · simp only [h, if_false]
    rw [idxK_append_self l k h]

theorem insertKey_sub {K : Type} [DecidableEq K] (l : List K) (k : K) :
    ∃ t, insertKey l k = l ++ t := by
  unfold insertKey
  by_cases h : k ∈ l
  · exact ⟨[], by simp [h]⟩
  · exact ⟨[k], by simp [h]⟩

theorem dedupAppend_sub {K : Type} [DecidableEq K] (l ks : List K) :
    ∃ t, dedupAppend l ks = l ++ t := by
  induction ks generalizing l with
  | nil => exact ⟨[], by simp [dedupAppend]⟩
  | cons k ks ih =>
    obtain ⟨t1, ht1⟩ := insertKey_sub l k
    obtain ⟨t2, ht2⟩ := ih (insertKey l k)
    refine ⟨t1 ++ t2, ?_⟩
    unfold dedupAppend at ht2 ⊢
    simp only [List.foldl_cons]
    rw [ht2, ht1, List.append_assoc]

theorem dedupAppend_append {K : Type} [DecidableEq K] (l ks ks' : List K) :
    dedupAppend l (ks ++ ks') = dedupAppend (dedupAppend l ks) ks' := by
  unfold dedupAppend
  rw [List.foldl_append]

theorem mem_insertKey {K : Type} [DecidableEq K] (l : List K) (k x : K) :
    x ∈ insertKey l k ↔ x ∈ l ∨ x = k := by
  unfold insertKey
  by_cases h : k ∈ l
  · simp only [h, if_true]
    constructor
    · exact Or.inl
    · rintro (hx | rfl)
      · exact hx
      · exact h
  · simp only [h, if_false, List.mem_append, List.mem_singleton]

theorem mem_dedupAppend {K : Type} [DecidableEq K] (l ks : List K) (x : K) :
    x ∈ dedupAppend l ks ↔ x ∈ l ∨ x ∈ ks := by
  induction ks generalizing l with
  | nil => simp [dedupAppend]
  | cons k ks ih =>
    unfold dedupAppend at ih ⊢
    simp only [List.foldl_cons]
    rw [ih, mem_insertKey]
    simp only [List.mem_cons]
    tauto

theorem nodup_insertKey {K : Type} [DecidableEq K] (l : List K) (k : K)
    (h : l.Nodup) : (insertKey l k).Nodup := by
  unfold insertKey
  by_cases hk : k ∈ l
  · simpa [hk] using h
  · simp only [hk, if_false]
    rw [List.nodup_append]
    refine ⟨h, List.nodup_singleton k, ?_⟩
    intro a ha hak
    have hae : a = k := by simpa using hak
    exact hk (hae ▸ ha)

theorem nodup_dedupAppend {K : Type} [DecidableEq K] (l ks : List K)
    (h : l.Nodup) : (dedupAppend l ks).Nodup := by
  induction ks generalizing l with
  | nil => simpa [dedupAppend] using h
  | cons k ks ih =>
    unfold dedupAppend
    simp only [List.foldl_cons]
    exact ih (insertKey l k) (nodup_insertKey l k h)

theorem getOrCreate_stable {K : Type} [DecidableEq K] (l FV : List K) (k : K)
    (h : ∃ t, FV = insertKey l k ++ t) :
    getOrCreate l k = (insertKey l k, idxK FV k) := by
  rw [getOrCreate_eq]
  obtain ⟨t, ht⟩ := h
  rw [ht, idxK_append_of_mem _ _ _ (by rw [mem_insertKey]; right; rfl)]

theorem FV_extend {K : Type} [DecidableEq K] (cur : List K) (ks FV t : List K)
    (h : FV = dedupAppend cur ks ++ t) :
    ∀ pre post (k : K), ks = pre ++ k :: post →
    ∃ t', FV = insertKey (dedupAppend cur pre) k ++ t' := by
  intro pre post k hks
  subst hks
  subst h
  rw [dedupAppend_append]
  obtain ⟨r, hr⟩ := dedupAppend_sub (insertKey (dedupAppend cur pre) k) post
  refine ⟨r ++ t, ?_⟩
  have hstep : dedupAppend (dedupAppend cur pre) (k :: post)
      = dedupAppend (insertKey (dedupAppend cur pre) k) post := rfl
  rw [hstep, hr, List.append_assoc]


theorem dedupSeq_spec {K : Type} [DecidableEq K] (ks : List K)
    (l FV : List K) (h : ∃ t, FV = dedupAppend l ks ++ t) :
    dedupSeq l ks = (dedupAppend l ks, ks.map (idxK FV)) := by
  induction ks generalizing l with
  | nil => simp [dedupSeq, dedupAppend]
  | cons k ks ih =>
    obtain ⟨t, ht⟩ := h
    have hstep : dedupAppend l (k :: ks) = dedupAppend (insertKey l k) ks := rfl
    have hins : ∃ t', FV = insertKey l k ++ t' := by
      rw [hstep] at ht
      obtain ⟨r, hr⟩ := dedupAppend_sub (insertKey l k) ks
      exact ⟨r ++ t, by rw [ht, hr, List.append_assoc]⟩
    have hrest := ih (insertKey l k) ⟨t, by rw [ht, hstep]⟩
    have hg := getOrCreate_stable l FV k hins
    unfold dedupSeq
    rw [hg]
    dsimp only
    rw [hrest, hstep]
    have hk : idxK FV k = idxK FV k := rfl
    rfl

theorem refineFace_spec {P : Type} [DecidableEq P] [Inhabited P]
    (mid : P → P → P) (old : Polyhedron P) (st : RefState P) (f : Face)
    (FV : List P) (FE : List (ℕ × ℕ))
    (hFV : ∃ t, FV = dedupAppend st.verts (vKeysOfFace mid old f) ++ t)
    (hFE : ∃ t, FE = dedupAppend st.edges (eKeysOfFace mid old FV f) ++ t) :
    refineFace mid old st f =
      ⟨dedupAppend st.verts (vKeysOfFace mid old f),
       dedupAppend st.edges (eKeysOfFace mid old FV f),
       st.faces ++ facesOfFace mid old FV FE f⟩ := by
  have hv := dedupSeq_spec (vKeysOfFace mid old f) st.verts FV hFV
  have he := dedupSeq_spec (eKeysOfFace mid old FV f) st.edges FE hFE
  have hkeys : vKeysOfFace mid old f =
      [posAt old f.vertex_indices.1, posAt old f.vertex_indices.2.1,
       posAt old f.vertex_indices.2.2,
       mid (posAt old f.vertex_indices.1) (posAt old f.vertex_indices.2.1),
       mid (posAt old f.vertex_indices.2.1) (posAt old f.vertex_indices.2.2),
       mid (posAt old f.vertex_indices.2.2) (posAt old f.vertex_indices.1)] := rfl
  rw [hkeys] at hv
  have hekeys : eKeysOfFace mid old FV f =
      [sortPairN (idxK FV (posAt old f.vertex_indices.1))
         (idxK FV (mid (posAt old f.vertex_indices.1) (posAt old f.vertex_indices.2.1))),
       sortPairN (idxK FV (mid (posAt old f.vertex_indices.1) (posAt old f.vertex_indices.2.1)))
         (idxK FV (posAt old f.vertex_indices.2.1)),
       sortPairN (idxK FV (posAt old f.vertex_indices.2.1))
         (idxK FV (mid (posAt old f.vertex_indices.2.1) (posAt old f.vertex_indices.2.2))),
       sortPairN (idxK FV (mid (posAt old f.vertex_indices.2.1) (posAt old f.vertex_indices.2.2)))
         (idxK FV (posAt old f.vertex_indices.2.2)),
       sortPairN (idxK FV (posAt old f.vertex_indices.2.2))
         (idxK FV (mid (posAt old f.vertex_indices.2.2) (posAt old f.vertex_indices.1))),
       sortPairN (idxK FV (mid (posAt old f.vertex_indices.2.2) (posAt old f.vertex_indices.1)))
         (idxK FV (posAt old f.vertex_indices.1)),
       (idxK FV (mid (posAt old f.vertex_indices.1) (posAt old f.vertex_indices.2.1)),
        idxK FV (mid (posAt old f.vertex_indices.2.2) (posAt old f.vertex_indices.1))),
       (idxK FV (mid (posAt old f.vertex_indices.1) (posAt old f.vertex_indices.2.1)),
        idxK FV (mid (posAt old f.vertex_indices.2.1) (posAt old f.vertex_indices.2.2))),
       (idxK FV (mid (posAt old f.vertex_indices.2.1) (posAt old f.vertex_indices.2.2)),
        idxK FV (mid (posAt old f.vertex_indices.2.2) (posAt old f.vertex_indices.1)))] := rfl
  rw [hekeys] at he
  simp only [refineFace, hv, List.map_cons, List.map_nil, List.getD_cons_zero,
    List.getD_cons_succ, he]
  rw [hkeys, hekeys]
  rfl

theorem refineFold_spec {P : Type} [DecidableEq P] [Inhabited P]
    (mid : P → P → P) (old : Polyhedron P) (fs rest : List Face)
    (hsplit : old.faces = fs ++ rest) :
    fs.foldl (refineFace mid old) ⟨[], [], []⟩ =
      ⟨dedupAppend [] (fs.flatMap (vKeysOfFace mid old)),
       dedupAppend [] (fs.flatMap (eKeysOfFace mid old (refFV mid old))),
       fs.flatMap (facesOfFace mid old (refFV mid old) (refFE mid old))⟩ := by
  induction fs using List.reverseRecOn generalizing rest with
  | nil => rfl
  | append_singleton fs f ih =>
    have hsplit' : old.faces = fs ++ ([f] ++ rest) := by
      rw [hsplit, List.append_assoc]
    have hst := ih ([f] ++ rest) hsplit'
    rw [List.foldl_append, hst]
    simp only [List.foldl_cons, List.foldl_nil]
    have hflatv : (fs ++ [f]).flatMap (vKeysOfFace mid old)
        = fs.flatMap (vKeysOfFace mid old) ++ vKeysOfFace mid old f := by
      simp
    have hflate : (fs ++ [f]).flatMap (eKeysOfFace mid old (refFV mid old))
        = fs.flatMap (eKeysOfFace mid old (refFV mid old))
          ++ eKeysOfFace mid old (refFV mid old) f := by
      simp
    have hFVfull : ∃ t, refFV mid old
        = dedupAppend (dedupAppend [] (fs.flatMap (vKeysOfFace mid old)))
            (vKeysOfFace mid old f) ++ t := by
      have h1 : refFV mid old
          = dedupAppend []
              ((fs ++ [f]).flatMap (vKeysOfFace mid old)
                ++ (rest.flatMap (vKeysOfFace mid old))) := by
        unfold refFV refVK
        rw [hsplit]
        simp
      rw [h1, dedupAppend_append, hflatv, dedupAppend_append]
      exact dedupAppend_sub _ _
    have hFEfull : ∃ t, refFE mid old
        = dedupAppend (dedupAppend [] (fs.flatMap (eKeysOfFace mid old (refFV mid old))))
            (eKeysOfFace mid old (refFV mid old) f) ++ t := by
      have h1 : refFE mid old
          = dedupAppend []
              ((fs ++ [f]).flatMap (eKeysOfFace mid old (refFV mid old))
                ++ (rest.flatMap (eKeysOfFace mid old (refFV mid old)))) := by
        unfold refFE refEK
        rw [hsplit]
        simp
      rw [h1, dedupAppend_append, hflate, dedupAppend_append]
      exact dedupAppend_sub _ _
    rw [refineFace_spec mid old
      ⟨dedupAppend [] (fs.flatMap (vKeysOfFace mid old)),
       dedupAppend [] (fs.flatMap (eKeysOfFace mid old (refFV mid old))),
       fs.flatMap (facesOfFace mid old (refFV mid old) (refFE mid old))⟩
      f (refFV mid old) (refFE mid old) hFVfull hFEfull]
    rw [hflatv, hflate, dedupAppend_append, dedupAppend_append]
    simp

theorem refine_eq {P : Type} [DecidableEq P] [Inhabited P]
    (mid : P → P → P) (poly : Polyhedron P) :
    refine mid poly = buildAdjacency
      ⟨(refFV mid poly).map (fun p => ⟨p, [], []⟩),
       (refFE mid poly).map (fun ab => ⟨ab, []⟩),
       poly.faces.flatMap (facesOfFace mid poly (refFV mid poly) (refFE mid poly))⟩ := by
  unfold refine
  rw [refineFold_spec mid poly poly.faces [] (by simp)]
  rfl

/-! ### C1 — effect of the adjacency passes -/

theorem map_modify_of_preserve {α β : Type} (f : α → α) (g : α → β)
    (hg : ∀ x, g (f x) = g x) (l : List α) (i : ℕ) :
    (List.modify f i l).map g = l.map g := by
  induction l generalizing i with
  | nil => rw [List.modify_eq_self (by simp)]
  | cons a as ih =>
    cases i with
    | zero => show (f a :: as).map g = _; simp [hg]
    | succ i => show (a :: List.modify f i as).map g = _; simp [ih i]

theorem getD_modify_ne {α : Type} (f : α → α) (l : List α) (i j : ℕ) (d : α)
    (h : i ≠ j) : (List.modify f i l).getD j d = l.getD j d := by
  rw [List.getD_eq_getElem?_getD, List.getD_eq_getElem?_getD,
    List.getElem?_modify]
  cases l[j]? <;> simp [h]

theorem getD_modify_self {α : Type} (f : α → α) (l : List α) (i : ℕ) (d : α)
    (h : i < l.length) : (List.modify f i l).getD i d = f (l.getD i d) := by
  rw [List.getD_eq_getElem?_getD, List.getD_eq_getElem?_getD,
    List.getElem?_modify, List.getElem?_eq_getElem h]
  simp

/-- Fold of face-index pushes on an edge list, one `(edge_idx, face_idx)`
operation per slot. -/
def foldOps (es : List Edge) (ops : List (ℕ × ℕ)) : List Edge :=
  ops.foldl (fun es p => List.modify
    (fun x => { x with face_indices := x.face_indices ++ [p.2] }) p.1 es) es

theorem length_foldOps (es : List Edge) (ops : List (ℕ × ℕ)) :
    (foldOps es ops).length = es.length := by
  induction ops generalizing es with
  | nil => rfl
  | cons p ps ih =>
    unfold foldOps at ih ⊢
    simp only [List.foldl_cons]
    rw [ih, List.length_modify]

theorem foldOps_vi (es : List Edge) (ops : List (ℕ × ℕ)) (j : ℕ) :
    ((foldOps es ops).getD j dfltEdge).vertex_indices
      = (es.getD j dfltEdge).vertex_indices := by
  induction ops generalizing es with
  | nil => rfl
  | cons p ps ih =>
    unfold foldOps at ih ⊢
    simp only [List.foldl_cons]
    rw [ih]
    by_cases hpj : p.1 = j
    · subst hpj
      by_cases hlt : p.1 < es.length
      · rw [getD_modify_self _ _ _ _ hlt]
      · rw [List.modify_eq_self (by omega)]
    · rw [getD_modify_ne _ _ _ _ _ hpj]

theorem foldOps_fi (es : List Edge) (ops : List (ℕ × ℕ)) (j : ℕ)
    (hj : j < es.length) :
    ((foldOps es ops).getD j dfltEdge).face_indices
      = (es.getD j dfltEdge).face_indices
        ++ ((ops.filter (fun p => decide (p.1 = j))).map (fun p => p.2)) := by
  induction ops generalizing es with
  | nil => simp [foldOps]
  | cons p ps ih =>
    unfold foldOps at ih ⊢
    simp only [List.foldl_cons]
    rw [ih _ (by rw [List.length_modify]; exact hj)]
    by_cases hpj : p.1 = j
    · subst hpj
      rw [getD_modify_self _ _ _ _ hj]
      simp [List.filter]
    · rw [getD_modify_ne _ _ _ _ _ hpj]
      simp only [List.filter_cons]
      rw [if_neg (by simpa using hpj)]

theorem foldl_congr_fun {α ι : Type} (F G : List α → ι → List α) (l : List ι)
    (h : ∀ es i, F es i = G es i) (es : List α) :
    l.foldl F es = l.foldl G es := by
  induction l generalizing es with
  | nil => rfl
  | cons a as ih =>
    simp only [List.foldl_cons]
    rw [h, ih]

theorem foldl_map_pres {α β ι : Type} (g : α → β) (F : List α → ι → List α)
    (hF : ∀ vs i, (F vs i).map g = vs.map g) (l : List ι) (vs : List α) :
    (l.foldl F vs).map g = vs.map g := by
  induction l generalizing vs with
  | nil => rfl
  | cons a as ih => rw [List.foldl_cons, ih, hF]

theorem foldOps_append (es : List Edge) (o1 o2 : List (ℕ × ℕ)) :
    foldOps es (o1 ++ o2) = foldOps (foldOps es o1) o2 := by
  unfold foldOps; rw [List.foldl_append]

theorem foldl_foldOps_flatMap {ι : Type} (es : List Edge) (l : List ι)
    (k : ι → List (ℕ × ℕ)) :
    l.foldl (fun es i => foldOps es (k i)) es = foldOps es (l.flatMap k) := by
  induction l generalizing es with
  | nil => simp [foldOps]
  | cons a as ih => rw [List.foldl_cons, List.flatMap_cons, foldOps_append, ih]

theorem foldOps_map_vi (es : List Edge) (ops : List (ℕ × ℕ)) :
    (foldOps es ops).map (fun e => e.vertex_indices)
      = es.map (fun e => e.vertex_indices) := by
  unfold foldOps
  refine foldl_map_pres _ _ (fun es p => ?_) ops es
  exact map_modify_of_preserve
    (fun x => { x with face_indices := x.face_indices ++ [p.2] })
    (fun e => e.vertex_indices) (fun x => rfl) es p.1

theorem flatMap_range_getD {α β : Type} (d : α) (g : α → List β) (L : List α) :
    (List.range L.length).flatMap (fun i => g (L.getD i d)) = L.flatMap g := by
  induction L with
  | nil => rfl
  | cons a as ih =>
    rw [List.length_cons, List.range_succ_eq_map, List.flatMap_cons,
      List.flatMap_map, List.flatMap_cons]
    simp only [List.getD_cons_zero, List.getD_cons_succ, Nat.succ_eq_add_one]
    rw [ih]

theorem edgeOps_map_fst (fs : List Face) :
    (edgeOps fs).map (fun q => q.1) = fs.flatMap refFaceEdgeList := by
  rw [edgeOps, List.map_flatMap]
  simp only [List.map_map]
  have h : ∀ i : ℕ, ((fun (q : ℕ × ℕ) => q.1) ∘ (fun e => (e, i)))
      = (id : ℕ → ℕ) := fun i => rfl
  simp only [h, List.map_id]
  exact flatMap_range_getD dfltFace refFaceEdgeList fs

theorem buildAdjacency_faces {P : Type} (p : Polyhedron P) :
    (buildAdjacency p).faces = p.faces := rfl

theorem buildAdjacency_vertices_pos {P : Type} (p : Polyhedron P) :
    (buildAdjacency p).vertices.map (fun v => v.pos)
      = p.vertices.map (fun v => v.pos) := by
  have h0 : (buildAdjacency p).vertices
      = (List.range p.faces.length).foldl (fun vs i =>
          (refFaceVertList (p.faces.getD i dfltFace)).foldl
            (fun vs vert_idx => List.modify
              (fun v => { v with face_indices := v.face_indices ++ [i] }) vert_idx vs) vs)
          ((List.range p.edges.length).foldl (fun vs i =>
            (edgeVertList (p.edges.getD i dfltEdge)).foldl
              (fun vs vert_idx => List.modify
                (fun v => { v with edge_indices := v.edge_indices ++ [i] }) vert_idx vs) vs)
            p.vertices) := rfl
  rw [h0]
  have houter2 : ∀ vs : List (PolyVertex P),
      ((List.range p.faces.length).foldl (fun vs i =>
        (refFaceVertList (p.faces.getD i dfltFace)).foldl
          (fun vs vert_idx => List.modify
            (fun v => { v with face_indices := v.face_indices ++ [i] }) vert_idx vs) vs)
        vs).map (fun v => v.pos) = vs.map (fun v => v.pos) := by
    intro vs
    refine foldl_map_pres _ _ (fun vs i => ?_) _ vs
    refine foldl_map_pres _ _ (fun vs j => ?_) _ vs
    exact map_modify_of_preserve
      (fun v => { v with face_indices := v.face_indices ++ [i] })
      (fun v => v.pos) (fun x => rfl) vs j
  have houter1 : ∀ vs : List (PolyVertex P),
      ((List.range p.edges.length).foldl (fun vs i =>
        (edgeVertList (p.edges.getD i dfltEdge)).foldl
          (fun vs vert_idx => List.modify
            (fun v => { v with edge_indices := v.edge_indices ++ [i] }) vert_idx vs) vs)
        vs).map (fun v => v.pos) = vs.map (fun v => v.pos) := by
    intro vs
    refine foldl_map_pres _ _ (fun vs i => ?_) _ vs
    refine foldl_map_pres _ _ (fun vs j => ?_) _ vs
    exact map_modify_of_preserve
      (fun v => { v with edge_indices := v.edge_indices ++ [i] })
      (fun v => v.pos) (fun x => rfl) vs j
  rw [houter2, houter1]

theorem buildAdjacency_vertices_length {P : Type} (p : Polyhedron P) :
    (buildAdjacency p).vertices.length = p.vertices.length := by
  have h := congrArg List.length (buildAdjacency_vertices_pos p)
  simpa using h

theorem buildAdjacency_edges {P : Type} (p : Polyhedron P) :
    (buildAdjacency p).edges = foldOps p.edges (edgeOps p.faces) := by
  have h0 : (buildAdjacency p).edges
      = (List.range p.faces.length).foldl (fun es i =>
          (refFaceEdgeList (p.faces.getD i dfltFace)).foldl
            (fun es edge_idx => List.modify
              (fun e => { e with face_indices := e.face_indices ++ [i] }) edge_idx es) es)
          p.edges := rfl
  rw [h0, foldl_congr_fun _ (fun es i => foldOps es
      ((refFaceEdgeList (p.faces.getD i dfltFace)).map (fun e => (e, i)))) _
      (fun es i => by
        unfold foldOps
        exact (List.foldl_map (fun e => (e, i))
          (fun es q => List.modify
            (fun x => { x with face_indices := x.face_indices ++ [q.2] }) q.1 es)
          (refFaceEdgeList (p.faces.getD i dfltFace)) es).symm) _,
    foldl_foldOps_flatMap]
  rfl

theorem refine_faces {P : Type} [DecidableEq P] [Inhabited P]
    (mid : P → P → P) (poly : Polyhedron P) :
    (refine mid poly).faces
      = poly.faces.flatMap
          (facesOfFace mid poly (refFV mid poly) (refFE mid poly)) := by
  rw [refine_eq]
  rfl

theorem refine_vertices_pos {P : Type} [DecidableEq P] [Inhabited P]
    (mid : P → P → P) (poly : Polyhedron P) :
    (refine mid poly).vertices.map (fun v => v.pos) = refFV mid poly := by
  rw [refine_eq, buildAdjacency_vertices_pos]
  rw [List.map_map]
  have h : ((fun (v : PolyVertex P) => v.pos)
      ∘ (fun p => ({ pos := p, edge_indices := [], face_indices := [] } : PolyVertex P)))
      = id := rfl
  rw [h, List.map_id]

theorem refine_vertices_length {P : Type} [DecidableEq P] [Inhabited P]
    (mid : P → P → P) (poly : Polyhedron P) :
    (refine mid poly).vertices.length = (refFV mid poly).length := by
  have h := congrArg List.length (refine_vertices_pos mid poly)
  simpa using h

theorem refine_edges {P : Type} [DecidableEq P] [Inhabited P]
    (mid : P → P → P) (poly : Polyhedron P) :
    (refine mid poly).edges
      = foldOps ((refFE mid poly).map
            (fun ab => { vertex_indices := ab, face_indices := [] }))
          (edgeOps (poly.faces.flatMap
            (facesOfFace mid poly (refFV mid poly) (refFE mid poly)))) := by
  rw [refine_eq, buildAdjacency_edges]

theorem refine_edges_length {P : Type} [DecidableEq P] [Inhabited P]
    (mid : P → P → P) (poly : Polyhedron P) :
    (refine mid poly).edges.length = (refFE mid poly).length := by
  rw [refine_edges, length_foldOps, List.length_map]

theorem getD_map_mkEdge (l : List (ℕ × ℕ)) (j : ℕ) (hj : j < l.length) :
    ((l.map (fun ab => ({ vertex_indices := ab, face_indices := [] } : Edge))).getD
        j dfltEdge)
      = { vertex_indices := l.getD j (0, 0), face_indices := [] } := by
  rw [List.getD_eq_getElem?_getD, List.getElem?_map, List.getElem?_eq_getElem hj,
    List.getD_eq_getElem _ _ hj]
  rfl

theorem refine_edge_vi {P : Type} [DecidableEq P] [Inhabited P]
    (mid : P → P → P) (poly : Polyhedron P) (j : ℕ)
    (hj : j < (refFE mid poly).length) :
    ((refine mid poly).edges.getD j dfltEdge).vertex_indices
      = (refFE mid poly).getD j (0, 0) := by
  rw [refine_edges, foldOps_vi, getD_map_mkEdge _ _ (by simpa using hj)]

theorem beq_eq_decide_eq (a b : ℕ) : (a == b) = decide (a = b) := by
  by_cases h : a = b <;> simp [h]

theorem length_filter_ops_count (ops : List (ℕ × ℕ)) (j : ℕ) :
    ((ops.filter (fun q => decide (q.1 = j))).map (fun q => q.2)).length
      = (ops.map (fun q => q.1)).count j := by
  rw [List.length_map, ← List.countP_eq_length_filter, List.count, List.countP_map]
  refine List.countP_congr (fun q _ => ?_)
  show decide (q.1 = j) = true ↔ (q.1 == j) = true
  rw [beq_eq_decide_eq]

theorem refine_edge_fi_length {P : Type} [DecidableEq P] [Inhabited P]
    (mid : P → P → P) (poly : Polyhedron P) (j : ℕ)
    (hj : j < (refFE mid poly).length) :
    ((refine mid poly).edges.getD j dfltEdge).face_indices.length
      = ((poly.faces.flatMap
            (facesOfFace mid poly (refFV mid poly) (refFE mid poly))).flatMap
          refFaceEdgeList).count j := by
  rw [refine_edges, foldOps_fi _ _ _ (by simpa using hj),
    getD_map_mkEdge _ _ (by simpa using hj)]
  show ([] ++ _).length = _
  rw [List.nil_append, length_filter_ops_count, edgeOps_map_fst]

theorem refine_faces_length {P : Type} [DecidableEq P] [Inhabited P]
    (mid : P → P → P) (poly : Polyhedron P) :
    (refine mid poly).faces.length = 4 * poly.faces.length := by
  rw [refine_faces, List.length_flatMap]
  rw [List.map_congr_left (fun f _ => show (List.length ∘ facesOfFace mid poly
    (refFV mid poly) (refFE mid poly)) f = 4 from rfl)]
  rw [show (fun (_ : Face) => (4 : ℕ)) = Function.const Face 4 from rfl,
    List.map_const, List.sum_replicate, smul_eq_mul, Nat.mul_comm]

theorem makeIcosahedron_faces {P : Type} (ps : List P) :
    (makeIcosahedron ps).faces = icoFaces := rfl

theorem makeIcosahedron_vertices_length {P : Type} (ps : List P) :
    (makeIcosahedron ps).vertices.length = ps.length := by
  unfold makeIcosahedron
  rw [buildAdjacency_vertices_length]
  exact List.length_map _ _

theorem makeIcosahedron_vertices_pos {P : Type} (ps : List P) :
    (makeIcosahedron ps).vertices.map (fun v => v.pos) = ps := by
  unfold makeIcosahedron
  rw [buildAdjacency_vertices_pos]
  show (ps.map _).map _ = ps
  rw [List.map_map]
  have h : ((fun (v : PolyVertex P) => v.pos)
      ∘ (fun p => ({ pos := p, edge_indices := [], face_indices := [] } : PolyVertex P)))
      = id := rfl
  rw [h, List.map_id]

theorem makeIcosahedron_edges_length {P : Type} (ps : List P) :
    (makeIcosahedron ps).edges.length = 30 := by
  unfold makeIcosahedron
  rw [buildAdjacency_edges, length_foldOps]
  rfl

theorem makeIcosahedron_edge_fi_length {P : Type} (ps : List P) (j : ℕ)
    (hj : j < 30) :
    ((makeIcosahedron ps).edges.getD j dfltEdge).face_indices.length
      = (icoFaces.flatMap refFaceEdgeList).count j := by
  unfold makeIcosahedron
  rw [buildAdjacency_edges]
  show ((foldOps icoEdges (edgeOps icoFaces)).getD j dfltEdge).face_indices.length = _
  rw [foldOps_fi _ _ _ (by show j < 30; exact hj)]
  have hnil : (icoEdges.getD j dfltEdge).face_indices = [] := by
    interval_cases j <;> rfl
  rw [hnil, List.nil_append, length_filter_ops_count, edgeOps_map_fst]

/-! ### C1 — generic list helpers for the counting argument -/

theorem sortPairN_comm (a b : ℕ) : sortPairN a b = sortPairN b a := by
  unfold sortPairN
  split <;> split <;> (try rfl) <;> (rw [Prod.mk.injEq]; omega)

theorem sortPairN_eq_iff (a b c d : ℕ) :
    sortPairN a b = sortPairN c d ↔ (a = c ∧ b = d) ∨ (a = d ∧ b = c) := by
  constructor
  · intro h
    unfold sortPairN at h
    split at h <;> split at h <;> (rw [Prod.mk.injEq] at h; omega)
  · intro h
    rcases h with ⟨rfl, rfl⟩ | ⟨rfl, rfl⟩
    · rfl
    · exact sortPairN_comm a b

theorem sortPairN_cases (a b : ℕ) :
    sortPairN a b = (a, b) ∨ sortPairN a b = (b, a) := by
  unfold sortPairN
  split
  · exact Or.inl rfl
  · exact Or.inr rfl

theorem sortPairN_idem (a b : ℕ) :
    sortPairN (sortPairN a b).1 (sortPairN a b).2 = sortPairN a b := by
  rcases sortPairN_cases a b with h | h <;> rw [h]
  · exact h
  · rw [show ((b, a) : ℕ × ℕ).1 = b from rfl, show ((b, a) : ℕ × ℕ).2 = a from rfl,
      sortPairN_comm b a]
    exact h

theorem idxK_inj {K : Type} [DecidableEq K] (l : List K) (k k' : K)
    (hk : k ∈ l) (hk' : k' ∈ l) (h : idxK l k = idxK l k') : k = k' := by
  have h1 := getD_idxK l k k hk
  have h2 := getD_idxK l k' k hk'
  rw [← h] at h2
  exact h1.symm.trans h2

theorem idxK_getD {K : Type} [DecidableEq K] (l : List K) (j : ℕ) (d : K)
    (hn : l.Nodup) (hj : j < l.length) : idxK l (l.getD j d) = j := by
  induction l generalizing j with
  | nil => simp at hj
  | cons a as ih =>
    rcases List.nodup_cons.mp hn with ⟨ha, has⟩
    cases j with
    | zero => simp [idxK]
    | succ j =>
      have hj' : j < as.length := by simpa using hj
      have hmem : as.getD j d ∈ as := by
        rw [List.getD_eq_getElem _ _ hj']
        exact List.getElem_mem hj'
      have hne : a ≠ as.getD j d := fun he => ha (he ▸ hmem)
      show idxK (a :: as) ((a :: as).getD (j + 1) d) = j + 1
      rw [List.getD_cons_succ]
      unfold idxK
      rw [if_neg hne, ih j has hj']

theorem mem_getD_of_lt {K : Type} (l : List K) (j : ℕ) (d : K)
    (hj : j < l.length) : l.getD j d ∈ l := by
  rw [List.getD_eq_getElem _ _ hj]
  exact List.getElem_mem hj

theorem nodup_getD_inj {K : Type} (l : List K) (i j : ℕ) (d : K)
    (hn : l.Nodup) (hi : i < l.length) (hj : j < l.length)
    (h : l.getD i d = l.getD j d) : i = j := by
  rw [List.getD_eq_getElem _ _ hi, List.getD_eq_getElem _ _ hj] at h
  exact (List.Nodup.getElem_inj_iff hn).mp h

theorem getD_map_g {α β : Type} (g : α → β) (l : List α) (j : ℕ)
    (hj : j < l.length) (d : α) (d' : β) :
    (l.map g).getD j d' = g (l.getD j d) := by
  rw [List.getD_eq_getElem _ _ (by simpa using hj), List.getElem_map,
    List.getD_eq_getElem _ _ hj]

theorem length_eq_of_nodup_mem_iff {K : Type} [DecidableEq K]
    (l1 l2 : List K) (h1 : l1.Nodup) (h2 : l2.Nodup)
    (hm : ∀ x, x ∈ l1 ↔ x ∈ l2) : l1.length = l2.length := by
  rw [← List.toFinset_card_of_nodup h1, ← List.toFinset_card_of_nodup h2]
  congr 1
  ext x
  simpa using hm x

/-! ### C1 — consequences of the `GoodPoly` invariant -/

theorem posAt_mem_map_pos (poly : Polyhedron Pos) (i : ℕ)
    (hi : i < poly.vertices.length) :
    posAt poly i ∈ poly.vertices.map (fun v => v.pos) := by
  unfold posAt
  exact List.mem_map_of_mem _ (mem_getD_of_lt _ _ _ hi)

theorem posAt_inj (poly : Polyhedron Pos) (d : ℕ) (h : GoodPoly poly d)
    (i j : ℕ) (hi : i < poly.vertices.length) (hj : j < poly.vertices.length)
    (he : posAt poly i = posAt poly j) : i = j := by
  obtain ⟨h1, -⟩ := h
  refine nodup_getD_inj (poly.vertices.map (fun v => v.pos)) i j default h1
    (by simpa using hi) (by simpa using hj) ?_
  rw [getD_map_g _ _ _ hi ⟨default, [], []⟩, getD_map_g _ _ _ hj ⟨default, [], []⟩]
  exact he

theorem ht_posAt (poly : Polyhedron Pos) (d : ℕ) (h : GoodPoly poly d)
    (i : ℕ) (hi : i < poly.vertices.length) : (posAt poly i).ht ≤ d := by
  obtain ⟨-, h2, -⟩ := h
  exact h2 _ (mem_getD_of_lt _ _ _ hi)

theorem ht_midOfEdge (poly : Polyhedron Pos) (d : ℕ) (h : GoodPoly poly d)
    (e : Edge) (he : e ∈ poly.edges) : (midOfEdge poly e).ht = d + 1 := by
  obtain ⟨-, -, -, h4, -⟩ := h
  obtain ⟨-, -, -, hmax⟩ := h4 e he
  unfold midOfEdge
  rw [ht_mkMid, hmax]

theorem edges_nodup (poly : Polyhedron Pos) (d : ℕ) (h : GoodPoly poly d) :
    poly.edges.Nodup := by
  obtain ⟨-, -, -, -, h5, -⟩ := h
  exact List.Nodup.of_map _ h5

theorem midOfEdge_inj (poly : Polyhedron Pos) (d : ℕ) (h : GoodPoly poly d)
    (e e' : Edge) (he : e ∈ poly.edges) (he' : e' ∈ poly.edges)
    (heq : midOfEdge poly e = midOfEdge poly e') : e = e' := by
  have h4 := h.2.2.2.1
  have h5 := h.2.2.2.2.1
  obtain ⟨hv1, hv2, -, -⟩ := h4 e he
  obtain ⟨hw1, hw2, -, -⟩ := h4 e' he'
  unfold midOfEdge at heq
  have hsp : sortPairN e.vertex_indices.1 e.vertex_indices.2
      = sortPairN e'.vertex_indices.1 e'.vertex_indices.2 := by
    rcases mkMid_inj _ _ _ _ heq with ⟨q1, q2⟩ | ⟨q1, q2⟩
    · rw [posAt_inj poly d h _ _ hv1 hw1 q1, posAt_inj poly d h _ _ hv2 hw2 q2]
    · rw [posAt_inj poly d h _ _ hv1 hw2 q1, posAt_inj poly d h _ _ hv2 hw1 q2,
        sortPairN_comm]
  exact List.inj_on_of_nodup_map h5 he he' hsp

theorem midOfEdge_ne_posAt (poly : Polyhedron Pos) (d : ℕ) (h : GoodPoly poly d)
    (e : Edge) (he : e ∈ poly.edges) (i : ℕ) (hi : i < poly.vertices.length) :
    midOfEdge poly e ≠ posAt poly i := by
  obtain ⟨-, -, -, hmax⟩ := h.2.2.2.1 e he
  exact mkMid_ne_of_ht _ _ _ d hmax (ht_posAt poly d h i hi)

theorem face_side_mid (poly : Polyhedron Pos) (d : ℕ) (h : GoodPoly poly d)
    (f : Face) (hf : f ∈ poly.faces) :
    midOfEdge poly (poly.edges.getD f.edge_indices.1 dfltEdge)
        = mkMid (posAt poly f.vertex_indices.1) (posAt poly f.vertex_indices.2.1)
    ∧ midOfEdge poly (poly.edges.getD f.edge_indices.2.1 dfltEdge)
        = mkMid (posAt poly f.vertex_indices.2.1) (posAt poly f.vertex_indices.2.2)
    ∧ midOfEdge poly (poly.edges.getD f.edge_indices.2.2 dfltEdge)
        = mkMid (posAt poly f.vertex_indices.2.2) (posAt poly f.vertex_indices.1) := by
  obtain ⟨-, -, -, -, -, -, -, -, -, hs1, hs2, hs3⟩ := h.2.2.1 f hf
  refine ⟨?_, ?_, ?_⟩ <;> unfold midOfEdge
  · rcases hs1 with hq | hq <;> rw [hq]
    exact mkMid_comm _ _
  · rcases hs2 with hq | hq <;> rw [hq]
    exact mkMid_comm _ _
  · rcases hs3 with hq | hq <;> rw [hq]
    exact mkMid_comm _ _

theorem mem_vKeysOfFace_iff (poly : Polyhedron Pos) (f : Face) (x : Pos) :
    x ∈ vKeysOfFace mkMid poly f ↔
      x = posAt poly f.vertex_indices.1 ∨
      x = posAt poly f.vertex_indices.2.1 ∨
      x = posAt poly f.vertex_indices.2.2 ∨
      x = mkMid (posAt poly f.vertex_indices.1) (posAt poly f.vertex_indices.2.1) ∨
      x = mkMid (posAt poly f.vertex_indices.2.1) (posAt poly f.vertex_indices.2.2) ∨
      x = mkMid (posAt poly f.vertex_indices.2.2) (posAt poly f.vertex_indices.1) := by
  simp [vKeysOfFace]

theorem mem_refVK_iff_vListC (poly : Polyhedron Pos) (d : ℕ)
    (h : GoodPoly poly d) (x : Pos) :
    x ∈ refVK mkMid poly ↔ x ∈ vListC poly := by
  have h3 := h.2.2.1
  have h6 := h.2.2.2.2.2.1
  have h7 := h.2.2.2.2.2.2.1
  unfold refVK vListC
  rw [List.mem_flatMap, List.mem_append]
  constructor
  · rintro ⟨f, hf, hx⟩
    obtain ⟨hb1, hb2, hb3, -, -, -, he1, he2, he3, -⟩ := h3 f hf
    obtain ⟨hm1, hm2, hm3⟩ := face_side_mid poly d h f hf
    rcases (mem_vKeysOfFace_iff poly f x).mp hx with
      rfl | rfl | rfl | rfl | rfl | rfl
    · exact Or.inl (posAt_mem_map_pos poly _ hb1)
    · exact Or.inl (posAt_mem_map_pos poly _ hb2)
    · exact Or.inl (posAt_mem_map_pos poly _ hb3)
    · exact Or.inr (hm1 ▸ List.mem_map_of_mem _ (mem_getD_of_lt _ _ _ he1))
    · exact Or.inr (hm2 ▸ List.mem_map_of_mem _ (mem_getD_of_lt _ _ _ he2))
    · exact Or.inr (hm3 ▸ List.mem_map_of_mem _ (mem_getD_of_lt _ _ _ he3))
  · intro hx
    rcases hx with hx | hx
    · obtain ⟨v, hv, rfl⟩ := List.mem_map.mp hx
      obtain ⟨n, hn, rfl⟩ := List.mem_iff_getElem.mp hv
      have hpos : posAt poly n = (poly.vertices[n]).pos := by
        unfold posAt
        rw [List.getD_eq_getElem _ _ hn]
      obtain ⟨f, hf, hnf⟩ := h7 n hn
      refine ⟨f, hf, ?_⟩
      rw [mem_vKeysOfFace_iff]
      simp only [refFaceVertList, List.mem_cons, List.not_mem_nil, or_false] at hnf
      rcases hnf with h1 | h1 | h1
      · exact Or.inl (by rw [← hpos, h1])
      · exact Or.inr (Or.inl (by rw [← hpos, h1]))
      · exact Or.inr (Or.inr (Or.inl (by rw [← hpos, h1])))
    · obtain ⟨e, he, rfl⟩ := List.mem_map.mp hx
      obtain ⟨n, hn, rfl⟩ := List.mem_iff_getElem.mp he
      have hcnt := h6 n hn
      have hmem : n ∈ poly.faces.flatMap refFaceEdgeList := by
        rw [← List.count_pos_iff, hcnt]
        omega
      obtain ⟨f, hf, hnf⟩ := List.mem_flatMap.mp hmem
      obtain ⟨hm1, hm2, hm3⟩ := face_side_mid poly d h f hf
      have hgd : poly.edges[n] = poly.edges.getD n dfltEdge :=
        (List.getD_eq_getElem _ _ hn).symm
      refine ⟨f, hf, ?_⟩
      rw [mem_vKeysOfFace_iff]
      simp only [refFaceEdgeList, List.mem_cons, List.not_mem_nil, or_false] at hnf
      rcases hnf with h1 | h1 | h1
      · refine Or.inr (Or.inr (Or.inr (Or.inl ?_)))
        rw [hgd, h1, ← hm1]
      · refine Or.inr (Or.inr (Or.inr (Or.inr (Or.inl ?_))))
        rw [hgd, h1, ← hm2]
      · refine Or.inr (Or.inr (Or.inr (Or.inr (Or.inr ?_))))
        rw [hgd, h1, ← hm3]

theorem mem_refFV_iff (poly : Polyhedron Pos) (d : ℕ)
    (h : GoodPoly poly d) (x : Pos) :
    x ∈ refFV mkMid poly ↔ x ∈ vListC poly := by
  unfold refFV
  rw [mem_dedupAppend, ← mem_refVK_iff_vListC poly d h x]
  simp

theorem nodup_vListC (poly : Polyhedron Pos) (d : ℕ) (h : GoodPoly poly d) :
    (vListC poly).Nodup := by
  unfold vListC
  rw [List.nodup_append]
  refine ⟨h.1, ?_, ?_⟩
  · refine List.Nodup.map_on ?_ (edges_nodup poly d h)
    intro e he e' he' heq
    exact midOfEdge_inj poly d h e e' he he' heq
  · intro x hx hx'
    obtain ⟨v, hv, rfl⟩ := List.mem_map.mp hx
    obtain ⟨n, hn, rfl⟩ := List.mem_iff_getElem.mp hv
    obtain ⟨e, he, heq⟩ := List.mem_map.mp hx'
    have hpos : (poly.vertices[n]).pos = posAt poly n := by
      unfold posAt
      rw [List.getD_eq_getElem _ _ hn]
    rw [hpos] at heq
    exact midOfEdge_ne_posAt poly d h e he n hn heq

theorem refFV_length (poly : Polyhedron Pos) (d : ℕ) (h : GoodPoly poly d) :
    (refFV mkMid poly).length
      = poly.vertices.length + poly.edges.length := by
  have hlen := length_eq_of_nodup_mem_iff (refFV mkMid poly) (vListC poly)
    (nodup_dedupAppend _ _ (List.nodup_nil)) (nodup_vListC poly d h)
    (mem_refFV_iff poly d h)
  rw [hlen]
  unfold vListC
  rw [List.length_append, List.length_map, List.length_map]

/-! ### C1 — edge-key classification -/

theorem posAt_mem_refFV (poly : Polyhedron Pos) (d : ℕ) (h : GoodPoly poly d)
    (i : ℕ) (hi : i < poly.vertices.length) :
    posAt poly i ∈ refFV mkMid poly := by
  rw [mem_refFV_iff poly d h]
  unfold vListC
  exact List.mem_append_left _ (posAt_mem_map_pos poly i hi)

theorem midOfEdge_mem_refFV (poly : Polyhedron Pos) (d : ℕ)
    (h : GoodPoly poly d) (e : Edge) (he : e ∈ poly.edges) :
    midOfEdge poly e ∈ refFV mkMid poly := by
  rw [mem_refFV_iff poly d h]
  unfold vListC
  exact List.mem_append_right _ (List.mem_map_of_mem _ he)

theorem vmIdx_ne (poly : Polyhedron Pos) (d : ℕ) (h : GoodPoly poly d)
    (i : ℕ) (hi : i < poly.vertices.length) (e : Edge) (he : e ∈ poly.edges) :
    idxK (refFV mkMid poly) (posAt poly i)
      ≠ idxK (refFV mkMid poly) (midOfEdge poly e) := by
  intro q
  exact midOfEdge_ne_posAt poly d h e he i hi
    (idxK_inj _ _ _ (posAt_mem_refFV poly d h i hi)
      (midOfEdge_mem_refFV poly d h e he) q).symm

theorem vIdx_inj (poly : Polyhedron Pos) (d : ℕ) (h : GoodPoly poly d)
    (i j : ℕ) (hi : i < poly.vertices.length) (hj : j < poly.vertices.length)
    (q : idxK (refFV mkMid poly) (posAt poly i)
        = idxK (refFV mkMid poly) (posAt poly j)) : i = j :=
  posAt_inj poly d h i j hi hj
    (idxK_inj _ _ _ (posAt_mem_refFV poly d h i hi)
      (posAt_mem_refFV poly d h j hj) q)

theorem mIdx_inj (poly : Polyhedron Pos) (d : ℕ) (h : GoodPoly poly d)
    (e e' : Edge) (he : e ∈ poly.edges) (he' : e' ∈ poly.edges)
    (q : idxK (refFV mkMid poly) (midOfEdge poly e)
        = idxK (refFV mkMid poly) (midOfEdge poly e')) : e = e' :=
  midOfEdge_inj poly d h e e' he he'
    (idxK_inj _ _ _ (midOfEdge_mem_refFV poly d h e he)
      (midOfEdge_mem_refFV poly d h e' he') q)

theorem bKey_inj (poly : Polyhedron Pos) (d : ℕ) (h : GoodPoly poly d)
    (i j : ℕ) (e e' : Edge)
    (hi : i < poly.vertices.length) (hj : j < poly.vertices.length)
    (he : e ∈ poly.edges) (he' : e' ∈ poly.edges)
    (heq : sortPairN (idxK (refFV mkMid poly) (posAt poly i))
             (idxK (refFV mkMid poly) (midOfEdge poly e))
         = sortPairN (idxK (refFV mkMid poly) (posAt poly j))
             (idxK (refFV mkMid poly) (midOfEdge poly e'))) :
    i = j ∧ e = e' := by
  rcases (sortPairN_eq_iff _ _ _ _).mp heq with ⟨q1, q2⟩ | ⟨q1, q2⟩
  · exact ⟨vIdx_inj poly d h i j hi hj q1, mIdx_inj poly d h e e' he he' q2⟩
  · exact absurd q1 (vmIdx_ne poly d h i hi e' he')

theorem eKeysOfFace_decomp (poly : Polyhedron Pos) (FV : List Pos) (f : Face) :
    eKeysOfFace mkMid poly FV f
      = bSixOfFace poly FV f ++ iKeysOfFace poly FV f := rfl

theorem bSixOfFace_eq (poly : Polyhedron Pos) (d : ℕ) (h : GoodPoly poly d)
    (f : Face) (hf : f ∈ poly.faces) :
    bSixOfFace poly (refFV mkMid poly) f
      = [sortPairN (idxK (refFV mkMid poly) (posAt poly f.vertex_indices.1))
           (idxK (refFV mkMid poly)
             (midOfEdge poly (poly.edges.getD f.edge_indices.1 dfltEdge))),
         sortPairN (idxK (refFV mkMid poly)
             (midOfEdge poly (poly.edges.getD f.edge_indices.1 dfltEdge)))
           (idxK (refFV mkMid poly) (posAt poly f.vertex_indices.2.1)),
         sortPairN (idxK (refFV mkMid poly) (posAt poly f.vertex_indices.2.1))
           (idxK (refFV mkMid poly)
             (midOfEdge poly (poly.edges.getD f.edge_indices.2.1 dfltEdge))),
         sortPairN (idxK (refFV mkMid poly)
             (midOfEdge poly (poly.edges.getD f.edge_indices.2.1 dfltEdge)))
           (idxK (refFV mkMid poly) (posAt poly f.vertex_indices.2.2)),
         sortPairN (idxK (refFV mkMid poly) (posAt poly f.vertex_indices.2.2))
           (idxK (refFV mkMid poly)
             (midOfEdge poly (poly.edges.getD f.edge_indices.2.2 dfltEdge))),
         sortPairN (idxK (refFV mkMid poly)
             (midOfEdge poly (poly.edges.getD f.edge_indices.2.2 dfltEdge)))
           (idxK (refFV mkMid poly) (posAt poly f.vertex_indices.1))] := by
  obtain ⟨hm1, hm2, hm3⟩ := face_side_mid poly d h f hf
  simp only [bSixOfFace, hm1, hm2, hm3]

theorem iKeysOfFace_eq (poly : Polyhedron Pos) (d : ℕ) (h : GoodPoly poly d)
    (f : Face) (hf : f ∈ poly.faces) :
    iKeysOfFace poly (refFV mkMid poly) f
      = [(idxK (refFV mkMid poly)
            (midOfEdge poly (poly.edges.getD f.edge_indices.1 dfltEdge)),
          idxK (refFV mkMid poly)
            (midOfEdge poly (poly.edges.getD f.edge_indices.2.2 dfltEdge))),
         (idxK (refFV mkMid poly)
            (midOfEdge poly (poly.edges.getD f.edge_indices.1 dfltEdge)),
          idxK (refFV mkMid poly)
            (midOfEdge poly (poly.edges.getD f.edge_indices.2.1 dfltEdge))),
         (idxK (refFV mkMid poly)
            (midOfEdge poly (poly.edges.getD f.edge_indices.2.1 dfltEdge)),
          idxK (refFV mkMid poly)
            (midOfEdge poly (poly.edges.getD f.edge_indices.2.2 dfltEdge)))] := by
  obtain ⟨hm1, hm2, hm3⟩ := face_side_mid poly d h f hf
  simp only [iKeysOfFace, hm1, hm2, hm3]

theorem mem_bKeysOfEdge_slot (poly : Polyhedron Pos) (FV : List Pos) (e : Edge)
    (i j : ℕ) (hside : sideEq e i j) (x : ℕ × ℕ) :
    x ∈ bKeysOfEdge poly FV e ↔
      (x = sortPairN (idxK FV (posAt poly i)) (idxK FV (midOfEdge poly e)) ∨
       x = sortPairN (idxK FV (posAt poly j)) (idxK FV (midOfEdge poly e))) := by
  rcases hside with hq | hq <;> simp [bKeysOfEdge, hq] <;> tauto

theorem mem_refEK_iff_eListC (poly : Polyhedron Pos) (d : ℕ)
    (h : GoodPoly poly d) (x : ℕ × ℕ) :
    x ∈ refEK mkMid poly ↔ x ∈ eListC poly := by
  have h3 := h.2.2.1
  have h6 := h.2.2.2.2.2.1
  unfold refEK eListC
  rw [List.mem_append, List.mem_flatMap]
  constructor
  · rintro ⟨f, hf, hx⟩
    rw [eKeysOfFace_decomp, List.mem_append] at hx
    rcases hx with hx | hx
    · left
      rw [List.mem_flatMap]
      obtain ⟨-, -, -, -, -, -, he1, he2, he3, hs1, hs2, hs3⟩ := h3 f hf
      rw [bSixOfFace_eq poly d h f hf] at hx
      simp only [List.mem_cons, List.not_mem_nil, or_false] at hx
      rcases hx with rfl | rfl | rfl | rfl | rfl | rfl
      · exact ⟨_, mem_getD_of_lt _ _ _ he1,
          (mem_bKeysOfEdge_slot poly _ _ _ _ hs1 _).mpr (Or.inl rfl)⟩
      · exact ⟨_, mem_getD_of_lt _ _ _ he1,
          (mem_bKeysOfEdge_slot poly _ _ _ _ hs1 _).mpr
            (Or.inr (sortPairN_comm _ _))⟩
      · exact ⟨_, mem_getD_of_lt _ _ _ he2,
          (mem_bKeysOfEdge_slot poly _ _ _ _ hs2 _).mpr (Or.inl rfl)⟩
      · exact ⟨_, mem_getD_of_lt _ _ _ he2,
          (mem_bKeysOfEdge_slot poly _ _ _ _ hs2 _).mpr
            (Or.inr (sortPairN_comm _ _))⟩
      · exact ⟨_, mem_getD_of_lt _ _ _ he3,
          (mem_bKeysOfEdge_slot poly _ _ _ _ hs3 _).mpr (Or.inl rfl)⟩
      · exact ⟨_, mem_getD_of_lt _ _ _ he3,
          (mem_bKeysOfEdge_slot poly _ _ _ _ hs3 _).mpr
            (Or.inr (sortPairN_comm _ _))⟩
    · right
      rw [List.mem_flatMap]
      exact ⟨f, hf, hx⟩
  · rintro (hx | hx)
    · rw [List.mem_flatMap] at hx
      obtain ⟨e, he, hx⟩ := hx
      obtain ⟨n, hn, rfl⟩ := List.mem_iff_getElem.mp he
      have hgd : poly.edges[n] = poly.edges.getD n dfltEdge :=
        (List.getD_eq_getElem _ _ hn).symm
      have hmem : n ∈ poly.faces.flatMap refFaceEdgeList := by
        rw [← List.count_pos_iff, h6 n hn]
        omega
      obtain ⟨f, hf, hnf⟩ := List.mem_flatMap.mp hmem
      obtain ⟨-, -, -, -, -, -, he1, he2, he3, hs1, hs2, hs3⟩ := h3 f hf
      refine ⟨f, hf, ?_⟩
      rw [eKeysOfFace_decomp, List.mem_append]
      left
      rw [bSixOfFace_eq poly d h f hf]
      simp only [refFaceEdgeList, List.mem_cons, List.not_mem_nil, or_false] at hnf
      simp only [List.mem_cons, List.not_mem_nil, or_false]
      rcases hnf with h1 | h1 | h1
      · rw [hgd, h1] at hx
        rcases (mem_bKeysOfEdge_slot poly _ _ _ _ hs1 _).mp hx with rfl | rfl
        · exact Or.inl rfl
        · exact Or.inr (Or.inl (sortPairN_comm _ _))
      · rw [hgd, h1] at hx
        rcases (mem_bKeysOfEdge_slot poly _ _ _ _ hs2 _).mp hx with rfl | rfl
        · exact Or.inr (Or.inr (Or.inl rfl))
        · exact Or.inr (Or.inr (Or.inr (Or.inl (sortPairN_comm _ _))))
      · rw [hgd, h1] at hx
        rcases (mem_bKeysOfEdge_slot poly _ _ _ _ hs3 _).mp hx with rfl | rfl
        · exact Or.inr (Or.inr (Or.inr (Or.inr (Or.inl rfl))))
        · exact Or.inr (Or.inr (Or.inr (Or.inr (Or.inr (sortPairN_comm _ _)))))
    · rw [List.mem_flatMap] at hx
      obtain ⟨f, hf, hx⟩ := hx
      exact ⟨f, hf, by
        rw [eKeysOfFace_decomp, List.mem_append]
        exact Or.inr hx⟩

theorem mem_refFE_iff (poly : Polyhedron Pos) (d : ℕ)
    (h : GoodPoly poly d) (x : ℕ × ℕ) :
    x ∈ refFE mkMid poly ↔ x ∈ eListC poly := by
  unfold refFE
  rw [mem_dedupAppend, ← mem_refEK_iff_eListC poly d h x]
  simp

theorem face_mid_ne (poly : Polyhedron Pos) (d : ℕ) (h : GoodPoly poly d)
    (f : Face) (hf : f ∈ poly.faces) :
    mkMid (posAt poly f.vertex_indices.1) (posAt poly f.vertex_indices.2.1)
        ≠ mkMid (posAt poly f.vertex_indices.2.1) (posAt poly f.vertex_indices.2.2)
    ∧ mkMid (posAt poly f.vertex_indices.2.1) (posAt poly f.vertex_indices.2.2)
        ≠ mkMid (posAt poly f.vertex_indices.2.2) (posAt poly f.vertex_indices.1)
    ∧ mkMid (posAt poly f.vertex_indices.1) (posAt poly f.vertex_indices.2.1)
        ≠ mkMid (posAt poly f.vertex_indices.2.2) (posAt poly f.vertex_indices.1) := by
  obtain ⟨hb1, hb2, hb3, hd1, hd2, hd3, -⟩ := h.2.2.1 f hf
  refine ⟨fun q => ?_, fun q => ?_, fun q => ?_⟩
  · rcases mkMid_inj _ _ _ _ q with ⟨q1, q2⟩ | ⟨q1, q2⟩
    · exact hd1 (posAt_inj poly d h _ _ hb1 hb2 q1)
    · exact hd3 (posAt_inj poly d h _ _ hb3 hb1 q1.symm)
  · rcases mkMid_inj _ _ _ _ q with ⟨q1, q2⟩ | ⟨q1, q2⟩
    · exact hd2 (posAt_inj poly d h _ _ hb2 hb3 q1)
    · exact hd1 (posAt_inj poly d h _ _ hb1 hb2 q1.symm)
  · rcases mkMid_inj _ _ _ _ q with ⟨q1, q2⟩ | ⟨q1, q2⟩
    · exact hd3 (posAt_inj poly d h _ _ hb3 hb1 q1.symm)
    · exact hd2 (posAt_inj poly d h _ _ hb2 hb3 q2)

theorem face_sides_ne (poly : Polyhedron Pos) (d : ℕ) (h : GoodPoly poly d)
    (f : Face) (hf : f ∈ poly.faces) :
    poly.edges.getD f.edge_indices.1 dfltEdge
        ≠ poly.edges.getD f.edge_indices.2.1 dfltEdge
    ∧ poly.edges.getD f.edge_indices.2.1 dfltEdge
        ≠ poly.edges.getD f.edge_indices.2.2 dfltEdge
    ∧ poly.edges.getD f.edge_indices.1 dfltEdge
        ≠ poly.edges.getD f.edge_indices.2.2 dfltEdge := by
  obtain ⟨hm1, hm2, hm3⟩ := face_side_mid poly d h f hf
  obtain ⟨hn1, hn2, hn3⟩ := face_mid_ne poly d h f hf
  refine ⟨fun q => ?_, fun q => ?_, fun q => ?_⟩
  · exact hn1 (by rw [← hm1, ← hm2, q])
  · exact hn2 (by rw [← hm2, ← hm3, q])
  · exact hn3 (by rw [← hm1, ← hm3, q])

theorem mem_bpart_form (poly : Polyhedron Pos) (d : ℕ) (h : GoodPoly poly d)
    (x : ℕ × ℕ)
    (hx : x ∈ poly.edges.flatMap (bKeysOfEdge poly (refFV mkMid poly))) :
    ∃ w e, w < poly.vertices.length ∧ e ∈ poly.edges ∧
      (w = e.vertex_indices.1 ∨ w = e.vertex_indices.2) ∧
      x = sortPairN (idxK (refFV mkMid poly) (posAt poly w))
            (idxK (refFV mkMid poly) (midOfEdge poly e)) := by
  obtain ⟨e, he, hx⟩ := List.mem_flatMap.mp hx
  obtain ⟨hv1, hv2, -, -⟩ := h.2.2.2.1 e he
  simp only [bKeysOfEdge, List.mem_cons, List.not_mem_nil, or_false] at hx
  rcases hx with rfl | rfl
  · exact ⟨e.vertex_indices.1, e, hv1, he, Or.inl rfl, rfl⟩
  · exact ⟨e.vertex_indices.2, e, hv2, he, Or.inr rfl, rfl⟩

theorem mem_ipart_form (poly : Polyhedron Pos) (d : ℕ) (h : GoodPoly poly d)
    (x : ℕ × ℕ)
    (hx : x ∈ poly.faces.flatMap (iKeysOfFace poly (refFV mkMid poly))) :
    ∃ eA eB, eA ∈ poly.edges ∧ eB ∈ poly.edges ∧ eA ≠ eB ∧
      x = (idxK (refFV mkMid poly) (midOfEdge poly eA),
           idxK (refFV mkMid poly) (midOfEdge poly eB)) := by
  obtain ⟨f, hf, hx⟩ := List.mem_flatMap.mp hx
  obtain ⟨-, -, -, -, -, -, he1, he2, he3, -⟩ := h.2.2.1 f hf
  obtain ⟨hq1, hq2, hq3⟩ := face_sides_ne poly d h f hf
  rw [iKeysOfFace_eq poly d h f hf] at hx
  simp only [List.mem_cons, List.not_mem_nil, or_false] at hx
  rcases hx with rfl | rfl | rfl
  · exact ⟨_, _, mem_getD_of_lt _ _ _ he1, mem_getD_of_lt _ _ _ he3, hq3, rfl⟩
  · exact ⟨_, _, mem_getD_of_lt _ _ _ he1, mem_getD_of_lt _ _ _ he2, hq1, rfl⟩
  · exact ⟨_, _, mem_getD_of_lt _ _ _ he2, mem_getD_of_lt _ _ _ he3, hq2, rfl⟩

theorem shared_two_edges_contra (poly : Polyhedron Pos) (d : ℕ)
    (h : GoodPoly poly d) (f g : Face)
    (hR : ∀ i ∈ refFaceEdgeList f, ∀ j ∈ refFaceEdgeList f,
      i ∈ refFaceEdgeList g → j ∈ refFaceEdgeList g → i = j)
    (sf tf sg tg : ℕ)
    (hsf : sf ∈ refFaceEdgeList f) (htf : tf ∈ refFaceEdgeList f)
    (hsg : sg ∈ refFaceEdgeList g) (htg : tg ∈ refFaceEdgeList g)
    (hsfE : sf < poly.edges.length) (htfE : tf < poly.edges.length)
    (hsgE : sg < poly.edges.length) (htgE : tg < poly.edges.length)
    (h1 : poly.edges.getD sf dfltEdge = poly.edges.getD sg dfltEdge)
    (h2 : poly.edges.getD tf dfltEdge = poly.edges.getD tg dfltEdge)
    (hne : poly.edges.getD sf dfltEdge ≠ poly.edges.getD tf dfltEdge) : False := by
  have hnde := edges_nodup poly d h
  have e1 : sf = sg := nodup_getD_inj _ _ _ _ hnde hsfE hsgE h1
  have e2 : tf = tg := nodup_getD_inj _ _ _ _ hnde htfE htgE h2
  have e3 : sf = tf := hR sf hsf tf htf (e1 ▸ hsg) (e2 ▸ htg)
  exact hne (by rw [e3])

theorem nodup_eListC (poly : Polyhedron Pos) (d : ℕ) (h : GoodPoly poly d) :
    (eListC poly).Nodup := by
  have h3 := h.2.2.1
  have h4 := h.2.2.2.1
  have h8 := h.2.2.2.2.2.2.2
  unfold eListC
  rw [List.nodup_append]
  refine ⟨?_, ?_, ?_⟩
  · rw [List.nodup_flatMap]
    constructor
    · intro e he
      obtain ⟨hv1, hv2, hvne, -⟩ := h4 e he
      simp only [bKeysOfEdge, List.nodup_cons, List.mem_cons, List.not_mem_nil,
        or_false, List.nodup_nil, and_true, List.not_mem_nil, not_false_iff]
      intro q
      exact hvne (bKey_inj poly d h _ _ e e hv1 hv2 he he q).1
    · refine List.Pairwise.imp_of_mem (fun {e e'} he he' hne => ?_)
        (edges_nodup poly d h)
      intro x hxe hxe'
      obtain ⟨hv1, hv2, -, -⟩ := h4 e he
      obtain ⟨hw1, hw2, -, -⟩ := h4 e' he'
      simp only [bKeysOfEdge, List.mem_cons, List.not_mem_nil, or_false] at hxe hxe'
      refine hne ?_
      rcases hxe with rfl | rfl <;> rcases hxe' with hq | hq
      · exact (bKey_inj poly d h _ _ e e' hv1 hw1 he he' hq).2
      · exact (bKey_inj poly d h _ _ e e' hv1 hw2 he he' hq).2
      · exact (bKey_inj poly d h _ _ e e' hv2 hw1 he he' hq).2
      · exact (bKey_inj poly d h _ _ e e' hv2 hw2 he he' hq).2
  · rw [List.nodup_flatMap]
    constructor
    · intro f hf
      obtain ⟨-, -, -, -, -, -, he1, he2, he3, -⟩ := h3 f hf
      obtain ⟨hq1, hq2, hq3⟩ := face_sides_ne poly d h f hf
      have hm12 : idxK (refFV mkMid poly)
            (midOfEdge poly (poly.edges.getD f.edge_indices.1 dfltEdge))
          ≠ idxK (refFV mkMid poly)
            (midOfEdge poly (poly.edges.getD f.edge_indices.2.1 dfltEdge)) :=
        fun q => hq1 (mIdx_inj poly d h _ _ (mem_getD_of_lt _ _ _ he1)
          (mem_getD_of_lt _ _ _ he2) q)
      have hm23 : idxK (refFV mkMid poly)
            (midOfEdge poly (poly.edges.getD f.edge_indices.2.1 dfltEdge))
          ≠ idxK (refFV mkMid poly)
            (midOfEdge poly (poly.edges.getD f.edge_indices.2.2 dfltEdge)) :=
        fun q => hq2 (mIdx_inj poly d h _ _ (mem_getD_of_lt _ _ _ he2)
          (mem_getD_of_lt _ _ _ he3) q)
      have hm13 : idxK (refFV mkMid poly)
            (midOfEdge poly (poly.edges.getD f.edge_indices.1 dfltEdge))
          ≠ idxK (refFV mkMid poly)
            (midOfEdge poly (poly.edges.getD f.edge_indices.2.2 dfltEdge)) :=
        fun q => hq3 (mIdx_inj poly d h _ _ (mem_getD_of_lt _ _ _ he1)
          (mem_getD_of_lt _ _ _ he3) q)
      rw [iKeysOfFace_eq poly d h f hf]
      simp only [List.nodup_cons, List.mem_cons, List.not_mem_nil, or_false,
        List.nodup_nil, and_true, Prod.mk.injEq]
      tauto
    · refine List.Pairwise.imp_of_mem (fun {f g} hf hg hRfg => ?_) h8
      intro x hxf hxg
      obtain ⟨-, -, -, -, -, -, he1, he2, he3, -⟩ := h3 f hf
      obtain ⟨-, -, -, -, -, -, hg1, hg2, hg3, -⟩ := h3 g hg
      obtain ⟨hq1, hq2, hq3⟩ := face_sides_ne poly d h f hf
      have hf1 : f.edge_indices.1 ∈ refFaceEdgeList f := by simp [refFaceEdgeList]
      have hf2 : f.edge_indices.2.1 ∈ refFaceEdgeList f := by simp [refFaceEdgeList]
      have hf3 : f.edge_indices.2.2 ∈ refFaceEdgeList f := by simp [refFaceEdgeList]
      have hgm1 : g.edge_indices.1 ∈ refFaceEdgeList g := by simp [refFaceEdgeList]
      have hgm2 : g.edge_indices.2.1 ∈ refFaceEdgeList g := by simp [refFaceEdgeList]
      have hgm3 : g.edge_indices.2.2 ∈ refFaceEdgeList g := by simp [refFaceEdgeList]
      rw [iKeysOfFace_eq poly d h f hf] at hxf
      rw [iKeysOfFace_eq poly d h g hg] at hxg
      simp only [List.mem_cons, List.not_mem_nil, or_false] at hxf hxg
      rcases hxf with rfl | rfl | rfl <;> rcases hxg with hq | hq | hq <;>
        rw [Prod.mk.injEq] at hq <;> obtain ⟨qa, qb⟩ := hq
      · exact shared_two_edges_contra poly d h f g hRfg _ _ _ _ hf1 hf3 hgm1 hgm3
          he1 he3 hg1 hg3
          (mIdx_inj poly d h _ _ (mem_getD_of_lt _ _ _ he1) (mem_getD_of_lt _ _ _ hg1) qa)
          (mIdx_inj poly d h _ _ (mem_getD_of_lt _ _ _ he3) (mem_getD_of_lt _ _ _ hg3) qb)
          hq3
      · exact shared_two_edges_contra poly d h f g hRfg _ _ _ _ hf1 hf3 hgm1 hgm2
          he1 he3 hg1 hg2
          (mIdx_inj poly d h _ _ (mem_getD_of_lt _ _ _ he1) (mem_getD_of_lt _ _ _ hg1) qa)
          (mIdx_inj poly d h _ _ (mem_getD_of_lt _ _ _ he3) (mem_getD_of_lt _ _ _ hg2) qb)
          hq3
      · exact shared_two_edges_contra poly d h f g hRfg _ _ _ _ hf1 hf3 hgm2 hgm3
          he1 he3 hg2 hg3
          (mIdx_inj poly d h _ _ (mem_getD_of_lt _ _ _ he1) (mem_getD_of_lt _ _ _ hg2) qa)
          (mIdx_inj poly d h _ _ (mem_getD_of_lt _ _ _ he3) (mem_getD_of_lt _ _ _ hg3) qb)
          hq3
      · exact shared_two_edges_contra poly d h f g hRfg _ _ _ _ hf1 hf2 hgm1 hgm3
          he1 he2 hg1 hg3
          (mIdx_inj poly d h _ _ (mem_getD_of_lt _ _ _ he1) (mem_getD_of_lt _ _ _ hg1) qa)
          (mIdx_inj poly d h _ _ (mem_getD_of_lt _ _ _ he2) (mem_getD_of_lt _ _ _ hg3) qb)
          hq1
      · exact shared_two_edges_contra poly d h f g hRfg _ _ _ _ hf1 hf2 hgm1 hgm2
          he1 he2 hg1 hg2
          (mIdx_inj poly d h _ _ (mem_getD_of_lt _ _ _ he1) (mem_getD_of_lt _ _ _ hg1) qa)
          (mIdx_inj poly d h _ _ (mem_getD_of_lt _ _ _ he2) (mem_getD_of_lt _ _ _ hg2) qb)
          hq1
      · exact shared_two_edges_contra poly d h f g hRfg _ _ _ _ hf1 hf2 hgm2 hgm3
          he1 he2 hg2 hg3
          (mIdx_inj poly d h _ _ (mem_getD_of_lt _ _ _ he1) (mem_getD_of_lt _ _ _ hg2) qa)
          (mIdx_inj poly d h _ _ (mem_getD_of_lt _ _ _ he2) (mem_getD_of_lt _ _ _ hg3) qb)
          hq1
      · exact shared_two_edges_contra poly d h f g hRfg _ _ _ _ hf2 hf3 hgm1 hgm3
          he2 he3 hg1 hg3
          (mIdx_inj poly d h _ _ (mem_getD_of_lt _ _ _ he2) (mem_getD_of_lt _ _ _ hg1) qa)
          (mIdx_inj poly d h _ _ (mem_getD_of_lt _ _ _ he3) (mem_getD_of_lt _ _ _ hg3) qb)
          hq2
      · exact shared_two_edges_contra poly d h f g hRfg _ _ _ _ hf2 hf3 hgm1 hgm2
          he2 he3 hg1 hg2
          (mIdx_inj poly d h _ _ (mem_getD_of_lt _ _ _ he2) (mem_getD_of_lt _ _ _ hg1) qa)
          (mIdx_inj poly d h _ _ (mem_getD_of_lt _ _ _ he3) (mem_getD_of_lt _ _ _ hg2) qb)
          hq2
      · exact shared_two_edges_contra poly d h f g hRfg _ _ _ _ hf2 hf3 hgm2 hgm3
          he2 he3 hg2 hg3
          (mIdx_inj poly d h _ _ (mem_getD_of_lt _ _ _ he2) (mem_getD_of_lt _ _ _ hg2) qa)
          (mIdx_inj poly d h _ _ (mem_getD_of_lt _ _ _ he3) (mem_getD_of_lt _ _ _ hg3) qb)
          hq2
  · intro x hxb hxi
    obtain ⟨w, e, hw, he, -, rfl⟩ := mem_bpart_form poly d h x hxb
    obtain ⟨eA, eB, hA, hB, -, hxeq⟩ := mem_ipart_form poly d h _ hxi
    rcases sortPairN_cases (idxK (refFV mkMid poly) (posAt poly w))
        (idxK (refFV mkMid poly) (midOfEdge poly e)) with hs | hs <;>
      rw [hs] at hxeq <;> rw [Prod.mk.injEq] at hxeq
    · exact vmIdx_ne poly d h w hw eA hA hxeq.1
    · exact vmIdx_ne poly d h w hw eB hB hxeq.2

theorem refFE_length (poly : Polyhedron Pos) (d : ℕ) (h : GoodPoly poly d) :
    (refFE mkMid poly).length
      = 2 * poly.edges.length + 3 * poly.faces.length := by
  have hlen := length_eq_of_nodup_mem_iff (refFE mkMid poly) (eListC poly)
    (nodup_dedupAppend _ _ List.nodup_nil) (nodup_eListC poly d h)
    (mem_refFE_iff poly d h)
  rw [hlen]
  unfold eListC
  rw [List.length_append, List.length_flatMap, List.length_flatMap]
  rw [List.map_congr_left (fun e _ => show (List.length
      ∘ bKeysOfEdge poly (refFV mkMid poly)) e = 2 from rfl)]
  rw [List.map_congr_left (fun f _ => show (List.length
      ∘ iKeysOfFace poly (refFV mkMid poly)) f = 3 from rfl)]
  rw [show (fun (_ : Edge) => (2 : ℕ)) = Function.const Edge 2 from rfl,
    show (fun (_ : Face) => (3 : ℕ)) = Function.const Face 3 from rfl,
    List.map_const, List.map_const, List.sum_replicate, List.sum_replicate,
    smul_eq_mul, smul_eq_mul, Nat.mul_comm poly.edges.length 2,
    Nat.mul_comm poly.faces.length 3]

/-! ### C1 — edge reference counting for the refined mesh -/

theorem facesOfFace_edge_stream (poly : Polyhedron Pos) (FV : List Pos)
    (FE : List (ℕ × ℕ)) (f : Face) :
    (facesOfFace mkMid poly FV FE f).flatMap refFaceEdgeList
      = List.map (idxK FE) (wKeysOfFace poly FV f) := rfl

theorem ite_beq_eq {K : Type} [DecidableEq K] (x y : K) :
    (if (x == y) = true then (1 : ℕ) else 0) = if x = y then 1 else 0 := by
  by_cases h : x = y <;> simp [h]

theorem count_wKeys (poly : Polyhedron Pos) (FV : List Pos) (f : Face)
    (K : ℕ × ℕ) :
    (wKeysOfFace poly FV f).count K
      = (eKeysOfFace mkMid poly FV f).count K
        + (iKeysOfFace poly FV f).count K := by
  simp only [wKeysOfFace, eKeysOfFace, iKeysOfFace, List.count_cons,
    List.count_nil]
  ring

theorem wKeys_sub_eKeys (poly : Polyhedron Pos) (FV : List Pos) (f : Face)
    (k : ℕ × ℕ) (hk : k ∈ wKeysOfFace poly FV f) :
    k ∈ eKeysOfFace mkMid poly FV f := by
  simp only [wKeysOfFace, List.mem_cons, List.not_mem_nil, or_false] at hk
  simp only [eKeysOfFace, List.mem_cons, List.not_mem_nil, or_false]
  tauto

theorem count_map_idxK {K : Type} [BEq K] [LawfulBEq K] [DecidableEq K]
    (FE : List K) (ks : List K)
    (k0 : K) (hK : k0 ∈ FE) (hks : ∀ k ∈ ks, k ∈ FE) :
    (ks.map (idxK FE)).count (idxK FE k0) = ks.count k0 := by
  rw [List.count, List.countP_map, List.count]
  refine List.countP_congr (fun k hk => ?_)
  show ((fun x => x == idxK FE k0) ∘ idxK FE) k = true ↔ (k == k0) = true
  show (idxK FE k == idxK FE k0) = true ↔ (k == k0) = true
  rw [beq_iff_eq, beq_iff_eq]
  exact ⟨fun q => idxK_inj FE k k0 (hks k hk) hK q, fun q => by rw [q]⟩

theorem count_one {K : Type} [BEq K] [LawfulBEq K] [DecidableEq K] (x k : K) :
    List.count k [x] = (if x = k then (1 : ℕ) else 0) := by
  by_cases h1 : x = k <;> simp [h1, List.count_cons]

theorem count_two {K : Type} [BEq K] [LawfulBEq K] [DecidableEq K] (x y k : K) :
    List.count k [x, y]
      = (if x = k then (1 : ℕ) else 0) + (if y = k then 1 else 0) := by
  by_cases h1 : x = k <;> by_cases h2 : y = k <;>
    simp [h1, h2, List.count_cons]

theorem count_three_split {K : Type} [BEq K] [LawfulBEq K] [DecidableEq K]
    (x1 x2 x3 k : K) :
    List.count k [x1, x2, x3]
      = (if x1 = k then (1 : ℕ) else 0)
        + ((if x2 = k then 1 else 0) + (if x3 = k then 1 else 0)) := by
  rw [show [x1, x2, x3] = [x1] ++ [x2, x3] from rfl, List.count_append,
    count_one, count_two]

theorem count_six_split {K : Type} [BEq K] [LawfulBEq K] [DecidableEq K]
    (x1 x2 x3 x4 x5 x6 k : K) :
    List.count k [x1, x2, x3, x4, x5, x6]
      = ((if x1 = k then (1 : ℕ) else 0) + (if x2 = k then 1 else 0))
        + (((if x3 = k then 1 else 0) + (if x4 = k then 1 else 0))
          + ((if x5 = k then 1 else 0) + (if x6 = k then 1 else 0))) := by
  rw [show [x1, x2, x3, x4, x5, x6]
      = [x1, x2] ++ ([x3, x4] ++ [x5, x6]) from rfl,
    List.count_append, List.count_append, count_two, count_two, count_two]

theorem count_one_of_nodup_mem {K : Type} [BEq K] [LawfulBEq K] (a : K)
    (l : List K) (hn : l.Nodup) (ha : a ∈ l) : l.count a = 1 := by
  induction l with
  | nil => simp at ha
  | cons b bs ih =>
    rcases List.nodup_cons.mp hn with ⟨hb, hbs⟩
    rcases List.mem_cons.mp ha with rfl | ha'
    · rw [List.count_cons_self, List.count_eq_zero_of_not_mem hb]
    · have hne : a ≠ b := fun q => hb (q ▸ ha')
      rw [List.count_cons_of_ne hne, ih hbs ha']

theorem sum_map_add {α : Type} (l : List α) (f g : α → ℕ) :
    (l.map (fun x => f x + g x)).sum = (l.map f).sum + (l.map g).sum := by
  induction l with
  | nil => rfl
  | cons a as ih =>
    simp only [List.map_cons, List.sum_cons, ih]
    ring

theorem slot_count (poly : Polyhedron Pos) (d : ℕ) (h : GoodPoly poly d)
    (K : ℕ × ℕ) (w n : ℕ) (hw : w < poly.vertices.length)
    (hn : n < poly.edges.length)
    (hwend : w = (poly.edges.getD n dfltEdge).vertex_indices.1
           ∨ w = (poly.edges.getD n dfltEdge).vertex_indices.2)
    (hKform : K = sortPairN (idxK (refFV mkMid poly) (posAt poly w))
        (idxK (refFV mkMid poly) (midOfEdge poly (poly.edges.getD n dfltEdge))))
    (c1 c2 s : ℕ) (hc1 : c1 < poly.vertices.length)
    (hc2 : c2 < poly.vertices.length) (hcne : c1 ≠ c2)
    (hs : s < poly.edges.length)
    (hside : sideEq (poly.edges.getD s dfltEdge) c1 c2) :
    ((if sortPairN (idxK (refFV mkMid poly) (posAt poly c1))
          (idxK (refFV mkMid poly)
            (midOfEdge poly (poly.edges.getD s dfltEdge))) = K
        then (1 : ℕ) else 0)
      + (if sortPairN (idxK (refFV mkMid poly)
            (midOfEdge poly (poly.edges.getD s dfltEdge)))
          (idxK (refFV mkMid poly) (posAt poly c2)) = K
        then (1 : ℕ) else 0))
    = (if s = n then 1 else 0) := by
  subst hKform
  have hmems : poly.edges.getD s dfltEdge ∈ poly.edges := mem_getD_of_lt _ _ _ hs
  have hmemn : poly.edges.getD n dfltEdge ∈ poly.edges := mem_getD_of_lt _ _ _ hn
  by_cases hsn : s = n
  · subst hsn
    rw [if_pos rfl]
    have hw12 : w = c1 ∨ w = c2 := by
      rcases hside with hq | hq <;> rw [hq] at hwend <;>
        simp only [Prod.fst, Prod.snd] at hwend <;> tauto
    rcases hw12 with rfl | rfl
    · rw [if_pos rfl, if_neg (fun q => ?_)]
      · have q' : sortPairN (idxK (refFV mkMid poly) (posAt poly c2))
            (idxK (refFV mkMid poly)
              (midOfEdge poly (poly.edges.getD s dfltEdge)))
            = sortPairN (idxK (refFV mkMid poly) (posAt poly w))
              (idxK (refFV mkMid poly)
                (midOfEdge poly (poly.edges.getD s dfltEdge))) := by
          rw [← q, sortPairN_comm]
        exact hcne ((bKey_inj poly d h c2 w _ _ hc2 hw hmems hmems q').1).symm
    · rw [if_neg (fun q => hcne (bKey_inj poly d h c1 w _ _ hc1 hw
        hmems hmems q).1), if_pos (sortPairN_comm _ _)]
  · rw [if_neg hsn]
    have hne1 : sortPairN (idxK (refFV mkMid poly) (posAt poly c1))
        (idxK (refFV mkMid poly) (midOfEdge poly (poly.edges.getD s dfltEdge)))
        ≠ sortPairN (idxK (refFV mkMid poly) (posAt poly w))
          (idxK (refFV mkMid poly)
            (midOfEdge poly (poly.edges.getD n dfltEdge))) := fun q =>
      hsn (nodup_getD_inj _ s n dfltEdge (edges_nodup poly d h) hs hn
        (bKey_inj poly d h c1 w _ _ hc1 hw hmems hmemn q).2)
    have hne2 : sortPairN (idxK (refFV mkMid poly)
          (midOfEdge poly (poly.edges.getD s dfltEdge)))
        (idxK (refFV mkMid poly) (posAt poly c2))
        ≠ sortPairN (idxK (refFV mkMid poly) (posAt poly w))
          (idxK (refFV mkMid poly)
            (midOfEdge poly (poly.edges.getD n dfltEdge))) := by
      intro q
      rw [sortPairN_comm] at q
      exact hsn (nodup_getD_inj _ s n dfltEdge (edges_nodup poly d h) hs hn
        (bKey_inj poly d h c2 w _ _ hc2 hw hmems hmemn q).2)
    rw [if_neg hne1, if_neg hne2]

theorem count_bSix_face (poly : Polyhedron Pos) (d : ℕ) (h : GoodPoly poly d)
    (K : ℕ × ℕ) (w n : ℕ) (hw : w < poly.vertices.length)
    (hn : n < poly.edges.length)
    (hwend : w = (poly.edges.getD n dfltEdge).vertex_indices.1
           ∨ w = (poly.edges.getD n dfltEdge).vertex_indices.2)
    (hKform : K = sortPairN (idxK (refFV mkMid poly) (posAt poly w))
        (idxK (refFV mkMid poly) (midOfEdge poly (poly.edges.getD n dfltEdge))))
    (f : Face) (hf : f ∈ poly.faces) :
    (bSixOfFace poly (refFV mkMid poly) f).count K
      = (refFaceEdgeList f).count n := by
  obtain ⟨hb1, hb2, hb3, hd1, hd2, hd3, he1, he2, he3, hs1, hs2, hs3⟩ :=
    h.2.2.1 f hf
  rw [bSixOfFace_eq poly d h f hf, count_six_split,
    show refFaceEdgeList f
      = [f.edge_indices.1, f.edge_indices.2.1, f.edge_indices.2.2] from rfl,
    count_three_split,
    slot_count poly d h K w n hw hn hwend hKform _ _ _ hb1 hb2 hd1 he1 hs1,
    slot_count poly d h K w n hw hn hwend hKform _ _ _ hb2 hb3 hd2 he2 hs2,
    slot_count poly d h K w n hw hn hwend hKform _ _ _ hb3 hb1 hd3 he3 hs3]

theorem bSixAll_sub_bpart (poly : Polyhedron Pos) (d : ℕ) (h : GoodPoly poly d)
    (x : ℕ × ℕ)
    (hx : x ∈ poly.faces.flatMap (bSixOfFace poly (refFV mkMid poly))) :
    x ∈ poly.edges.flatMap (bKeysOfEdge poly (refFV mkMid poly)) := by
  obtain ⟨f, hf, hxf⟩ := List.mem_flatMap.mp hx
  obtain ⟨-, -, -, -, -, -, he1, he2, he3, hs1, hs2, hs3⟩ := h.2.2.1 f hf
  rw [List.mem_flatMap]
  rw [bSixOfFace_eq poly d h f hf] at hxf
  simp only [List.mem_cons, List.not_mem_nil, or_false] at hxf
  rcases hxf with rfl | rfl | rfl | rfl | rfl | rfl
  · exact ⟨_, mem_getD_of_lt _ _ _ he1,
      (mem_bKeysOfEdge_slot poly _ _ _ _ hs1 _).mpr (Or.inl rfl)⟩
  · exact ⟨_, mem_getD_of_lt _ _ _ he1,
      (mem_bKeysOfEdge_slot poly _ _ _ _ hs1 _).mpr (Or.inr (sortPairN_comm _ _))⟩
  · exact ⟨_, mem_getD_of_lt _ _ _ he2,
      (mem_bKeysOfEdge_slot poly _ _ _ _ hs2 _).mpr (Or.inl rfl)⟩
  · exact ⟨_, mem_getD_of_lt _ _ _ he2,
      (mem_bKeysOfEdge_slot poly _ _ _ _ hs2 _).mpr (Or.inr (sortPairN_comm _ _))⟩
  · exact ⟨_, mem_getD_of_lt _ _ _ he3,
      (mem_bKeysOfEdge_slot poly _ _ _ _ hs3 _).mpr (Or.inl rfl)⟩
  · exact ⟨_, mem_getD_of_lt _ _ _ he3,
      (mem_bKeysOfEdge_slot poly _ _ _ _ hs3 _).mpr (Or.inr (sortPairN_comm _ _))⟩

theorem sum_map_two_mul {α : Type} (l : List α) (g : α → ℕ) :
    (l.map (fun x => 2 * g x)).sum = 2 * (l.map g).sum := by
  induction l with
  | nil => rfl
  | cons a as ih =>
    simp only [List.map_cons, List.sum_cons, ih]
    ring

theorem count2_new (poly : Polyhedron Pos) (d : ℕ) (h : GoodPoly poly d)
    (j : ℕ) (hj : j < (refFE mkMid poly).length) :
    ((poly.faces.flatMap (facesOfFace mkMid poly (refFV mkMid poly)
        (refFE mkMid poly))).flatMap refFaceEdgeList).count j = 2 := by
  have h6 := h.2.2.2.2.2.1
  have hndFE : (refFE mkMid poly).Nodup := nodup_dedupAppend _ _ List.nodup_nil
  have hKmem : (refFE mkMid poly).getD j (0, 0) ∈ refFE mkMid poly :=
    mem_getD_of_lt _ _ _ hj
  have hjK : idxK (refFE mkMid poly) ((refFE mkMid poly).getD j (0, 0)) = j :=
    idxK_getD _ _ _ hndFE hj
  have hKel : (refFE mkMid poly).getD j (0, 0) ∈ eListC poly :=
    (mem_refFE_iff poly d h _).mp hKmem
  have hndEL := nodup_eListC poly d h
  unfold eListC at hndEL
  rw [List.nodup_append] at hndEL
  obtain ⟨hndB, hndI, hdisj⟩ := hndEL
  rw [List.flatMap_assoc, List.count_flatMap]
  have hcomp : ∀ f ∈ poly.faces,
      (List.count j ∘ fun f => (facesOfFace mkMid poly (refFV mkMid poly)
          (refFE mkMid poly) f).flatMap refFaceEdgeList) f
        = (List.count ((refFE mkMid poly).getD j (0, 0))
              ∘ bSixOfFace poly (refFV mkMid poly)) f
          + 2 * (List.count ((refFE mkMid poly).getD j (0, 0))
              ∘ iKeysOfFace poly (refFV mkMid poly)) f := by
    intro f hf
    have hks : ∀ k ∈ wKeysOfFace poly (refFV mkMid poly) f,
        k ∈ refFE mkMid poly := by
      intro k hk
      have hkE : k ∈ refEK mkMid poly :=
        List.mem_flatMap.mpr ⟨f, hf, wKeys_sub_eKeys poly _ f k hk⟩
      unfold refFE
      rw [mem_dedupAppend]
      exact Or.inr hkE
    show ((facesOfFace mkMid poly (refFV mkMid poly) (refFE mkMid poly)
        f).flatMap refFaceEdgeList).count j = _
    conv_lhs => rw [facesOfFace_edge_stream, ← hjK]
    rw [count_map_idxK (refFE mkMid poly) _ _ hKmem hks, count_wKeys,
      eKeysOfFace_decomp, List.count_append]
    show _ = (bSixOfFace poly (refFV mkMid poly) f).count
          ((refFE mkMid poly).getD j (0, 0))
        + 2 * (iKeysOfFace poly (refFV mkMid poly) f).count
          ((refFE mkMid poly).getD j (0, 0))
    ring
  rw [List.map_congr_left hcomp,
    sum_map_add poly.faces
      (fun f => (List.count ((refFE mkMid poly).getD j (0, 0))
        ∘ bSixOfFace poly (refFV mkMid poly)) f)
      (fun f => 2 * (List.count ((refFE mkMid poly).getD j (0, 0))
        ∘ iKeysOfFace poly (refFV mkMid poly)) f),
    sum_map_two_mul poly.faces
      (fun f => (List.count ((refFE mkMid poly).getD j (0, 0))
        ∘ iKeysOfFace poly (refFV mkMid poly)) f),
    ← List.count_flatMap, ← List.count_flatMap]
  unfold eListC at hKel
  rcases List.mem_append.mp hKel with hKb | hKi
  · obtain ⟨w, e, hw, he, hwend, hKform⟩ := mem_bpart_form poly d h _ hKb
    obtain ⟨n, hn, hen⟩ := List.mem_iff_getElem.mp he
    have hgd : poly.edges.getD n dfltEdge = e := by
      rw [List.getD_eq_getElem _ _ hn, hen]
    have hKform' : (refFE mkMid poly).getD j (0, 0)
        = sortPairN (idxK (refFV mkMid poly) (posAt poly w))
            (idxK (refFV mkMid poly)
              (midOfEdge poly (poly.edges.getD n dfltEdge))) := by
      rw [hKform, hgd]
    have hwend' : w = (poly.edges.getD n dfltEdge).vertex_indices.1
        ∨ w = (poly.edges.getD n dfltEdge).vertex_indices.2 := by
      rw [hgd]
      exact hwend
    have hcnt0 : (poly.faces.flatMap
        (iKeysOfFace poly (refFV mkMid poly))).count
          ((refFE mkMid poly).getD j (0, 0)) = 0 :=
      List.count_eq_zero_of_not_mem (fun q => hdisj hKb q)
    have hbcnt : (poly.faces.flatMap
        (bSixOfFace poly (refFV mkMid poly))).count
          ((refFE mkMid poly).getD j (0, 0))
        = (poly.faces.flatMap refFaceEdgeList).count n := by
      rw [List.count_flatMap, List.count_flatMap]
      refine congrArg List.sum (List.map_congr_left (fun f hf => ?_))
      exact count_bSix_face poly d h _ w n hw hn hwend' hKform' f hf
    rw [hbcnt, hcnt0, h6 n hn]
  · have hcnt1 : (poly.faces.flatMap
        (iKeysOfFace poly (refFV mkMid poly))).count
          ((refFE mkMid poly).getD j (0, 0)) = 1 :=
      count_one_of_nodup_mem _ _ hndI hKi
    have hb0 : (poly.faces.flatMap
        (bSixOfFace poly (refFV mkMid poly))).count
          ((refFE mkMid poly).getD j (0, 0)) = 0 :=
      List.count_eq_zero_of_not_mem
        (fun q => hdisj (bSixAll_sub_bpart poly d h _ q) hKi)
    rw [hb0, hcnt1]

theorem nodup_of_count_le_one {K : Type} [BEq K] [LawfulBEq K] (l : List K)
    (h : ∀ a, l.count a ≤ 1) : l.Nodup := by
  induction l with
  | nil => exact List.nodup_nil
  | cons a as ih =>
    rw [List.nodup_cons]
    constructor
    · intro hmem
      have h1 := h a
      rw [List.count_cons_self] at h1
      have h2 : 0 < as.count a := List.count_pos_iff.mpr hmem
      omega
    · refine ih (fun b => ?_)
      refine le_trans ?_ (h b)
      rw [List.count_cons]
      exact Nat.le_add_right _ _

theorem sideEq_endpoint_left (e : Edge) (c1 c2 : ℕ) (hs : sideEq e c1 c2) :
    c1 = e.vertex_indices.1 ∨ c1 = e.vertex_indices.2 := by
  rcases hs with hq | hq <;> rw [hq]
  · exact Or.inl rfl
  · exact Or.inr rfl

theorem sideEq_endpoint_right (e : Edge) (c1 c2 : ℕ) (hs : sideEq e c1 c2) :
    c2 = e.vertex_indices.1 ∨ c2 = e.vertex_indices.2 := by
  rcases hs with hq | hq <;> rw [hq]
  · exact Or.inr rfl
  · exact Or.inl rfl

theorem count_three_le_one (s1 s2 s3 n : ℕ) (h12 : s1 ≠ s2) (h23 : s2 ≠ s3)
    (h13 : s1 ≠ s3) : List.count n [s1, s2, s3] ≤ 1 := by
  rw [count_three_split]
  by_cases q1 : s1 = n <;> by_cases q2 : s2 = n <;> by_cases q3 : s3 = n <;>
    simp [q1, q2, q3] <;> omega

theorem face_eidx_ne (poly : Polyhedron Pos) (d : ℕ) (h : GoodPoly poly d)
    (f : Face) (hf : f ∈ poly.faces) :
    f.edge_indices.1 ≠ f.edge_indices.2.1
    ∧ f.edge_indices.2.1 ≠ f.edge_indices.2.2
    ∧ f.edge_indices.1 ≠ f.edge_indices.2.2 := by
  obtain ⟨hq1, hq2, hq3⟩ := face_sides_ne poly d h f hf
  exact ⟨fun q => hq1 (by rw [q]), fun q => hq2 (by rw [q]),
    fun q => hq3 (by rw [q])⟩

theorem nodup_bSix (poly : Polyhedron Pos) (d : ℕ) (h : GoodPoly poly d)
    (f : Face) (hf : f ∈ poly.faces) :
    (bSixOfFace poly (refFV mkMid poly) f).Nodup := by
  refine nodup_of_count_le_one _ (fun K => ?_)
  by_cases hK : K ∈ bSixOfFace poly (refFV mkMid poly) f
  · obtain ⟨hb1, hb2, hb3, hd1, hd2, hd3, he1, he2, he3, hs1, hs2, hs3⟩ :=
      h.2.2.1 f hf
    obtain ⟨hi12, hi23, hi13⟩ := face_eidx_ne poly d h f hf
    have hcle : (refFaceEdgeList f).count f.edge_indices.1 ≤ 1 ∧
        (refFaceEdgeList f).count f.edge_indices.2.1 ≤ 1 ∧
        (refFaceEdgeList f).count f.edge_indices.2.2 ≤ 1 := by
      refine ⟨?_, ?_, ?_⟩ <;>
        exact count_three_le_one _ _ _ _ hi12 hi23 hi13
    rw [bSixOfFace_eq poly d h f hf] at hK
    simp only [List.mem_cons, List.not_mem_nil, or_false] at hK
    rcases hK with rfl | rfl | rfl | rfl | rfl | rfl
    · rw [count_bSix_face poly d h _ f.vertex_indices.1 f.edge_indices.1
        hb1 he1 (sideEq_endpoint_left _ _ _ hs1) rfl f hf]
      exact hcle.1
    · rw [count_bSix_face poly d h _ f.vertex_indices.2.1 f.edge_indices.1
        hb2 he1 (sideEq_endpoint_right _ _ _ hs1) (sortPairN_comm _ _) f hf]
      exact hcle.1
    · rw [count_bSix_face poly d h _ f.vertex_indices.2.1 f.edge_indices.2.1
        hb2 he2 (sideEq_endpoint_left _ _ _ hs2) rfl f hf]
      exact hcle.2.1
    · rw [count_bSix_face poly d h _ f.vertex_indices.2.2 f.edge_indices.2.1
        hb3 he2 (sideEq_endpoint_right _ _ _ hs2) (sortPairN_comm _ _) f hf]
      exact hcle.2.1
    · rw [count_bSix_face poly d h _ f.vertex_indices.2.2 f.edge_indices.2.2
        hb3 he3 (sideEq_endpoint_left _ _ _ hs3) rfl f hf]
      exact hcle.2.2
    · rw [count_bSix_face poly d h _ f.vertex_indices.1 f.edge_indices.2.2
        hb1 he3 (sideEq_endpoint_right _ _ _ hs3) (sortPairN_comm _ _) f hf]
      exact hcle.2.2
  · rw [List.count_eq_zero_of_not_mem hK]
    omega

theorem nodup_iKeys (poly : Polyhedron Pos) (d : ℕ) (h : GoodPoly poly d)
    (f : Face) (hf : f ∈ poly.faces) :
    (iKeysOfFace poly (refFV mkMid poly) f).Nodup := by
  obtain ⟨-, -, -, -, -, -, he1, he2, he3, -⟩ := h.2.2.1 f hf
  obtain ⟨hq1, hq2, hq3⟩ := face_sides_ne poly d h f hf
  have hm12 : idxK (refFV mkMid poly)
        (midOfEdge poly (poly.edges.getD f.edge_indices.1 dfltEdge))
      ≠ idxK (refFV mkMid poly)
        (midOfEdge poly (poly.edges.getD f.edge_indices.2.1 dfltEdge)) :=
    fun q => hq1 (mIdx_inj poly d h _ _ (mem_getD_of_lt _ _ _ he1)
      (mem_getD_of_lt _ _ _ he2) q)
  have hm23 : idxK (refFV mkMid poly)
        (midOfEdge poly (poly.edges.getD f.edge_indices.2.1 dfltEdge))
      ≠ idxK (refFV mkMid poly)
        (midOfEdge poly (poly.edges.getD f.edge_indices.2.2 dfltEdge)) :=
    fun q => hq2 (mIdx_inj poly d h _ _ (mem_getD_of_lt _ _ _ he2)
      (mem_getD_of_lt _ _ _ he3) q)
  have hm13 : idxK (refFV mkMid poly)
        (midOfEdge poly (poly.edges.getD f.edge_indices.1 dfltEdge))
      ≠ idxK (refFV mkMid poly)
        (midOfEdge poly (poly.edges.getD f.edge_indices.2.2 dfltEdge)) :=
    fun q => hq3 (mIdx_inj poly d h _ _ (mem_getD_of_lt _ _ _ he1)
      (mem_getD_of_lt _ _ _ he3) q)
  rw [iKeysOfFace_eq poly d h f hf]
  simp only [List.nodup_cons, List.mem_cons, List.not_mem_nil, or_false,
    List.nodup_nil, and_true, Prod.mk.injEq]
  tauto

theorem disjoint_bSix_iKeys (poly : Polyhedron Pos) (d : ℕ)
    (h : GoodPoly poly d) (f g : Face) (hf : f ∈ poly.faces)
    (hg : g ∈ poly.faces) (x : ℕ × ℕ)
    (hxb : x ∈ bSixOfFace poly (refFV mkMid poly) f)
    (hxi : x ∈ iKeysOfFace poly (refFV mkMid poly) g) : False := by
  obtain ⟨w, e, hw, he, -, rfl⟩ := mem_bpart_form poly d h x
    (bSixAll_sub_bpart poly d h x (List.mem_flatMap.mpr ⟨f, hf, hxb⟩))
  obtain ⟨eA, eB, hA, hB, -, hxeq⟩ := mem_ipart_form poly d h _
    (List.mem_flatMap.mpr ⟨g, hg, hxi⟩)
  rcases sortPairN_cases (idxK (refFV mkMid poly) (posAt poly w))
      (idxK (refFV mkMid poly) (midOfEdge poly e)) with hs | hs <;>
    rw [hs] at hxeq <;> rw [Prod.mk.injEq] at hxeq
  · exact vmIdx_ne poly d h w hw eA hA hxeq.1
  · exact vmIdx_ne poly d h w hw eB hB hxeq.2

theorem nineKeys_nodup (poly : Polyhedron Pos) (d : ℕ) (h : GoodPoly poly d)
    (f : Face) (hf : f ∈ poly.faces) :
    (eKeysOfFace mkMid poly (refFV mkMid poly) f).Nodup := by
  rw [eKeysOfFace_decomp, List.nodup_append]
  exact ⟨nodup_bSix poly d h f hf, nodup_iKeys poly d h f hf,
    fun x hxb hxi => disjoint_bSix_iKeys poly d h f f hf hf x hxb hxi⟩

/-! ### C1 — preservation of the invariant under `refine` -/

theorem sideEq_of_vi_sp (e : Edge) (x y : ℕ)
    (hvi : e.vertex_indices = sortPairN x y) : sideEq e x y := by
  rcases sortPairN_cases x y with hq | hq
  · exact Or.inl (by rw [hvi, hq])
  · exact Or.inr (by rw [hvi, hq])

theorem comp1_ref (poly : Polyhedron Pos) :
    ((refine mkMid poly).vertices.map (fun v => v.pos)).Nodup := by
  rw [refine_vertices_pos]
  exact nodup_dedupAppend _ _ List.nodup_nil

theorem comp2_ref (poly : Polyhedron Pos) (d : ℕ) (h : GoodPoly poly d) :
    ∀ v ∈ (refine mkMid poly).vertices, Pos.ht v.pos ≤ d + 1 := by
  intro v hv
  have hpos : v.pos ∈ refFV mkMid poly := by
    rw [← refine_vertices_pos mkMid poly]
    exact List.mem_map_of_mem _ hv
  rw [mem_refFV_iff poly d h] at hpos
  unfold vListC at hpos
  rcases List.mem_append.mp hpos with hx | hx
  · obtain ⟨u, hu, he⟩ := List.mem_map.mp hx
    have hd := h.2.1 u hu
    rw [← he]
    omega
  · obtain ⟨e, he, heq⟩ := List.mem_map.mp hx
    rw [← heq, ht_midOfEdge poly d h e he]

theorem comp6_ref (poly : Polyhedron Pos) (d : ℕ) (h : GoodPoly poly d) :
    ∀ i, i < (refine mkMid poly).edges.length →
      ((refine mkMid poly).faces.flatMap refFaceEdgeList).count i = 2 := by
  intro i hi
  rw [refine_edges_length] at hi
  rw [refine_faces]
  exact count2_new poly d h i hi

theorem posAt_refine (poly : Polyhedron Pos) (i : ℕ)
    (hi : i < (refFV mkMid poly).length) :
    posAt (refine mkMid poly) i = (refFV mkMid poly).getD i default := by
  unfold posAt
  have hlen : i < (refine mkMid poly).vertices.length := by
    rw [refine_vertices_length]
    exact hi
  rw [show ((refine mkMid poly).vertices.getD i
      ⟨default, [], []⟩).pos
    = ((refine mkMid poly).vertices.map (fun v => v.pos)).getD i default from
      (getD_map_g (fun v => v.pos) _ i hlen ⟨default, [], []⟩ default).symm,
    refine_vertices_pos]

theorem posAt_refine_vIdx (poly : Polyhedron Pos) (p : Pos)
    (hp : p ∈ refFV mkMid poly) :
    posAt (refine mkMid poly) (idxK (refFV mkMid poly) p) = p := by
  rw [posAt_refine _ _ (idxK_lt_of_mem _ _ hp)]
  exact getD_idxK _ _ _ hp

theorem comp4_ref (poly : Polyhedron Pos) (d : ℕ) (h : GoodPoly poly d) :
    ∀ e ∈ (refine mkMid poly).edges,
      e.vertex_indices.1 < (refine mkMid poly).vertices.length ∧
      e.vertex_indices.2 < (refine mkMid poly).vertices.length ∧
      e.vertex_indices.1 ≠ e.vertex_indices.2 ∧
      max (Pos.ht (posAt (refine mkMid poly) e.vertex_indices.1))
        (Pos.ht (posAt (refine mkMid poly) e.vertex_indices.2)) = d + 1 := by
  intro e he
  obtain ⟨j, hj, hej⟩ := List.mem_iff_getElem.mp he
  have hjlen : j < (refFE mkMid poly).length := by
    rw [← refine_edges_length mkMid poly]
    exact hj
  have hvi : e.vertex_indices = (refFE mkMid poly).getD j (0, 0) := by
    rw [← hej, ← List.getD_eq_getElem _ dfltEdge hj]
    exact refine_edge_vi mkMid poly j hjlen
  have hK : (refFE mkMid poly).getD j (0, 0) ∈ eListC poly :=
    (mem_refFE_iff poly d h _).mp (mem_getD_of_lt _ _ _ hjlen)
  rw [hvi]
  unfold eListC at hK
  rcases List.mem_append.mp hK with hKb | hKi
  · obtain ⟨w, e', hw, he', -, hKform⟩ := mem_bpart_form poly d h _ hKb
    rw [hKform]
    have hwmem := posAt_mem_refFV poly d h w hw
    have hmmem := midOfEdge_mem_refFV poly d h e' he'
    have hwht := ht_posAt poly d h w hw
    have hmht := ht_midOfEdge poly d h e' he'
    rcases sortPairN_cases (idxK (refFV mkMid poly) (posAt poly w))
        (idxK (refFV mkMid poly) (midOfEdge poly e')) with hs | hs <;> rw [hs]
    · refine ⟨?_, ?_, ?_, ?_⟩
      · rw [refine_vertices_length]
        exact idxK_lt_of_mem _ _ hwmem
      · rw [refine_vertices_length]
        exact idxK_lt_of_mem _ _ hmmem
      · exact vmIdx_ne poly d h w hw e' he'
      · show max (Pos.ht (posAt (refine mkMid poly)
            (idxK (refFV mkMid poly) (posAt poly w))))
          (Pos.ht (posAt (refine mkMid poly)
            (idxK (refFV mkMid poly) (midOfEdge poly e')))) = d + 1
        rw [posAt_refine_vIdx poly _ hwmem, posAt_refine_vIdx poly _ hmmem, hmht]
        omega
    · refine ⟨?_, ?_, ?_, ?_⟩
      · rw [refine_vertices_length]
        exact idxK_lt_of_mem _ _ hmmem
      · rw [refine_vertices_length]
        exact idxK_lt_of_mem _ _ hwmem
      · exact fun q => vmIdx_ne poly d h w hw e' he' q.symm
      · show max (Pos.ht (posAt (refine mkMid poly)
            (idxK (refFV mkMid poly) (midOfEdge poly e'))))
          (Pos.ht (posAt (refine mkMid poly)
            (idxK (refFV mkMid poly) (posAt poly w)))) = d + 1
        rw [posAt_refine_vIdx poly _ hwmem, posAt_refine_vIdx poly _ hmmem, hmht]
        omega
  · obtain ⟨eA, eB, hA, hB, hne, hKform⟩ := mem_ipart_form poly d h _ hKi
    rw [hKform]
    have hAmem := midOfEdge_mem_refFV poly d h eA hA
    have hBmem := midOfEdge_mem_refFV poly d h eB hB
    refine ⟨?_, ?_, ?_, ?_⟩
    · rw [refine_vertices_length]
      exact idxK_lt_of_mem _ _ hAmem
    · rw [refine_vertices_length]
      exact idxK_lt_of_mem _ _ hBmem
    · exact fun q => hne (mIdx_inj poly d h eA eB hA hB q)
    · show max (Pos.ht (posAt (refine mkMid poly)
          (idxK (refFV mkMid poly) (midOfEdge poly eA))))
        (Pos.ht (posAt (refine mkMid poly)
          (idxK (refFV mkMid poly) (midOfEdge poly eB)))) = d + 1
      rw [posAt_refine_vIdx poly _ hAmem, posAt_refine_vIdx poly _ hBmem,
        ht_midOfEdge poly d h eA hA, ht_midOfEdge poly d h eB hB]
      omega

theorem iKeys_sp_pairwise (poly : Polyhedron Pos) (d : ℕ) (h : GoodPoly poly d) :
    List.Pairwise (fun f g => ∀ K ∈ iKeysOfFace poly (refFV mkMid poly) f,
      ∀ K' ∈ iKeysOfFace poly (refFV mkMid poly) g,
      sortPairN K.1 K.2 ≠ sortPairN K'.1 K'.2) poly.faces := by
  refine List.Pairwise.imp_of_mem (fun {f g} hf hg hRfg => ?_)
    h.2.2.2.2.2.2.2
  intro K hKf K' hK'g hq
  obtain ⟨-, -, -, -, -, -, he1, he2, he3, -⟩ := h.2.2.1 f hf
  obtain ⟨-, -, -, -, -, -, hg1, hg2, hg3, -⟩ := h.2.2.1 g hg
  obtain ⟨hq1, hq2, hq3⟩ := face_sides_ne poly d h f hf
  have hf1 : f.edge_indices.1 ∈ refFaceEdgeList f := by simp [refFaceEdgeList]
  have hf2 : f.edge_indices.2.1 ∈ refFaceEdgeList f := by simp [refFaceEdgeList]
  have hf3 : f.edge_indices.2.2 ∈ refFaceEdgeList f := by simp [refFaceEdgeList]
  have hgm1 : g.edge_indices.1 ∈ refFaceEdgeList g := by simp [refFaceEdgeList]
  have hgm2 : g.edge_indices.2.1 ∈ refFaceEdgeList g := by simp [refFaceEdgeList]
  have hgm3 : g.edge_indices.2.2 ∈ refFaceEdgeList g := by simp [refFaceEdgeList]
  rw [iKeysOfFace_eq poly d h f hf] at hKf
  rw [iKeysOfFace_eq poly d h g hg] at hK'g
  simp only [List.mem_cons, List.not_mem_nil, or_false] at hKf hK'g
  rcases hKf with rfl | rfl | rfl <;> rcases hK'g with rfl | rfl | rfl <;>
    rcases (sortPairN_eq_iff _ _ _ _).mp hq with ⟨qa, qb⟩ | ⟨qa, qb⟩
  · exact shared_two_edges_contra poly d h f g hRfg _ _ _ _ hf1 hf3 hgm1 hgm3
      he1 he3 hg1 hg3
      (mIdx_inj poly d h _ _ (mem_getD_of_lt _ _ _ he1)
        (mem_getD_of_lt _ _ _ hg1) qa)
      (mIdx_inj poly d h _ _ (mem_getD_of_lt _ _ _ he3)
        (mem_getD_of_lt _ _ _ hg3) qb)
      hq3
  · exact shared_two_edges_contra poly d h f g hRfg _ _ _ _ hf1 hf3 hgm3 hgm1
      he1 he3 hg3 hg1
      (mIdx_inj poly d h _ _ (mem_getD_of_lt _ _ _ he1)
        (mem_getD_of_lt _ _ _ hg3) qa)
      (mIdx_inj poly d h _ _ (mem_getD_of_lt _ _ _ he3)
        (mem_getD_of_lt _ _ _ hg1) qb)
      hq3
  · exact shared_two_edges_contra poly d h f g hRfg _ _ _ _ hf1 hf3 hgm1 hgm2
      he1 he3 hg1 hg2
      (mIdx_inj poly d h _ _ (mem_getD_of_lt _ _ _ he1)
        (mem_getD_of_lt _ _ _ hg1) qa)
      (mIdx_inj poly d h _ _ (mem_getD_of_lt _ _ _ he3)
        (mem_getD_of_lt _ _ _ hg2) qb)
      hq3
  · exact shared_two_edges_contra poly d h f g hRfg _ _ _ _ hf1 hf3 hgm2 hgm1
      he1 he3 hg2 hg1
      (mIdx_inj poly d h _ _ (mem_getD_of_lt _ _ _ he1)
        (mem_getD_of_lt _ _ _ hg2) qa)
      (mIdx_inj poly d h _ _ (mem_getD_of_lt _ _ _ he3)
        (mem_getD_of_lt _ _ _ hg1) qb)
      hq3
  · exact shared_two_edges_contra poly d h f g hRfg _ _ _ _ hf1 hf3 hgm2 hgm3
      he1 he3 hg2 hg3
      (mIdx_inj poly d h _ _ (mem_getD_of_lt _ _ _ he1)
        (mem_getD_of_lt _ _ _ hg2) qa)
      (mIdx_inj poly d h _ _ (mem_getD_of_lt _ _ _ he3)
        (mem_getD_of_lt _ _ _ hg3) qb)
      hq3
  · exact shared_two_edges_contra poly d h f g hRfg _ _ _ _ hf1 hf3 hgm3 hgm2
      he1 he3 hg3 hg2
      (mIdx_inj poly d h _ _ (mem_getD_of_lt _ _ _ he1)
        (mem_getD_of_lt _ _ _ hg3) qa)
      (mIdx_inj poly d h _ _ (mem_getD_of_lt _ _ _ he3)
        (mem_getD_of_lt _ _ _ hg2) qb)
      hq3
  · exact shared_two_edges_contra poly d h f g hRfg _ _ _ _ hf1 hf2 hgm1 hgm3
      he1 he2 hg1 hg3
      (mIdx_inj poly d h _ _ (mem_getD_of_lt _ _ _ he1)
        (mem_getD_of_lt _ _ _ hg1) qa)
      (mIdx_inj poly d h _ _ (mem_getD_of_lt _ _ _ he2)
        (mem_getD_of_lt _ _ _ hg3) qb)
      hq1
  · exact shared_two_edges_contra poly d h f g hRfg _ _ _ _ hf1 hf2 hgm3 hgm1
      he1 he2 hg3 hg1
      (mIdx_inj poly d h _ _ (mem_getD_of_lt _ _ _ he1)
        (mem_getD_of_lt _ _ _ hg3) qa)
      (mIdx_inj poly d h _ _ (mem_getD_of_lt _ _ _ he2)
        (mem_getD_of_lt _ _ _ hg1) qb)
      hq1
  · exact shared_two_edges_contra poly d h f g hRfg _ _ _ _ hf1 hf2 hgm1 hgm2
      he1 he2 hg1 hg2
      (mIdx_inj poly d h _ _ (mem_getD_of_lt _ _ _ he1)
        (mem_getD_of_lt _ _ _ hg1) qa)
      (mIdx_inj poly d h _ _ (mem_getD_of_lt _ _ _ he2)
        (mem_getD_of_lt _ _ _ hg2) qb)
      hq1
  · exact shared_two_edges_contra poly d h f g hRfg _ _ _ _ hf1 hf2 hgm2 hgm1
      he1 he2 hg2 hg1
      (mIdx_inj poly d h _ _ (mem_getD_of_lt _ _ _ he1)
        (mem_getD_of_lt _ _ _ hg2) qa)
      (mIdx_inj poly d h _ _ (mem_getD_of_lt _ _ _ he2)
        (mem_getD_of_lt _ _ _ hg1) qb)
      hq1
  · exact shared_two_edges_contra poly d h f g hRfg _ _ _ _ hf1 hf2 hgm2 hgm3
      he1 he2 hg2 hg3
      (mIdx_inj poly d h _ _ (mem_getD_of_lt _ _ _ he1)
        (mem_getD_of_lt _ _ _ hg2) qa)
      (mIdx_inj poly d h _ _ (mem_getD_of_lt _ _ _ he2)
        (mem_getD_of_lt _ _ _ hg3) qb)
      hq1
  · exact shared_two_edges_contra poly d h f g hRfg _ _ _ _ hf1 hf2 hgm3 hgm2
      he1 he2 hg3 hg2
      (mIdx_inj poly d h _ _ (mem_getD_of_lt _ _ _ he1)
        (mem_getD_of_lt _ _ _ hg3) qa)
      (mIdx_inj poly d h _ _ (mem_getD_of_lt _ _ _ he2)
        (mem_getD_of_lt _ _ _ hg2) qb)
      hq1
  · exact shared_two_edges_contra poly d h f g hRfg _ _ _ _ hf2 hf3 hgm1 hgm3
      he2 he3 hg1 hg3
      (mIdx_inj poly d h _ _ (mem_getD_of_lt _ _ _ he2)
        (mem_getD_of_lt _ _ _ hg1) qa)
      (mIdx_inj poly d h _ _ (mem_getD_of_lt _ _ _ he3)
        (mem_getD_of_lt _ _ _ hg3) qb)
      hq2
  · exact shared_two_edges_contra poly d h f g hRfg _ _ _ _ hf2 hf3 hgm3 hgm1
      he2 he3 hg3 hg1
      (mIdx_inj poly d h _ _ (mem_getD_of_lt _ _ _ he2)
        (mem_getD_of_lt _ _ _ hg3) qa)
      (mIdx_inj poly d h _ _ (mem_getD_of_lt _ _ _ he3)
        (mem_getD_of_lt _ _ _ hg1) qb)
      hq2
  · exact shared_two_edges_contra poly d h f g hRfg _ _ _ _ hf2 hf3 hgm1 hgm2
      he2 he3 hg1 hg2
      (mIdx_inj poly d h _ _ (mem_getD_of_lt _ _ _ he2)
        (mem_getD_of_lt _ _ _ hg1) qa)
      (mIdx_inj poly d h _ _ (mem_getD_of_lt _ _ _ he3)
        (mem_getD_of_lt _ _ _ hg2) qb)
      hq2
  · exact shared_two_edges_contra poly d h f g hRfg _ _ _ _ hf2 hf3 hgm2 hgm1
      he2 he3 hg2 hg1
      (mIdx_inj poly d h _ _ (mem_getD_of_lt _ _ _ he2)
        (mem_getD_of_lt _ _ _ hg2) qa)
      (mIdx_inj poly d h _ _ (mem_getD_of_lt _ _ _ he3)
        (mem_getD_of_lt _ _ _ hg1) qb)
      hq2
  · exact shared_two_edges_contra poly d h f g hRfg _ _ _ _ hf2 hf3 hgm2 hgm3
      he2 he3 hg2 hg3
      (mIdx_inj poly d h _ _ (mem_getD_of_lt _ _ _ he2)
        (mem_getD_of_lt _ _ _ hg2) qa)
      (mIdx_inj poly d h _ _ (mem_getD_of_lt _ _ _ he3)
        (mem_getD_of_lt _ _ _ hg3) qb)
      hq2
  · exact shared_two_edges_contra poly d h f g hRfg _ _ _ _ hf2 hf3 hgm3 hgm2
      he2 he3 hg3 hg2
      (mIdx_inj poly d h _ _ (mem_getD_of_lt _ _ _ he2)
        (mem_getD_of_lt _ _ _ hg3) qa)
      (mIdx_inj poly d h _ _ (mem_getD_of_lt _ _ _ he3)
        (mem_getD_of_lt _ _ _ hg2) qb)
      hq2

theorem within_face_sp_inj (poly : Polyhedron Pos) (d : ℕ) (h : GoodPoly poly d)
    (f : Face) (hf : f ∈ poly.faces) (K K' : ℕ × ℕ)
    (hKf : K ∈ iKeysOfFace poly (refFV mkMid poly) f)
    (hK'f : K' ∈ iKeysOfFace poly (refFV mkMid poly) f)
    (hq : sortPairN K.1 K.2 = sortPairN K'.1 K'.2) : K = K' := by
  obtain ⟨-, -, -, -, -, -, he1, he2, he3, -⟩ := h.2.2.1 f hf
  obtain ⟨hs1, hs2, hs3⟩ := face_sides_ne poly d h f hf
  have hm12 : idxK (refFV mkMid poly)
        (midOfEdge poly (poly.edges.getD f.edge_indices.1 dfltEdge))
      ≠ idxK (refFV mkMid poly)
        (midOfEdge poly (poly.edges.getD f.edge_indices.2.1 dfltEdge)) :=
    fun q => hs1 (mIdx_inj poly d h _ _ (mem_getD_of_lt _ _ _ he1)
      (mem_getD_of_lt _ _ _ he2) q)
  have hm23 : idxK (refFV mkMid poly)
        (midOfEdge poly (poly.edges.getD f.edge_indices.2.1 dfltEdge))
      ≠ idxK (refFV mkMid poly)
        (midOfEdge poly (poly.edges.getD f.edge_indices.2.2 dfltEdge)) :=
    fun q => hs2 (mIdx_inj poly d h _ _ (mem_getD_of_lt _ _ _ he2)
      (mem_getD_of_lt _ _ _ he3) q)
  have hm13 : idxK (refFV mkMid poly)
        (midOfEdge poly (poly.edges.getD f.edge_indices.1 dfltEdge))
      ≠ idxK (refFV mkMid poly)
        (midOfEdge poly (poly.edges.getD f.edge_indices.2.2 dfltEdge)) :=
    fun q => hs3 (mIdx_inj poly d h _ _ (mem_getD_of_lt _ _ _ he1)
      (mem_getD_of_lt _ _ _ he3) q)
  rw [iKeysOfFace_eq poly d h f hf] at hKf hK'f
  simp only [List.mem_cons, List.not_mem_nil, or_false] at hKf hK'f
  rcases hKf with rfl | rfl | rfl <;> rcases hK'f with rfl | rfl | rfl <;>
    (try rfl) <;>
    (rcases (sortPairN_eq_iff _ _ _ _).mp hq with ⟨qa, qb⟩ | ⟨qa, qb⟩ <;>
      simp_all)

theorem refine_edges_map_vi (poly : Polyhedron Pos) :
    (refine mkMid poly).edges.map (fun e => e.vertex_indices)
      = refFE mkMid poly := by
  rw [refine_edges, foldOps_map_vi, List.map_map]
  have hcomp : ((fun (e : Edge) => e.vertex_indices)
      ∘ (fun ab => ({ vertex_indices := ab, face_indices := [] } : Edge)))
      = id := rfl
  rw [hcomp, List.map_id]

theorem refine_edges_map_sp (poly : Polyhedron Pos) :
    (refine mkMid poly).edges.map
        (fun e => sortPairN e.vertex_indices.1 e.vertex_indices.2)
      = (refFE mkMid poly).map (fun K => sortPairN K.1 K.2) := by
  rw [← refine_edges_map_vi, List.map_map]
  rfl

theorem comp5_ref (poly : Polyhedron Pos) (d : ℕ) (h : GoodPoly poly d) :
    ((refine mkMid poly).edges.map
      (fun e => sortPairN e.vertex_indices.1 e.vertex_indices.2)).Nodup := by
  rw [refine_edges_map_sp]
  refine List.Nodup.map_on ?_ (nodup_dedupAppend _ _ List.nodup_nil)
  intro K hK K' hK' hq
  have hKe := (mem_refFE_iff poly d h K).mp hK
  have hK'e := (mem_refFE_iff poly d h K').mp hK'
  unfold eListC at hKe hK'e
  rcases List.mem_append.mp hKe with hKb | hKi <;>
    rcases List.mem_append.mp hK'e with hK'b | hK'i
  · obtain ⟨w, e, hw, he, -, hKform⟩ := mem_bpart_form poly d h _ hKb
    obtain ⟨w', e', hw', he', -, hK'form⟩ := mem_bpart_form poly d h _ hK'b
    have hKsp : sortPairN K.1 K.2 = K := by
      rw [hKform]
      exact sortPairN_idem _ _
    have hK'sp : sortPairN K'.1 K'.2 = K' := by
      rw [hK'form]
      exact sortPairN_idem _ _
    rw [hKsp, hK'sp] at hq
    exact hq
  · obtain ⟨w, e, hw, he, -, hKform⟩ := mem_bpart_form poly d h _ hKb
    obtain ⟨eA, eB, hA, hB, -, hK'form⟩ := mem_ipart_form poly d h _ hK'i
    have hKsp : sortPairN K.1 K.2 = K := by
      rw [hKform]
      exact sortPairN_idem _ _
    rw [hKsp, hKform, hK'form] at hq
    exfalso
    rcases (sortPairN_eq_iff _ _ _ _).mp hq with ⟨qa, -⟩ | ⟨qa, -⟩
    · exact vmIdx_ne poly d h w hw eA hA qa
    · exact vmIdx_ne poly d h w hw eB hB qa
  · obtain ⟨w, e, hw, he, -, hK'form⟩ := mem_bpart_form poly d h _ hK'b
    obtain ⟨eA, eB, hA, hB, -, hKform⟩ := mem_ipart_form poly d h _ hKi
    have hK'sp : sortPairN K'.1 K'.2 = K' := by
      rw [hK'form]
      exact sortPairN_idem _ _
    rw [hK'sp, hK'form, hKform] at hq
    exfalso
    rcases (sortPairN_eq_iff _ _ _ _).mp hq.symm with ⟨qa, -⟩ | ⟨qa, -⟩
    · exact vmIdx_ne poly d h w hw eA hA qa
    · exact vmIdx_ne poly d h w hw eB hB qa
  · obtain ⟨f, hfm, hKf⟩ := List.mem_flatMap.mp hKi
    obtain ⟨g, hgm, hK'g⟩ := List.mem_flatMap.mp hK'i
    obtain ⟨p, hp, hfp⟩ := List.mem_iff_getElem.mp hfm
    obtain ⟨q', hq', hgq⟩ := List.mem_iff_getElem.mp hgm
    by_cases hpq : p = q'
    · subst hpq
      have hfg : f = g := hfp.symm.trans hgq
      exact within_face_sp_inj poly d h f hfm K K' hKf (hfg ▸ hK'g) hq
    · exfalso
      rcases Nat.lt_or_ge p q' with hlt | hge
      · have hS := List.pairwise_iff_getElem.mp (iKeys_sp_pairwise poly d h)
          p q' hp hq' hlt
        rw [hfp, hgq] at hS
        exact hS K hKf K' hK'g hq
      · have hlt' : q' < p := by omega
        have hS := List.pairwise_iff_getElem.mp (iKeys_sp_pairwise poly d h)
          q' p hq' hp hlt'
        rw [hfp, hgq] at hS
        exact hS K' hK'g K hKf hq.symm

theorem sideEq_of_vi_pair (e : Edge) (x y : ℕ)
    (hvi : e.vertex_indices = (x, y)) : sideEq e x y := by
  unfold sideEq
  exact Or.inl hvi

theorem sideEq_of_vi_pair_rev (e : Edge) (x y : ℕ)
    (hvi : e.vertex_indices = (y, x)) : sideEq e x y := by
  unfold sideEq
  exact Or.inr hvi

theorem comp3_ref (poly : Polyhedron Pos) (d : ℕ) (h : GoodPoly poly d) :
    ∀ c ∈ (refine mkMid poly).faces,
      c.vertex_indices.1 < (refine mkMid poly).vertices.length ∧
      c.vertex_indices.2.1 < (refine mkMid poly).vertices.length ∧
      c.vertex_indices.2.2 < (refine mkMid poly).vertices.length ∧
      c.vertex_indices.1 ≠ c.vertex_indices.2.1 ∧
      c.vertex_indices.2.1 ≠ c.vertex_indices.2.2 ∧
      c.vertex_indices.2.2 ≠ c.vertex_indices.1 ∧
      c.edge_indices.1 < (refine mkMid poly).edges.length ∧
      c.edge_indices.2.1 < (refine mkMid poly).edges.length ∧
      c.edge_indices.2.2 < (refine mkMid poly).edges.length ∧
      sideEq ((refine mkMid poly).edges.getD c.edge_indices.1 dfltEdge)
        c.vertex_indices.1 c.vertex_indices.2.1 ∧
      sideEq ((refine mkMid poly).edges.getD c.edge_indices.2.1 dfltEdge)
        c.vertex_indices.2.1 c.vertex_indices.2.2 ∧
      sideEq ((refine mkMid poly).edges.getD c.edge_indices.2.2 dfltEdge)
        c.vertex_indices.2.2 c.vertex_indices.1 := by
  intro c hc
  rw [refine_faces] at hc
  obtain ⟨g, hg, hcg⟩ := List.mem_flatMap.mp hc
  obtain ⟨hb1, hb2, hb3, hd1, hd2, hd3, he1, he2, he3, hsd1, hsd2, hsd3⟩ :=
    h.2.2.1 g hg
  obtain ⟨hm1, hm2, hm3⟩ := face_side_mid poly d h g hg
  obtain ⟨hqv1, hqv2, hqv3⟩ := face_sides_ne poly d h g hg
  have hv1m : posAt poly g.vertex_indices.1 ∈ refFV mkMid poly :=
    posAt_mem_refFV poly d h _ hb1
  have hv2m : posAt poly g.vertex_indices.2.1 ∈ refFV mkMid poly :=
    posAt_mem_refFV poly d h _ hb2
  have hv3m : posAt poly g.vertex_indices.2.2 ∈ refFV mkMid poly :=
    posAt_mem_refFV poly d h _ hb3
  have habm : mkMid (posAt poly g.vertex_indices.1)
      (posAt poly g.vertex_indices.2.1) ∈ refFV mkMid poly := by
    rw [← hm1]
    exact midOfEdge_mem_refFV poly d h _ (mem_getD_of_lt _ _ _ he1)
  have hbcm : mkMid (posAt poly g.vertex_indices.2.1)
      (posAt poly g.vertex_indices.2.2) ∈ refFV mkMid poly := by
    rw [← hm2]
    exact midOfEdge_mem_refFV poly d h _ (mem_getD_of_lt _ _ _ he2)
  have hcam : mkMid (posAt poly g.vertex_indices.2.2)
      (posAt poly g.vertex_indices.1) ∈ refFV mkMid poly := by
    rw [← hm3]
    exact midOfEdge_mem_refFV poly d h _ (mem_getD_of_lt _ _ _ he3)
  have hneaab : (idxK (refFV mkMid poly) (posAt poly g.vertex_indices.1)) ≠ (idxK (refFV mkMid poly) (mkMid (posAt poly g.vertex_indices.1) (posAt poly g.vertex_indices.2.1))) := by
    rw [← hm1]
    exact vmIdx_ne poly d h _ hb1 _ (mem_getD_of_lt _ _ _ he1)
  have hneaca : (idxK (refFV mkMid poly) (posAt poly g.vertex_indices.1)) ≠ (idxK (refFV mkMid poly) (mkMid (posAt poly g.vertex_indices.2.2) (posAt poly g.vertex_indices.1))) := by
    rw [← hm3]
    exact vmIdx_ne poly d h _ hb1 _ (mem_getD_of_lt _ _ _ he3)
  have hnebab : (idxK (refFV mkMid poly) (posAt poly g.vertex_indices.2.1)) ≠ (idxK (refFV mkMid poly) (mkMid (posAt poly g.vertex_indices.1) (posAt poly g.vertex_indices.2.1))) := by
    rw [← hm1]
    exact vmIdx_ne poly d h _ hb2 _ (mem_getD_of_lt _ _ _ he1)
  have hnebbc : (idxK (refFV mkMid poly) (posAt poly g.vertex_indices.2.1)) ≠ (idxK (refFV mkMid poly) (mkMid (posAt poly g.vertex_indices.2.1) (posAt poly g.vertex_indices.2.2))) := by
    rw [← hm2]
    exact vmIdx_ne poly d h _ hb2 _ (mem_getD_of_lt _ _ _ he2)
  have hnecbc : (idxK (refFV mkMid poly) (posAt poly g.vertex_indices.2.2)) ≠ (idxK (refFV mkMid poly) (mkMid (posAt poly g.vertex_indices.2.1) (posAt poly g.vertex_indices.2.2))) := by
    rw [← hm2]
    exact vmIdx_ne poly d h _ hb3 _ (mem_getD_of_lt _ _ _ he2)
  have hnecca : (idxK (refFV mkMid poly) (posAt poly g.vertex_indices.2.2)) ≠ (idxK (refFV mkMid poly) (mkMid (posAt poly g.vertex_indices.2.2) (posAt poly g.vertex_indices.1))) := by
    rw [← hm3]
    exact vmIdx_ne poly d h _ hb3 _ (mem_getD_of_lt _ _ _ he3)
  have hneabbc : (idxK (refFV mkMid poly) (mkMid (posAt poly g.vertex_indices.1) (posAt poly g.vertex_indices.2.1))) ≠ (idxK (refFV mkMid poly) (mkMid (posAt poly g.vertex_indices.2.1) (posAt poly g.vertex_indices.2.2))) := by
    rw [← hm1, ← hm2]
    exact fun q => hqv1 (mIdx_inj poly d h _ _ (mem_getD_of_lt _ _ _ he1)
      (mem_getD_of_lt _ _ _ he2) q)
  have hnebcca : (idxK (refFV mkMid poly) (mkMid (posAt poly g.vertex_indices.2.1) (posAt poly g.vertex_indices.2.2))) ≠ (idxK (refFV mkMid poly) (mkMid (posAt poly g.vertex_indices.2.2) (posAt poly g.vertex_indices.1))) := by
    rw [← hm2, ← hm3]
    exact fun q => hqv2 (mIdx_inj poly d h _ _ (mem_getD_of_lt _ _ _ he2)
      (mem_getD_of_lt _ _ _ he3) q)
  have hneabca : (idxK (refFV mkMid poly) (mkMid (posAt poly g.vertex_indices.1) (posAt poly g.vertex_indices.2.1))) ≠ (idxK (refFV mkMid poly) (mkMid (posAt poly g.vertex_indices.2.2) (posAt poly g.vertex_indices.1))) := by
    rw [← hm1, ← hm3]
    exact fun q => hqv3 (mIdx_inj poly d h _ _ (mem_getD_of_lt _ _ _ he1)
      (mem_getD_of_lt _ _ _ he3) q)
  have hkeysub : ∀ kk ∈ eKeysOfFace mkMid poly (refFV mkMid poly) g,
      kk ∈ refFE mkMid poly := by
    intro kk hkk
    unfold refFE
    rw [mem_dedupAppend]
    exact Or.inr (List.mem_flatMap.mpr ⟨g, hg, hkk⟩)
  have hk1 : (sortPairN (idxK (refFV mkMid poly) (posAt poly g.vertex_indices.1)) (idxK (refFV mkMid poly) (mkMid (posAt poly g.vertex_indices.1) (posAt poly g.vertex_indices.2.1)))) ∈ refFE mkMid poly :=
    hkeysub _ (by simp [eKeysOfFace])
  have hk2 : (sortPairN (idxK (refFV mkMid poly) (mkMid (posAt poly g.vertex_indices.1) (posAt poly g.vertex_indices.2.1))) (idxK (refFV mkMid poly) (posAt poly g.vertex_indices.2.1))) ∈ refFE mkMid poly :=
    hkeysub _ (by simp [eKeysOfFace])
  have hk3 : (sortPairN (idxK (refFV mkMid poly) (posAt poly g.vertex_indices.2.1)) (idxK (refFV mkMid poly) (mkMid (posAt poly g.vertex_indices.2.1) (posAt poly g.vertex_indices.2.2)))) ∈ refFE mkMid poly :=
    hkeysub _ (by simp [eKeysOfFace])
  have hk4 : (sortPairN (idxK (refFV mkMid poly) (mkMid (posAt poly g.vertex_indices.2.1) (posAt poly g.vertex_indices.2.2))) (idxK (refFV mkMid poly) (posAt poly g.vertex_indices.2.2))) ∈ refFE mkMid poly :=
    hkeysub _ (by simp [eKeysOfFace])
  have hk5 : (sortPairN (idxK (refFV mkMid poly) (posAt poly g.vertex_indices.2.2)) (idxK (refFV mkMid poly) (mkMid (posAt poly g.vertex_indices.2.2) (posAt poly g.vertex_indices.1)))) ∈ refFE mkMid poly :=
    hkeysub _ (by simp [eKeysOfFace])
  have hk6 : (sortPairN (idxK (refFV mkMid poly) (mkMid (posAt poly g.vertex_indices.2.2) (posAt poly g.vertex_indices.1))) (idxK (refFV mkMid poly) (posAt poly g.vertex_indices.1))) ∈ refFE mkMid poly :=
    hkeysub _ (by simp [eKeysOfFace])
  have hk7 : (((idxK (refFV mkMid poly) (mkMid (posAt poly g.vertex_indices.1) (posAt poly g.vertex_indices.2.1))), (idxK (refFV mkMid poly) (mkMid (posAt poly g.vertex_indices.2.2) (posAt poly g.vertex_indices.1))))) ∈ refFE mkMid poly :=
    hkeysub _ (by simp [eKeysOfFace])
  have hk8 : (((idxK (refFV mkMid poly) (mkMid (posAt poly g.vertex_indices.1) (posAt poly g.vertex_indices.2.1))), (idxK (refFV mkMid poly) (mkMid (posAt poly g.vertex_indices.2.1) (posAt poly g.vertex_indices.2.2))))) ∈ refFE mkMid poly :=
    hkeysub _ (by simp [eKeysOfFace])
  have hk9 : (((idxK (refFV mkMid poly) (mkMid (posAt poly g.vertex_indices.2.1) (posAt poly g.vertex_indices.2.2))), (idxK (refFV mkMid poly) (mkMid (posAt poly g.vertex_indices.2.2) (posAt poly g.vertex_indices.1))))) ∈ refFE mkMid poly :=
    hkeysub _ (by simp [eKeysOfFace])
  have hside : ∀ kk : ℕ × ℕ, kk ∈ refFE mkMid poly →
      ((refine mkMid poly).edges.getD (idxK (refFE mkMid poly) kk)
        dfltEdge).vertex_indices = kk := by
    intro kk hkk
    rw [refine_edge_vi mkMid poly _ (idxK_lt_of_mem _ _ hkk)]
    exact getD_idxK _ _ _ hkk
  simp only [facesOfFace, List.mem_cons, List.not_mem_nil, or_false] at hcg
  rcases hcg with rfl | rfl | rfl | rfl
  · refine ⟨?_, ?_, ?_, ?_, ?_, ?_, ?_, ?_, ?_, ?_, ?_, ?_⟩
    · rw [refine_vertices_length]
      exact idxK_lt_of_mem _ _ hv1m
    · rw [refine_vertices_length]
      exact idxK_lt_of_mem _ _ habm
    · rw [refine_vertices_length]
      exact idxK_lt_of_mem _ _ hcam
    · exact hneaab
    · exact hneabca
    · exact Ne.symm hneaca
    · rw [refine_edges_length]
      exact idxK_lt_of_mem _ _ hk1
    · rw [refine_edges_length]
      exact idxK_lt_of_mem _ _ hk7
    · rw [refine_edges_length]
      exact idxK_lt_of_mem _ _ hk6
    · exact sideEq_of_vi_sp _ _ _ (hside _ hk1)
    · exact sideEq_of_vi_pair _ _ _ (hside _ hk7)
    · exact sideEq_of_vi_sp _ _ _ (hside _ hk6)
  · refine ⟨?_, ?_, ?_, ?_, ?_, ?_, ?_, ?_, ?_, ?_, ?_, ?_⟩
    · rw [refine_vertices_length]
      exact idxK_lt_of_mem _ _ habm
    · rw [refine_vertices_length]
      exact idxK_lt_of_mem _ _ hv2m
    · rw [refine_vertices_length]
      exact idxK_lt_of_mem _ _ hbcm
    · exact Ne.symm hnebab
    · exact hnebbc
    · exact Ne.symm hneabbc
    · rw [refine_edges_length]
      exact idxK_lt_of_mem _ _ hk2
    · rw [refine_edges_length]
      exact idxK_lt_of_mem _ _ hk3
    · rw [refine_edges_length]
      exact idxK_lt_of_mem _ _ hk8
    · exact sideEq_of_vi_sp _ _ _ (hside _ hk2)
    · exact sideEq_of_vi_sp _ _ _ (hside _ hk3)
    · exact sideEq_of_vi_pair_rev _ _ _ (hside _ hk8)
  · refine ⟨?_, ?_, ?_, ?_, ?_, ?_, ?_, ?_, ?_, ?_, ?_, ?_⟩
    · rw [refine_vertices_length]
      exact idxK_lt_of_mem _ _ hbcm
    · rw [refine_vertices_length]
      exact idxK_lt_of_mem _ _ hv3m
    · rw [refine_vertices_length]
      exact idxK_lt_of_mem _ _ hcam
    · exact Ne.symm hnecbc
    · exact hnecca
    · exact Ne.symm hnebcca
    · rw [refine_edges_length]
      exact idxK_lt_of_mem _ _ hk4
    · rw [refine_edges_length]
      exact idxK_lt_of_mem _ _ hk5
    · rw [refine_edges_length]
      exact idxK_lt_of_mem _ _ hk9
    · exact sideEq_of_vi_sp _ _ _ (hside _ hk4)
    · exact sideEq_of_vi_sp _ _ _ (hside _ hk5)
    · exact sideEq_of_vi_pair_rev _ _ _ (hside _ hk9)
  · refine ⟨?_, ?_, ?_, ?_, ?_, ?_, ?_, ?_, ?_, ?_, ?_, ?_⟩
    · rw [refine_vertices_length]
      exact idxK_lt_of_mem _ _ habm
    · rw [refine_vertices_length]
      exact idxK_lt_of_mem _ _ hbcm
    · rw [refine_vertices_length]
      exact idxK_lt_of_mem _ _ hcam
    · exact hneabbc
    · exact hnebcca
    · exact Ne.symm hneabca
    · rw [refine_edges_length]
      exact idxK_lt_of_mem _ _ hk8
    · rw [refine_edges_length]
      exact idxK_lt_of_mem _ _ hk9
    · rw [refine_edges_length]
      exact idxK_lt_of_mem _ _ hk7
    · exact sideEq_of_vi_pair _ _ _ (hside _ hk8)
    · exact sideEq_of_vi_pair _ _ _ (hside _ hk9)
    · exact sideEq_of_vi_pair_rev _ _ _ (hside _ hk7)

theorem comp7_ref (poly : Polyhedron Pos) (d : ℕ) (h : GoodPoly poly d) :
    ∀ v, v < (refine mkMid poly).vertices.length →
      ∃ c ∈ (refine mkMid poly).faces, v ∈ refFaceVertList c := by
  intro v hv
  rw [refine_vertices_length] at hv
  have hmemv : (refFV mkMid poly).getD v default ∈ refFV mkMid poly :=
    mem_getD_of_lt _ _ _ hv
  have hvidx : idxK (refFV mkMid poly)
      ((refFV mkMid poly).getD v default) = v :=
    idxK_getD _ _ _ (nodup_dedupAppend _ _ List.nodup_nil) hv
  rw [mem_refFV_iff poly d h] at hmemv
  rw [refine_faces]
  unfold vListC at hmemv
  rcases List.mem_append.mp hmemv with hx | hx
  · obtain ⟨u, hu, heq⟩ := List.mem_map.mp hx
    obtain ⟨n, hn, rfl⟩ := List.mem_iff_getElem.mp hu
    have hpos : posAt poly n = (refFV mkMid poly).getD v default := by
      unfold posAt
      rw [List.getD_eq_getElem _ _ hn]
      exact heq
    have hveq : v = idxK (refFV mkMid poly) (posAt poly n) := by
      rw [hpos]
      exact hvidx.symm
    obtain ⟨g, hg, hng⟩ := h.2.2.2.2.2.2.1 n hn
    simp only [refFaceVertList, List.mem_cons, List.not_mem_nil, or_false] at hng
    rcases hng with h1 | h1 | h1
    · refine ⟨(⟨((idxK (refFV mkMid poly) (posAt poly g.vertex_indices.1)), (idxK (refFV mkMid poly) (mkMid (posAt poly g.vertex_indices.1) (posAt poly g.vertex_indices.2.1))), (idxK (refFV mkMid poly) (mkMid (posAt poly g.vertex_indices.2.2) (posAt poly g.vertex_indices.1)))), (idxK (refFE mkMid poly) (sortPairN (idxK (refFV mkMid poly) (posAt poly g.vertex_indices.1)) (idxK (refFV mkMid poly) (mkMid (posAt poly g.vertex_indices.1) (posAt poly g.vertex_indices.2.1)))), idxK (refFE mkMid poly) (((idxK (refFV mkMid poly) (mkMid (posAt poly g.vertex_indices.1) (posAt poly g.vertex_indices.2.1))), (idxK (refFV mkMid poly) (mkMid (posAt poly g.vertex_indices.2.2) (posAt poly g.vertex_indices.1))))), idxK (refFE mkMid poly) (sortPairN (idxK (refFV mkMid poly) (mkMid (posAt poly g.vertex_indices.2.2) (posAt poly g.vertex_indices.1))) (idxK (refFV mkMid poly) (posAt poly g.vertex_indices.1))))⟩ : Face), List.mem_flatMap.mpr ⟨g, hg, by simp [facesOfFace]⟩, ?_⟩
      simp only [refFaceVertList, List.mem_cons, List.not_mem_nil, or_false]
      exact Or.inl (by rw [hveq, h1])
    · refine ⟨(⟨((idxK (refFV mkMid poly) (mkMid (posAt poly g.vertex_indices.1) (posAt poly g.vertex_indices.2.1))), (idxK (refFV mkMid poly) (posAt poly g.vertex_indices.2.1)), (idxK (refFV mkMid poly) (mkMid (posAt poly g.vertex_indices.2.1) (posAt poly g.vertex_indices.2.2)))), (idxK (refFE mkMid poly) (sortPairN (idxK (refFV mkMid poly) (mkMid (posAt poly g.vertex_indices.1) (posAt poly g.vertex_indices.2.1))) (idxK (refFV mkMid poly) (posAt poly g.vertex_indices.2.1))), idxK (refFE mkMid poly) (sortPairN (idxK (refFV mkMid poly) (posAt poly g.vertex_indices.2.1)) (idxK (refFV mkMid poly) (mkMid (posAt poly g.vertex_indices.2.1) (posAt poly g.vertex_indices.2.2)))), idxK (refFE mkMid poly) (((idxK (refFV mkMid poly) (mkMid (posAt poly g.vertex_indices.1) (posAt poly g.vertex_indices.2.1))), (idxK (refFV mkMid poly) (mkMid (posAt poly g.vertex_indices.2.1) (posAt poly g.vertex_indices.2.2))))))⟩ : Face), List.mem_flatMap.mpr ⟨g, hg, by simp [facesOfFace]⟩, ?_⟩
      simp only [refFaceVertList, List.mem_cons, List.not_mem_nil, or_false]
      exact Or.inr (Or.inl (by rw [hveq, h1]))
    · refine ⟨(⟨((idxK (refFV mkMid poly) (mkMid (posAt poly g.vertex_indices.2.1) (posAt poly g.vertex_indices.2.2))), (idxK (refFV mkMid poly) (posAt poly g.vertex_indices.2.2)), (idxK (refFV mkMid poly) (mkMid (posAt poly g.vertex_indices.2.2) (posAt poly g.vertex_indices.1)))), (idxK (refFE mkMid poly) (sortPairN (idxK (refFV mkMid poly) (mkMid (posAt poly g.vertex_indices.2.1) (posAt poly g.vertex_indices.2.2))) (idxK (refFV mkMid poly) (posAt poly g.vertex_indices.2.2))), idxK (refFE mkMid poly) (sortPairN (idxK (refFV mkMid poly) (posAt poly g.vertex_indices.2.2)) (idxK (refFV mkMid poly) (mkMid (posAt poly g.vertex_indices.2.2) (posAt poly g.vertex_indices.1)))), idxK (refFE mkMid poly) (((idxK (refFV mkMid poly) (mkMid (posAt poly g.vertex_indices.2.1) (posAt poly g.vertex_indices.2.2))), (idxK (refFV mkMid poly) (mkMid (posAt poly g.vertex_indices.2.2) (posAt poly g.vertex_indices.1))))))⟩ : Face), List.mem_flatMap.mpr ⟨g, hg, by simp [facesOfFace]⟩, ?_⟩
      simp only [refFaceVertList, List.mem_cons, List.not_mem_nil, or_false]
      exact Or.inr (Or.inl (by rw [hveq, h1]))
  · obtain ⟨e, he, heq⟩ := List.mem_map.mp hx
    obtain ⟨n, hn, rfl⟩ := List.mem_iff_getElem.mp he
    have hgd : poly.edges[n] = poly.edges.getD n dfltEdge :=
      (List.getD_eq_getElem _ _ hn).symm
    have hveq : v = idxK (refFV mkMid poly)
        (midOfEdge poly (poly.edges.getD n dfltEdge)) := by
      rw [← hgd, heq]
      exact hvidx.symm
    have hcnt := h.2.2.2.2.2.1 n hn
    have hmem : n ∈ poly.faces.flatMap refFaceEdgeList := by
      rw [← List.count_pos_iff, hcnt]
      omega
    obtain ⟨g, hg, hng⟩ := List.mem_flatMap.mp hmem
    obtain ⟨hm1, hm2, hm3⟩ := face_side_mid poly d h g hg
    simp only [refFaceEdgeList, List.mem_cons, List.not_mem_nil, or_false] at hng
    rcases hng with h1 | h1 | h1
    · refine ⟨(⟨((idxK (refFV mkMid poly) (posAt poly g.vertex_indices.1)), (idxK (refFV mkMid poly) (mkMid (posAt poly g.vertex_indices.1) (posAt poly g.vertex_indices.2.1))), (idxK (refFV mkMid poly) (mkMid (posAt poly g.vertex_indices.2.2) (posAt poly g.vertex_indices.1)))), (idxK (refFE mkMid poly) (sortPairN (idxK (refFV mkMid poly) (posAt poly g.vertex_indices.1)) (idxK (refFV mkMid poly) (mkMid (posAt poly g.vertex_indices.1) (posAt poly g.vertex_indices.2.1)))), idxK (refFE mkMid poly) (((idxK (refFV mkMid poly) (mkMid (posAt poly g.vertex_indices.1) (posAt poly g.vertex_indices.2.1))), (idxK (refFV mkMid poly) (mkMid (posAt poly g.vertex_indices.2.2) (posAt poly g.vertex_indices.1))))), idxK (refFE mkMid poly) (sortPairN (idxK (refFV mkMid poly) (mkMid (posAt poly g.vertex_indices.2.2) (posAt poly g.vertex_indices.1))) (idxK (refFV mkMid poly) (posAt poly g.vertex_indices.1))))⟩ : Face), List.mem_flatMap.mpr ⟨g, hg, by simp [facesOfFace]⟩, ?_⟩
      simp only [refFaceVertList, List.mem_cons, List.not_mem_nil, or_false]
      refine Or.inr (Or.inl ?_)
      rw [hveq, h1, hm1]
    · refine ⟨(⟨((idxK (refFV mkMid poly) (mkMid (posAt poly g.vertex_indices.1) (posAt poly g.vertex_indices.2.1))), (idxK (refFV mkMid poly) (posAt poly g.vertex_indices.2.1)), (idxK (refFV mkMid poly) (mkMid (posAt poly g.vertex_indices.2.1) (posAt poly g.vertex_indices.2.2)))), (idxK (refFE mkMid poly) (sortPairN (idxK (refFV mkMid poly) (mkMid (posAt poly g.vertex_indices.1) (posAt poly g.vertex_indices.2.1))) (idxK (refFV mkMid poly) (posAt poly g.vertex_indices.2.1))), idxK (refFE mkMid poly) (sortPairN (idxK (refFV mkMid poly) (posAt poly g.vertex_indices.2.1)) (idxK (refFV mkMid poly) (mkMid (posAt poly g.vertex_indices.2.1) (posAt poly g.vertex_indices.2.2)))), idxK (refFE mkMid poly) (((idxK (refFV mkMid poly) (mkMid (posAt poly g.vertex_indices.1) (posAt poly g.vertex_indices.2.1))), (idxK (refFV mkMid poly) (mkMid (posAt poly g.vertex_indices.2.1) (posAt poly g.vertex_indices.2.2))))))⟩ : Face), List.mem_flatMap.mpr ⟨g, hg, by simp [facesOfFace]⟩, ?_⟩
      simp only [refFaceVertList, List.mem_cons, List.not_mem_nil, or_false]
      refine Or.inr (Or.inr ?_)
      rw [hveq, h1, hm2]
    · refine ⟨(⟨((idxK (refFV mkMid poly) (mkMid (posAt poly g.vertex_indices.2.1) (posAt poly g.vertex_indices.2.2))), (idxK (refFV mkMid poly) (posAt poly g.vertex_indices.2.2)), (idxK (refFV mkMid poly) (mkMid (posAt poly g.vertex_indices.2.2) (posAt poly g.vertex_indices.1)))), (idxK (refFE mkMid poly) (sortPairN (idxK (refFV mkMid poly) (mkMid (posAt poly g.vertex_indices.2.1) (posAt poly g.vertex_indices.2.2))) (idxK (refFV mkMid poly) (posAt poly g.vertex_indices.2.2))), idxK (refFE mkMid poly) (sortPairN (idxK (refFV mkMid poly) (posAt poly g.vertex_indices.2.2)) (idxK (refFV mkMid poly) (mkMid (posAt poly g.vertex_indices.2.2) (posAt poly g.vertex_indices.1)))), idxK (refFE mkMid poly) (((idxK (refFV mkMid poly) (mkMid (posAt poly g.vertex_indices.2.1) (posAt poly g.vertex_indices.2.2))), (idxK (refFV mkMid poly) (mkMid (posAt poly g.vertex_indices.2.2) (posAt poly g.vertex_indices.1))))))⟩ : Face), List.mem_flatMap.mpr ⟨g, hg, by simp [facesOfFace]⟩, ?_⟩
      simp only [refFaceVertList, List.mem_cons, List.not_mem_nil, or_false]
      refine Or.inr (Or.inr ?_)
      rw [hveq, h1, hm3]

set_option maxHeartbeats 1000000 in
theorem children_pairwise_abstract (p1 p2 p3 p4 : ℕ × ℕ × ℕ)
    (x1 x2 x3 x4 x5 x6 x7 x8 x9 : ℕ)
    (h12 : x1 ≠ x2) (h13 : x1 ≠ x3) (h14 : x1 ≠ x4) (h15 : x1 ≠ x5)
    (h16 : x1 ≠ x6) (h17 : x1 ≠ x7) (h18 : x1 ≠ x8) (h19 : x1 ≠ x9)
    (h23 : x2 ≠ x3) (h24 : x2 ≠ x4) (h25 : x2 ≠ x5) (h26 : x2 ≠ x6)
    (h27 : x2 ≠ x7) (h28 : x2 ≠ x8) (h29 : x2 ≠ x9) (h34 : x3 ≠ x4)
    (h35 : x3 ≠ x5) (h36 : x3 ≠ x6) (h37 : x3 ≠ x7) (h38 : x3 ≠ x8)
    (h39 : x3 ≠ x9) (h45 : x4 ≠ x5) (h46 : x4 ≠ x6) (h47 : x4 ≠ x7)
    (h48 : x4 ≠ x8) (h49 : x4 ≠ x9) (h56 : x5 ≠ x6) (h57 : x5 ≠ x7)
    (h58 : x5 ≠ x8) (h59 : x5 ≠ x9) (h67 : x6 ≠ x7) (h68 : x6 ≠ x8)
    (h69 : x6 ≠ x9) (h78 : x7 ≠ x8) (h79 : x7 ≠ x9) (h89 : x8 ≠ x9) :
    List.Pairwise (fun u v => ∀ i ∈ refFaceEdgeList u,
      ∀ j ∈ refFaceEdgeList u,
      i ∈ refFaceEdgeList v → j ∈ refFaceEdgeList v → i = j)
      [⟨p1, (x1, x7, x6)⟩, ⟨p2, (x2, x3, x8)⟩, ⟨p3, (x4, x5, x9)⟩,
       ⟨p4, (x8, x9, x7)⟩] := by
  refine List.Pairwise.cons (fun v hv => ?_)
    (List.Pairwise.cons (fun v hv => ?_)
      (List.Pairwise.cons (fun v hv => ?_)
        (List.Pairwise.cons (fun v hv => ?_) List.Pairwise.nil)))
  · simp only [List.mem_cons, List.not_mem_nil, or_false] at hv
    rcases hv with rfl | rfl | rfl
    · intro i hi j hj hiv hjv
      simp only [refFaceEdgeList, List.mem_cons, List.not_mem_nil, or_false]
        at hi hj hiv hjv
      rcases hi with rfl | rfl | rfl <;> rcases hj with rfl | rfl | rfl <;>
        rcases hiv with hA | hA | hA <;> rcases hjv with hB | hB | hB <;> cc
    · intro i hi j hj hiv hjv
      simp only [refFaceEdgeList, List.mem_cons, List.not_mem_nil, or_false]
        at hi hj hiv hjv
      rcases hi with rfl | rfl | rfl <;> rcases hj with rfl | rfl | rfl <;>
        rcases hiv with hA | hA | hA <;> rcases hjv with hB | hB | hB <;> cc
    · intro i hi j hj hiv hjv
      simp only [refFaceEdgeList, List.mem_cons, List.not_mem_nil, or_false]
        at hi hj hiv hjv
      rcases hi with rfl | rfl | rfl <;> rcases hj with rfl | rfl | rfl <;>
        rcases hiv with hA | hA | hA <;> rcases hjv with hB | hB | hB <;> cc
  · simp only [List.mem_cons, List.not_mem_nil, or_false] at hv
    rcases hv with rfl | rfl
    · intro i hi j hj hiv hjv
      simp only [refFaceEdgeList, List.mem_cons, List.not_mem_nil, or_false]
        at hi hj hiv hjv
      rcases hi with rfl | rfl | rfl <;> rcases hj with rfl | rfl | rfl <;>
        rcases hiv with hA | hA | hA <;> rcases hjv with hB | hB | hB <;> cc
    · intro i hi j hj hiv hjv
      simp only [refFaceEdgeList, List.mem_cons, List.not_mem_nil, or_false]
        at hi hj hiv hjv
      rcases hi with rfl | rfl | rfl <;> rcases hj with rfl | rfl | rfl <;>
        rcases hiv with hA | hA | hA <;> rcases hjv with hB | hB | hB <;> cc
  · simp only [List.mem_cons, List.not_mem_nil, or_false] at hv
    rcases hv with rfl
    · intro i hi j hj hiv hjv
      simp only [refFaceEdgeList, List.mem_cons, List.not_mem_nil, or_false]
        at hi hj hiv hjv
      rcases hi with rfl | rfl | rfl <;> rcases hj with rfl | rfl | rfl <;>
        rcases hiv with hA | hA | hA <;> rcases hjv with hB | hB | hB <;> cc
  · exact absurd hv (List.not_mem_nil _)

theorem iKeys_disjoint_of_R (poly : Polyhedron Pos) (d : ℕ)
    (h : GoodPoly poly d) (f g : Face) (hf : f ∈ poly.faces)
    (hg : g ∈ poly.faces)
    (hR : ∀ i ∈ refFaceEdgeList f, ∀ j ∈ refFaceEdgeList f,
      i ∈ refFaceEdgeList g → j ∈ refFaceEdgeList g → i = j)
    (x : ℕ × ℕ) (hxf : x ∈ iKeysOfFace poly (refFV mkMid poly) f)
    (hxg : x ∈ iKeysOfFace poly (refFV mkMid poly) g) : False := by
  obtain ⟨-, -, -, -, -, -, he1, he2, he3, -⟩ := h.2.2.1 f hf
  obtain ⟨-, -, -, -, -, -, hg1, hg2, hg3, -⟩ := h.2.2.1 g hg
  obtain ⟨hq1, hq2, hq3⟩ := face_sides_ne poly d h f hf
  have hf1 : f.edge_indices.1 ∈ refFaceEdgeList f := by simp [refFaceEdgeList]
  have hf2 : f.edge_indices.2.1 ∈ refFaceEdgeList f := by simp [refFaceEdgeList]
  have hf3 : f.edge_indices.2.2 ∈ refFaceEdgeList f := by simp [refFaceEdgeList]
  have hgm1 : g.edge_indices.1 ∈ refFaceEdgeList g := by simp [refFaceEdgeList]
  have hgm2 : g.edge_indices.2.1 ∈ refFaceEdgeList g := by simp [refFaceEdgeList]
  have hgm3 : g.edge_indices.2.2 ∈ refFaceEdgeList g := by simp [refFaceEdgeList]
  rw [iKeysOfFace_eq poly d h f hf] at hxf
  rw [iKeysOfFace_eq poly d h g hg] at hxg
  simp only [List.mem_cons, List.not_mem_nil, or_false] at hxf hxg
  rcases hxf with rfl | rfl | rfl <;> rcases hxg with hq | hq | hq <;>
    rw [Prod.mk.injEq] at hq <;> obtain ⟨qa, qb⟩ := hq
  · exact shared_two_edges_contra poly d h f g hR _ _ _ _ hf1 hf3 hgm1 hgm3
      he1 he3 hg1 hg3
      (mIdx_inj poly d h _ _ (mem_getD_of_lt _ _ _ he1)
        (mem_getD_of_lt _ _ _ hg1) qa)
      (mIdx_inj poly d h _ _ (mem_getD_of_lt _ _ _ he3)
        (mem_getD_of_lt _ _ _ hg3) qb)
      hq3
  · exact shared_two_edges_contra poly d h f g hR _ _ _ _ hf1 hf3 hgm1 hgm2
      he1 he3 hg1 hg2
      (mIdx_inj poly d h _ _ (mem_getD_of_lt _ _ _ he1)
        (mem_getD_of_lt _ _ _ hg1) qa)
      (mIdx_inj poly d h _ _ (mem_getD_of_lt _ _ _ he3)
        (mem_getD_of_lt _ _ _ hg2) qb)
      hq3
  · exact shared_two_edges_contra poly d h f g hR _ _ _ _ hf1 hf3 hgm2 hgm3
      he1 he3 hg2 hg3
      (mIdx_inj poly d h _ _ (mem_getD_of_lt _ _ _ he1)
        (mem_getD_of_lt _ _ _ hg2) qa)
      (mIdx_inj poly d h _ _ (mem_getD_of_lt _ _ _ he3)
        (mem_getD_of_lt _ _ _ hg3) qb)
      hq3
  · exact shared_two_edges_contra poly d h f g hR _ _ _ _ hf1 hf2 hgm1 hgm3
      he1 he2 hg1 hg3
      (mIdx_inj poly d h _ _ (mem_getD_of_lt _ _ _ he1)
        (mem_getD_of_lt _ _ _ hg1) qa)
      (mIdx_inj poly d h _ _ (mem_getD_of_lt _ _ _ he2)
        (mem_getD_of_lt _ _ _ hg3) qb)
      hq1
  · exact shared_two_edges_contra poly d h f g hR _ _ _ _ hf1 hf2 hgm1 hgm2
      he1 he2 hg1 hg2
      (mIdx_inj poly d h _ _ (mem_getD_of_lt _ _ _ he1)
        (mem_getD_of_lt _ _ _ hg1) qa)
      (mIdx_inj poly d h _ _ (mem_getD_of_lt _ _ _ he2)
        (mem_getD_of_lt _ _ _ hg2) qb)
      hq1
  · exact shared_two_edges_contra poly d h f g hR _ _ _ _ hf1 hf2 hgm2 hgm3
      he1 he2 hg2 hg3
      (mIdx_inj poly d h _ _ (mem_getD_of_lt _ _ _ he1)
        (mem_getD_of_lt _ _ _ hg2) qa)
      (mIdx_inj poly d h _ _ (mem_getD_of_lt _ _ _ he2)
        (mem_getD_of_lt _ _ _ hg3) qb)
      hq1
  · exact shared_two_edges_contra poly d h f g hR _ _ _ _ hf2 hf3 hgm1 hgm3
      he2 he3 hg1 hg3
      (mIdx_inj poly d h _ _ (mem_getD_of_lt _ _ _ he2)
        (mem_getD_of_lt _ _ _ hg1) qa)
      (mIdx_inj poly d h _ _ (mem_getD_of_lt _ _ _ he3)
        (mem_getD_of_lt _ _ _ hg3) qb)
      hq2
  · exact shared_two_edges_contra poly d h f g hR _ _ _ _ hf2 hf3 hgm1 hgm2
      he2 he3 hg1 hg2
      (mIdx_inj poly d h _ _ (mem_getD_of_lt _ _ _ he2)
        (mem_getD_of_lt _ _ _ hg1) qa)
      (mIdx_inj poly d h _ _ (mem_getD_of_lt _ _ _ he3)
        (mem_getD_of_lt _ _ _ hg2) qb)
      hq2
  · exact shared_two_edges_contra poly d h f g hR _ _ _ _ hf2 hf3 hgm2 hgm3
      he2 he3 hg2 hg3
      (mIdx_inj poly d h _ _ (mem_getD_of_lt _ _ _ he2)
        (mem_getD_of_lt _ _ _ hg2) qa)
      (mIdx_inj poly d h _ _ (mem_getD_of_lt _ _ _ he3)
        (mem_getD_of_lt _ _ _ hg3) qb)
      hq2

theorem iKeys_sub_FE (poly : Polyhedron Pos) (g : Face)
    (hg : g ∈ poly.faces) :
    ∀ k ∈ iKeysOfFace poly (refFV mkMid poly) g, k ∈ refFE mkMid poly := by
  intro k hk
  unfold refFE
  rw [mem_dedupAppend]
  refine Or.inr (List.mem_flatMap.mpr ⟨g, hg, ?_⟩)
  rw [eKeysOfFace_decomp]
  exact List.mem_append_right _ hk

theorem child_struct (poly : Polyhedron Pos) (d : ℕ) (h : GoodPoly poly d)
    (g : Face) (hg : g ∈ poly.faces) (u : Face)
    (hu : u ∈ facesOfFace mkMid poly (refFV mkMid poly) (refFE mkMid poly) g) :
    ∃ w, w < poly.vertices.length ∧ ∀ i ∈ refFaceEdgeList u,
      (∃ K ∈ iKeysOfFace poly (refFV mkMid poly) g,
        i = idxK (refFE mkMid poly) K) ∨
      (∃ s, s ∈ refFaceEdgeList g ∧ s < poly.edges.length ∧
        (w = (poly.edges.getD s dfltEdge).vertex_indices.1 ∨
         w = (poly.edges.getD s dfltEdge).vertex_indices.2) ∧
        sortPairN (idxK (refFV mkMid poly) (posAt poly w))
          (idxK (refFV mkMid poly)
            (midOfEdge poly (poly.edges.getD s dfltEdge))) ∈ refFE mkMid poly ∧
        i = idxK (refFE mkMid poly)
          (sortPairN (idxK (refFV mkMid poly) (posAt poly w))
            (idxK (refFV mkMid poly)
              (midOfEdge poly (poly.edges.getD s dfltEdge))))) := by
  obtain ⟨hb1, hb2, hb3, hd1, hd2, hd3, he1, he2, he3, hs1, hs2, hs3⟩ :=
    h.2.2.1 g hg
  obtain ⟨hm1, hm2, hm3⟩ := face_side_mid poly d h g hg
  have hkeysub : ∀ kk ∈ eKeysOfFace mkMid poly (refFV mkMid poly) g,
      kk ∈ refFE mkMid poly := by
    intro kk hkk
    unfold refFE
    rw [mem_dedupAppend]
    exact Or.inr (List.mem_flatMap.mpr ⟨g, hg, hkk⟩)
  simp only [facesOfFace, List.mem_cons, List.not_mem_nil, or_false] at hu
  rcases hu with rfl | rfl | rfl | rfl
  · refine ⟨g.vertex_indices.1, hb1, ?_⟩
    intro i hi
    simp only [refFaceEdgeList, List.mem_cons, List.not_mem_nil, or_false] at hi
    rcases hi with rfl | rfl | rfl
    · refine Or.inr ⟨g.edge_indices.1, by simp [refFaceEdgeList], he1,
        sideEq_endpoint_left _ _ _ hs1, ?_, ?_⟩ <;> rw [hm1]
      · exact hkeysub _ (by simp [eKeysOfFace])
    · exact Or.inl ⟨_, by simp [iKeysOfFace], rfl⟩
    · refine Or.inr ⟨g.edge_indices.2.2, by simp [refFaceEdgeList], he3,
        sideEq_endpoint_right _ _ _ hs3, ?_, ?_⟩ <;>
        rw [hm3, sortPairN_comm (idxK (refFV mkMid poly)
          (posAt poly g.vertex_indices.1))]
      · exact hkeysub _ (by simp [eKeysOfFace])
  · refine ⟨g.vertex_indices.2.1, hb2, ?_⟩
    intro i hi
    simp only [refFaceEdgeList, List.mem_cons, List.not_mem_nil, or_false] at hi
    rcases hi with rfl | rfl | rfl
    · refine Or.inr ⟨g.edge_indices.1, by simp [refFaceEdgeList], he1,
        sideEq_endpoint_right _ _ _ hs1, ?_, ?_⟩ <;>
        rw [hm1, sortPairN_comm (idxK (refFV mkMid poly)
          (posAt poly g.vertex_indices.2.1))]
      · exact hkeysub _ (by simp [eKeysOfFace])
    · refine Or.inr ⟨g.edge_indices.2.1, by simp [refFaceEdgeList], he2,
        sideEq_endpoint_left _ _ _ hs2, ?_, ?_⟩ <;> rw [hm2]
      · exact hkeysub _ (by simp [eKeysOfFace])
    · exact Or.inl ⟨_, by simp [iKeysOfFace], rfl⟩
  · refine ⟨g.vertex_indices.2.2, hb3, ?_⟩
    intro i hi
    simp only [refFaceEdgeList, List.mem_cons, List.not_mem_nil, or_false] at hi
    rcases hi with rfl | rfl | rfl
    · refine Or.inr ⟨g.edge_indices.2.1, by simp [refFaceEdgeList], he2,
        sideEq_endpoint_right _ _ _ hs2, ?_, ?_⟩ <;>
        rw [hm2, sortPairN_comm (idxK (refFV mkMid poly)
          (posAt poly g.vertex_indices.2.2))]
      · exact hkeysub _ (by simp [eKeysOfFace])
    · refine Or.inr ⟨g.edge_indices.2.2, by simp [refFaceEdgeList], he3,
        sideEq_endpoint_left _ _ _ hs3, ?_, ?_⟩ <;> rw [hm3]
      · exact hkeysub _ (by simp [eKeysOfFace])
    · exact Or.inl ⟨_, by simp [iKeysOfFace], rfl⟩
  · refine ⟨g.vertex_indices.1, hb1, ?_⟩
    intro i hi
    simp only [refFaceEdgeList, List.mem_cons, List.not_mem_nil, or_false] at hi
    rcases hi with rfl | rfl | rfl
    · exact Or.inl ⟨_, by simp [iKeysOfFace], rfl⟩
    · exact Or.inl ⟨_, by simp [iKeysOfFace], rfl⟩
    · exact Or.inl ⟨_, by simp [iKeysOfFace], rfl⟩

theorem bform_ne_iform (poly : Polyhedron Pos) (d : ℕ) (h : GoodPoly poly d)
    (w : ℕ) (hw : w < poly.vertices.length) (e : Edge) (he : e ∈ poly.edges)
    (eA eB : Edge) (hA : eA ∈ poly.edges) (hB : eB ∈ poly.edges) :
    sortPairN (idxK (refFV mkMid poly) (posAt poly w))
        (idxK (refFV mkMid poly) (midOfEdge poly e))
      ≠ (idxK (refFV mkMid poly) (midOfEdge poly eA),
         idxK (refFV mkMid poly) (midOfEdge poly eB)) := by
  intro q
  rcases sortPairN_cases (idxK (refFV mkMid poly) (posAt poly w))
      (idxK (refFV mkMid poly) (midOfEdge poly e)) with hs | hs <;>
    rw [hs] at q <;> rw [Prod.mk.injEq] at q
  · exact vmIdx_ne poly d h w hw eA hA q.1
  · exact vmIdx_ne poly d h w hw eB hB q.2

theorem cross_children_R (poly : Polyhedron Pos) (d : ℕ) (h : GoodPoly poly d)
    (g g' : Face) (hg : g ∈ poly.faces) (hg' : g' ∈ poly.faces)
    (hR : ∀ i ∈ refFaceEdgeList g, ∀ j ∈ refFaceEdgeList g,
      i ∈ refFaceEdgeList g' → j ∈ refFaceEdgeList g' → i = j)
    (u v : Face)
    (hu : u ∈ facesOfFace mkMid poly (refFV mkMid poly) (refFE mkMid poly) g)
    (hv : v ∈ facesOfFace mkMid poly (refFV mkMid poly) (refFE mkMid poly) g') :
    ∀ i ∈ refFaceEdgeList u, ∀ j ∈ refFaceEdgeList u,
      i ∈ refFaceEdgeList v → j ∈ refFaceEdgeList v → i = j := by
  obtain ⟨w, hw, hLu⟩ := child_struct poly d h g hg u hu
  obtain ⟨w', hw', hLv⟩ := child_struct poly d h g' hg' v hv
  have hres : ∀ x, x ∈ refFaceEdgeList u → x ∈ refFaceEdgeList v →
      ∃ s, s ∈ refFaceEdgeList g ∧ s ∈ refFaceEdgeList g' ∧
        s < poly.edges.length ∧
        (w = (poly.edges.getD s dfltEdge).vertex_indices.1 ∨
         w = (poly.edges.getD s dfltEdge).vertex_indices.2) ∧
        x = idxK (refFE mkMid poly)
          (sortPairN (idxK (refFV mkMid poly) (posAt poly w))
            (idxK (refFV mkMid poly)
              (midOfEdge poly (poly.edges.getD s dfltEdge)))) := by
    intro x hxu hxv
    rcases hLu x hxu with ⟨K, hKi, rfl⟩ | ⟨s, hsg, hsE, hwend, hKFE, rfl⟩
    · exfalso
      rcases hLv _ hxv with ⟨K', hK'i, hq⟩ | ⟨s', hs'g, hs'E, hwend', hK'FE, hq⟩
      · have hKK : K = K' := idxK_inj _ _ _ (iKeys_sub_FE poly g hg K hKi)
          (iKeys_sub_FE poly g' hg' K' hK'i) hq
        exact iKeys_disjoint_of_R poly d h g g' hg hg' hR K hKi (hKK ▸ hK'i)
      · have hKK : K = sortPairN (idxK (refFV mkMid poly) (posAt poly w'))
            (idxK (refFV mkMid poly)
              (midOfEdge poly (poly.edges.getD s' dfltEdge))) :=
          idxK_inj _ _ _ (iKeys_sub_FE poly g hg K hKi) hK'FE hq
        obtain ⟨eA, eB, hA, hB, -, hKform⟩ := mem_ipart_form poly d h K
          (List.mem_flatMap.mpr ⟨g, hg, hKi⟩)
        exact bform_ne_iform poly d h w' hw' _ (mem_getD_of_lt _ _ _ hs'E)
          eA eB hA hB (by rw [← hKK, hKform])
    · rcases hLv _ hxv with ⟨K', hK'i, hq⟩ | ⟨s', hs'g, hs'E, hwend', hK'FE, hq⟩
      · exfalso
        have hKK : sortPairN (idxK (refFV mkMid poly) (posAt poly w))
            (idxK (refFV mkMid poly)
              (midOfEdge poly (poly.edges.getD s dfltEdge))) = K' :=
          idxK_inj _ _ _ hKFE (iKeys_sub_FE poly g' hg' K' hK'i) hq
        obtain ⟨eA, eB, hA, hB, -, hK'form⟩ := mem_ipart_form poly d h K'
          (List.mem_flatMap.mpr ⟨g', hg', hK'i⟩)
        exact bform_ne_iform poly d h w hw _ (mem_getD_of_lt _ _ _ hsE)
          eA eB hA hB (by rw [hKK, hK'form])
      · have hKK : sortPairN (idxK (refFV mkMid poly) (posAt poly w))
            (idxK (refFV mkMid poly)
              (midOfEdge poly (poly.edges.getD s dfltEdge)))
            = sortPairN (idxK (refFV mkMid poly) (posAt poly w'))
              (idxK (refFV mkMid poly)
                (midOfEdge poly (poly.edges.getD s' dfltEdge))) :=
          idxK_inj _ _ _ hKFE hK'FE hq
        rcases (sortPairN_eq_iff _ _ _ _).mp hKK with ⟨-, qm⟩ | ⟨qv, -⟩
        · have hval : poly.edges.getD s dfltEdge
              = poly.edges.getD s' dfltEdge :=
            mIdx_inj poly d h _ _ (mem_getD_of_lt _ _ _ hsE)
              (mem_getD_of_lt _ _ _ hs'E) qm
          have hss : s = s' := nodup_getD_inj _ _ _ _ (edges_nodup poly d h)
            hsE hs'E hval
          exact ⟨s, hsg, hss ▸ hs'g, hsE, hwend, rfl⟩
        · exact absurd qv (vmIdx_ne poly d h w hw _
            (mem_getD_of_lt _ _ _ hs'E))
  intro i hi j hj hiv hjv
  obtain ⟨si, hsig, hsig', hsiE, -, hieq⟩ := hres i hi hiv
  obtain ⟨sj, hsjg, hsjg', hsjE, -, hjeq⟩ := hres j hj hjv
  have hss : si = sj := hR si hsig sj hsjg hsig' hsjg'
  rw [hieq, hjeq, hss]

theorem comp8_ref (poly : Polyhedron Pos) (d : ℕ) (h : GoodPoly poly d) :
    List.Pairwise (fun f g => ∀ i ∈ refFaceEdgeList f,
      ∀ j ∈ refFaceEdgeList f,
      i ∈ refFaceEdgeList g → j ∈ refFaceEdgeList g → i = j)
      (refine mkMid poly).faces := by
  rw [refine_faces, List.pairwise_flatMap]
  constructor
  · intro g hg
    have hkeysub : ∀ kk ∈ eKeysOfFace mkMid poly (refFV mkMid poly) g,
        kk ∈ refFE mkMid poly := by
      intro kk hkk
      unfold refFE
      rw [mem_dedupAppend]
      exact Or.inr (List.mem_flatMap.mpr ⟨g, hg, hkk⟩)
    have hk1 : (sortPairN (idxK (refFV mkMid poly) (posAt poly g.vertex_indices.1)) (idxK (refFV mkMid poly) (mkMid (posAt poly g.vertex_indices.1) (posAt poly g.vertex_indices.2.1)))) ∈ refFE mkMid poly :=
      hkeysub _ (by simp [eKeysOfFace])
    have hk2 : (sortPairN (idxK (refFV mkMid poly) (mkMid (posAt poly g.vertex_indices.1) (posAt poly g.vertex_indices.2.1))) (idxK (refFV mkMid poly) (posAt poly g.vertex_indices.2.1))) ∈ refFE mkMid poly :=
      hkeysub _ (by simp [eKeysOfFace])
    have hk3 : (sortPairN (idxK (refFV mkMid poly) (posAt poly g.vertex_indices.2.1)) (idxK (refFV mkMid poly) (mkMid (posAt poly g.vertex_indices.2.1) (posAt poly g.vertex_indices.2.2)))) ∈ refFE mkMid poly :=
      hkeysub _ (by simp [eKeysOfFace])
    have hk4 : (sortPairN (idxK (refFV mkMid poly) (mkMid (posAt poly g.vertex_indices.2.1) (posAt poly g.vertex_indices.2.2))) (idxK (refFV mkMid poly) (posAt poly g.vertex_indices.2.2))) ∈ refFE mkMid poly :=
      hkeysub _ (by simp [eKeysOfFace])
    have hk5 : (sortPairN (idxK (refFV mkMid poly) (posAt poly g.vertex_indices.2.2)) (idxK (refFV mkMid poly) (mkMid (posAt poly g.vertex_indices.2.2) (posAt poly g.vertex_indices.1)))) ∈ refFE mkMid poly :=
      hkeysub _ (by simp [eKeysOfFace])
    have hk6 : (sortPairN (idxK (refFV mkMid poly) (mkMid (posAt poly g.vertex_indices.2.2) (posAt poly g.vertex_indices.1))) (idxK (refFV mkMid poly) (posAt poly g.vertex_indices.1))) ∈ refFE mkMid poly :=
      hkeysub _ (by simp [eKeysOfFace])
    have hk7 : (((idxK (refFV mkMid poly) (mkMid (posAt poly g.vertex_indices.1) (posAt poly g.vertex_indices.2.1))), (idxK (refFV mkMid poly) (mkMid (posAt poly g.vertex_indices.2.2) (posAt poly g.vertex_indices.1))))) ∈ refFE mkMid poly :=
      hkeysub _ (by simp [eKeysOfFace])
    have hk8 : (((idxK (refFV mkMid poly) (mkMid (posAt poly g.vertex_indices.1) (posAt poly g.vertex_indices.2.1))), (idxK (refFV mkMid poly) (mkMid (posAt poly g.vertex_indices.2.1) (posAt poly g.vertex_indices.2.2))))) ∈ refFE mkMid poly :=
      hkeysub _ (by simp [eKeysOfFace])
    have hk9 : (((idxK (refFV mkMid poly) (mkMid (posAt poly g.vertex_indices.2.1) (posAt poly g.vertex_indices.2.2))), (idxK (refFV mkMid poly) (mkMid (posAt poly g.vertex_indices.2.2) (posAt poly g.vertex_indices.1))))) ∈ refFE mkMid poly :=
      hkeysub _ (by simp [eKeysOfFace])
    have hnine := nineKeys_nodup poly d h g hg
    simp only [eKeysOfFace, List.nodup_cons, List.mem_cons, List.not_mem_nil,
      or_false, not_or, List.nodup_nil, and_true] at hnine
    obtain ⟨⟨g12, g13, g14, g15, g16, g17, g18, g19⟩,
      ⟨g23, g24, g25, g26, g27, g28, g29⟩, ⟨g34, g35, g36, g37, g38, g39⟩,
      ⟨g45, g46, g47, g48, g49⟩, ⟨g56, g57, g58, g59⟩, ⟨g67, g68, g69⟩,
      ⟨g78, g79⟩, g89, -⟩ := hnine
    have hx12 : idxK (refFE mkMid poly) (sortPairN (idxK (refFV mkMid poly) (posAt poly g.vertex_indices.1)) (idxK (refFV mkMid poly) (mkMid (posAt poly g.vertex_indices.1) (posAt poly g.vertex_indices.2.1))))
        ≠ idxK (refFE mkMid poly) (sortPairN (idxK (refFV mkMid poly) (mkMid (posAt poly g.vertex_indices.1) (posAt poly g.vertex_indices.2.1))) (idxK (refFV mkMid poly) (posAt poly g.vertex_indices.2.1))) :=
      fun q => g12 (idxK_inj _ _ _ hk1 hk2 q)
    have hx13 : idxK (refFE mkMid poly) (sortPairN (idxK (refFV mkMid poly) (posAt poly g.vertex_indices.1)) (idxK (refFV mkMid poly) (mkMid (posAt poly g.vertex_indices.1) (posAt poly g.vertex_indices.2.1))))
        ≠ idxK (refFE mkMid poly) (sortPairN (idxK (refFV mkMid poly) (posAt poly g.vertex_indices.2.1)) (idxK (refFV mkMid poly) (mkMid (posAt poly g.vertex_indices.2.1) (posAt poly g.vertex_indices.2.2)))) :=
      fun q => g13 (idxK_inj _ _ _ hk1 hk3 q)
    have hx14 : idxK (refFE mkMid poly) (sortPairN (idxK (refFV mkMid poly) (posAt poly g.vertex_indices.1)) (idxK (refFV mkMid poly) (mkMid (posAt poly g.vertex_indices.1) (posAt poly g.vertex_indices.2.1))))
        ≠ idxK (refFE mkMid poly) (sortPairN (idxK (refFV mkMid poly) (mkMid (posAt poly g.vertex_indices.2.1) (posAt poly g.vertex_indices.2.2))) (idxK (refFV mkMid poly) (posAt poly g.vertex_indices.2.2))) :=
      fun q => g14 (idxK_inj _ _ _ hk1 hk4 q)
    have hx15 : idxK (refFE mkMid poly) (sortPairN (idxK (refFV mkMid poly) (posAt poly g.vertex_indices.1)) (idxK (refFV mkMid poly) (mkMid (posAt poly g.vertex_indices.1) (posAt poly g.vertex_indices.2.1))))
        ≠ idxK (refFE mkMid poly) (sortPairN (idxK (refFV mkMid poly) (posAt poly g.vertex_indices.2.2)) (idxK (refFV mkMid poly) (mkMid (posAt poly g.vertex_indices.2.2) (posAt poly g.vertex_indices.1)))) :=
      fun q => g15 (idxK_inj _ _ _ hk1 hk5 q)
    have hx16 : idxK (refFE mkMid poly) (sortPairN (idxK (refFV mkMid poly) (posAt poly g.vertex_indices.1)) (idxK (refFV mkMid poly) (mkMid (posAt poly g.vertex_indices.1) (posAt poly g.vertex_indices.2.1))))
        ≠ idxK (refFE mkMid poly) (sortPairN (idxK (refFV mkMid poly) (mkMid (posAt poly g.vertex_indices.2.2) (posAt poly g.vertex_indices.1))) (idxK (refFV mkMid poly) (posAt poly g.vertex_indices.1))) :=
      fun q => g16 (idxK_inj _ _ _ hk1 hk6 q)
    have hx17 : idxK (refFE mkMid poly) (sortPairN (idxK (refFV mkMid poly) (posAt poly g.vertex_indices.1)) (idxK (refFV mkMid poly) (mkMid (posAt poly g.vertex_indices.1) (posAt poly g.vertex_indices.2.1))))
        ≠ idxK (refFE mkMid poly) (((idxK (refFV mkMid poly) (mkMid (posAt poly g.vertex_indices.1) (posAt poly g.vertex_indices.2.1))), (idxK (refFV mkMid poly) (mkMid (posAt poly g.vertex_indices.2.2) (posAt poly g.vertex_indices.1))))) :=
      fun q => g17 (idxK_inj _ _ _ hk1 hk7 q)
    have hx18 : idxK (refFE mkMid poly) (sortPairN (idxK (refFV mkMid poly) (posAt poly g.vertex_indices.1)) (idxK (refFV mkMid poly) (mkMid (posAt poly g.vertex_indices.1) (posAt poly g.vertex_indices.2.1))))
        ≠ idxK (refFE mkMid poly) (((idxK (refFV mkMid poly) (mkMid (posAt poly g.vertex_indices.1) (posAt poly g.vertex_indices.2.1))), (idxK (refFV mkMid poly) (mkMid (posAt poly g.vertex_indices.2.1) (posAt poly g.vertex_indices.2.2))))) :=
      fun q => g18 (idxK_inj _ _ _ hk1 hk8 q)
    have hx19 : idxK (refFE mkMid poly) (sortPairN (idxK (refFV mkMid poly) (posAt poly g.vertex_indices.1)) (idxK (refFV mkMid poly) (mkMid (posAt poly g.vertex_indices.1) (posAt poly g.vertex_indices.2.1))))
        ≠ idxK (refFE mkMid poly) (((idxK (refFV mkMid poly) (mkMid (posAt poly g.vertex_indices.2.1) (posAt poly g.vertex_indices.2.2))), (idxK (refFV mkMid poly) (mkMid (posAt poly g.vertex_indices.2.2) (posAt poly g.vertex_indices.1))))) :=
      fun q => g19 (idxK_inj _ _ _ hk1 hk9 q)
    have hx23 : idxK (refFE mkMid poly) (sortPairN (idxK (refFV mkMid poly) (mkMid (posAt poly g.vertex_indices.1) (posAt poly g.vertex_indices.2.1))) (idxK (refFV mkMid poly) (posAt poly g.vertex_indices.2.1)))
        ≠ idxK (refFE mkMid poly) (sortPairN (idxK (refFV mkMid poly) (posAt poly g.vertex_indices.2.1)) (idxK (refFV mkMid poly) (mkMid (posAt poly g.vertex_indices.2.1) (posAt poly g.vertex_indices.2.2)))) :=
      fun q => g23 (idxK_inj _ _ _ hk2 hk3 q)
    have hx24 : idxK (refFE mkMid poly) (sortPairN (idxK (refFV mkMid poly) (mkMid (posAt poly g.vertex_indices.1) (posAt poly g.vertex_indices.2.1))) (idxK (refFV mkMid poly) (posAt poly g.vertex_indices.2.1)))
        ≠ idxK (refFE mkMid poly) (sortPairN (idxK (refFV mkMid poly) (mkMid (posAt poly g.vertex_indices.2.1) (posAt poly g.vertex_indices.2.2))) (idxK (refFV mkMid poly) (posAt poly g.vertex_indices.2.2))) :=
      fun q => g24 (idxK_inj _ _ _ hk2 hk4 q)
    have hx25 : idxK (refFE mkMid poly) (sortPairN (idxK (refFV mkMid poly) (mkMid (posAt poly g.vertex_indices.1) (posAt poly g.vertex_indices.2.1))) (idxK (refFV mkMid poly) (posAt poly g.vertex_indices.2.1)))
        ≠ idxK (refFE mkMid poly) (sortPairN (idxK (refFV mkMid poly) (posAt poly g.vertex_indices.2.2)) (idxK (refFV mkMid poly) (mkMid (posAt poly g.vertex_indices.2.2) (posAt poly g.vertex_indices.1)))) :=
      fun q => g25 (idxK_inj _ _ _ hk2 hk5 q)
    have hx26 : idxK (refFE mkMid poly) (sortPairN (idxK (refFV mkMid poly) (mkMid (posAt poly g.vertex_indices.1) (posAt poly g.vertex_indices.2.1))) (idxK (refFV mkMid poly) (posAt poly g.vertex_indices.2.1)))
        ≠ idxK (refFE mkMid poly) (sortPairN (idxK (refFV mkMid poly) (mkMid (posAt poly g.vertex_indices.2.2) (posAt poly g.vertex_indices.1))) (idxK (refFV mkMid poly) (posAt poly g.vertex_indices.1))) :=
      fun q => g26 (idxK_inj _ _ _ hk2 hk6 q)
    have hx27 : idxK (refFE mkMid poly) (sortPairN (idxK (refFV mkMid poly) (mkMid (posAt poly g.vertex_indices.1) (posAt poly g.vertex_indices.2.1))) (idxK (refFV mkMid poly) (posAt poly g.vertex_indices.2.1)))
        ≠ idxK (refFE mkMid poly) (((idxK (refFV mkMid poly) (mkMid (posAt poly g.vertex_indices.1) (posAt poly g.vertex_indices.2.1))), (idxK (refFV mkMid poly) (mkMid (posAt poly g.vertex_indices.2.2) (posAt poly g.vertex_indices.1))))) :=
      fun q => g27 (idxK_inj _ _ _ hk2 hk7 q)
    have hx28 : idxK (refFE mkMid poly) (sortPairN (idxK (refFV mkMid poly) (mkMid (posAt poly g.vertex_indices.1) (posAt poly g.vertex_indices.2.1))) (idxK (refFV mkMid poly) (posAt poly g.vertex_indices.2.1)))
        ≠ idxK (refFE mkMid poly) (((idxK (refFV mkMid poly) (mkMid (posAt poly g.vertex_indices.1) (posAt poly g.vertex_indices.2.1))), (idxK (refFV mkMid poly) (mkMid (posAt poly g.vertex_indices.2.1) (posAt poly g.vertex_indices.2.2))))) :=
      fun q => g28 (idxK_inj _ _ _ hk2 hk8 q)
    have hx29 : idxK (refFE mkMid poly) (sortPairN (idxK (refFV mkMid poly) (mkMid (posAt poly g.vertex_indices.1) (posAt poly g.vertex_indices.2.1))) (idxK (refFV mkMid poly) (posAt poly g.vertex_indices.2.1)))
        ≠ idxK (refFE mkMid poly) (((idxK (refFV mkMid poly) (mkMid (posAt poly g.vertex_indices.2.1) (posAt poly g.vertex_indices.2.2))), (idxK (refFV mkMid poly) (mkMid (posAt poly g.vertex_indices.2.2) (posAt poly g.vertex_indices.1))))) :=
      fun q => g29 (idxK_inj _ _ _ hk2 hk9 q)
    have hx34 : idxK (refFE mkMid poly) (sortPairN (idxK (refFV mkMid poly) (posAt poly g.vertex_indices.2.1)) (idxK (refFV mkMid poly) (mkMid (posAt poly g.vertex_indices.2.1) (posAt poly g.vertex_indices.2.2))))
        ≠ idxK (refFE mkMid poly) (sortPairN (idxK (refFV mkMid poly) (mkMid (posAt poly g.vertex_indices.2.1) (posAt poly g.vertex_indices.2.2))) (idxK (refFV mkMid poly) (posAt poly g.vertex_indices.2.2))) :=
      fun q => g34 (idxK_inj _ _ _ hk3 hk4 q)
    have hx35 : idxK (refFE mkMid poly) (sortPairN (idxK (refFV mkMid poly) (posAt poly g.vertex_indices.2.1)) (idxK (refFV mkMid poly) (mkMid (posAt poly g.vertex_indices.2.1) (posAt poly g.vertex_indices.2.2))))
        ≠ idxK (refFE mkMid poly) (sortPairN (idxK (refFV mkMid poly) (posAt poly g.vertex_indices.2.2)) (idxK (refFV mkMid poly) (mkMid (posAt poly g.vertex_indices.2.2) (posAt poly g.vertex_indices.1)))) :=
      fun q => g35 (idxK_inj _ _ _ hk3 hk5 q)
    have hx36 : idxK (refFE mkMid poly) (sortPairN (idxK (refFV mkMid poly) (posAt poly g.vertex_indices.2.1)) (idxK (refFV mkMid poly) (mkMid (posAt poly g.vertex_indices.2.1) (posAt poly g.vertex_indices.2.2))))
        ≠ idxK (refFE mkMid poly) (sortPairN (idxK (refFV mkMid poly) (mkMid (posAt poly g.vertex_indices.2.2) (posAt poly g.vertex_indices.1))) (idxK (refFV mkMid poly) (posAt poly g.vertex_indices.1))) :=
      fun q => g36 (idxK_inj _ _ _ hk3 hk6 q)
    have hx37 : idxK (refFE mkMid poly) (sortPairN (idxK (refFV mkMid poly) (posAt poly g.vertex_indices.2.1)) (idxK (refFV mkMid poly) (mkMid (posAt poly g.vertex_indices.2.1) (posAt poly g.vertex_indices.2.2))))
        ≠ idxK (refFE mkMid poly) (((idxK (refFV mkMid poly) (mkMid (posAt poly g.vertex_indices.1) (posAt poly g.vertex_indices.2.1))), (idxK (refFV mkMid poly) (mkMid (posAt poly g.vertex_indices.2.2) (posAt poly g.vertex_indices.1))))) :=
      fun q => g37 (idxK_inj _ _ _ hk3 hk7 q)
    have hx38 : idxK (refFE mkMid poly) (sortPairN (idxK (refFV mkMid poly) (posAt poly g.vertex_indices.2.1)) (idxK (refFV mkMid poly) (mkMid (posAt poly g.vertex_indices.2.1) (posAt poly g.vertex_indices.2.2))))
        ≠ idxK (refFE mkMid poly) (((idxK (refFV mkMid poly) (mkMid (posAt poly g.vertex_indices.1) (posAt poly g.vertex_indices.2.1))), (idxK (refFV mkMid poly) (mkMid (posAt poly g.vertex_indices.2.1) (posAt poly g.vertex_indices.2.2))))) :=
      fun q => g38 (idxK_inj _ _ _ hk3 hk8 q)
    have hx39 : idxK (refFE mkMid poly) (sortPairN (idxK (refFV mkMid poly) (posAt poly g.vertex_indices.2.1)) (idxK (refFV mkMid poly) (mkMid (posAt poly g.vertex_indices.2.1) (posAt poly g.vertex_indices.2.2))))
        ≠ idxK (refFE mkMid poly) (((idxK (refFV mkMid poly) (mkMid (posAt poly g.vertex_indices.2.1) (posAt poly g.vertex_indices.2.2))), (idxK (refFV mkMid poly) (mkMid (posAt poly g.vertex_indices.2.2) (posAt poly g.vertex_indices.1))))) :=
      fun q => g39 (idxK_inj _ _ _ hk3 hk9 q)
    have hx45 : idxK (refFE mkMid poly) (sortPairN (idxK (refFV mkMid poly) (mkMid (posAt poly g.vertex_indices.2.1) (posAt poly g.vertex_indices.2.2))) (idxK (refFV mkMid poly) (posAt poly g.vertex_indices.2.2)))
        ≠ idxK (refFE mkMid poly) (sortPairN (idxK (refFV mkMid poly) (posAt poly g.vertex_indices.2.2)) (idxK (refFV mkMid poly) (mkMid (posAt poly g.vertex_indices.2.2) (posAt poly g.vertex_indices.1)))) :=
      fun q => g45 (idxK_inj _ _ _ hk4 hk5 q)
    have hx46 : idxK (refFE mkMid poly) (sortPairN (idxK (refFV mkMid poly) (mkMid (posAt poly g.vertex_indices.2.1) (posAt poly g.vertex_indices.2.2))) (idxK (refFV mkMid poly) (posAt poly g.vertex_indices.2.2)))
        ≠ idxK (refFE mkMid poly) (sortPairN (idxK (refFV mkMid poly) (mkMid (posAt poly g.vertex_indices.2.2) (posAt poly g.vertex_indices.1))) (idxK (refFV mkMid poly) (posAt poly g.vertex_indices.1))) :=
      fun q => g46 (idxK_inj _ _ _ hk4 hk6 q)
    have hx47 : idxK (refFE mkMid poly) (sortPairN (idxK (refFV mkMid poly) (mkMid (posAt poly g.vertex_indices.2.1) (posAt poly g.vertex_indices.2.2))) (idxK (refFV mkMid poly) (posAt poly g.vertex_indices.2.2)))
        ≠ idxK (refFE mkMid poly) (((idxK (refFV mkMid poly) (mkMid (posAt poly g.vertex_indices.1) (posAt poly g.vertex_indices.2.1))), (idxK (refFV mkMid poly) (mkMid (posAt poly g.vertex_indices.2.2) (posAt poly g.vertex_indices.1))))) :=
      fun q => g47 (idxK_inj _ _ _ hk4 hk7 q)
    have hx48 : idxK (refFE mkMid poly) (sortPairN (idxK (refFV mkMid poly) (mkMid (posAt poly g.vertex_indices.2.1) (posAt poly g.vertex_indices.2.2))) (idxK (refFV mkMid poly) (posAt poly g.vertex_indices.2.2)))
        ≠ idxK (refFE mkMid poly) (((idxK (refFV mkMid poly) (mkMid (posAt poly g.vertex_indices.1) (posAt poly g.vertex_indices.2.1))), (idxK (refFV mkMid poly) (mkMid (posAt poly g.vertex_indices.2.1) (posAt poly g.vertex_indices.2.2))))) :=
      fun q => g48 (idxK_inj _ _ _ hk4 hk8 q)
    have hx49 : idxK (refFE mkMid poly) (sortPairN (idxK (refFV mkMid poly) (mkMid (posAt poly g.vertex_indices.2.1) (posAt poly g.vertex_indices.2.2))) (idxK (refFV mkMid poly) (posAt poly g.vertex_indices.2.2)))
        ≠ idxK (refFE mkMid poly) (((idxK (refFV mkMid poly) (mkMid (posAt poly g.vertex_indices.2.1) (posAt poly g.vertex_indices.2.2))), (idxK (refFV mkMid poly) (mkMid (posAt poly g.vertex_indices.2.2) (posAt poly g.vertex_indices.1))))) :=
      fun q => g49 (idxK_inj _ _ _ hk4 hk9 q)
    have hx56 : idxK (refFE mkMid poly) (sortPairN (idxK (refFV mkMid poly) (posAt poly g.vertex_indices.2.2)) (idxK (refFV mkMid poly) (mkMid (posAt poly g.vertex_indices.2.2) (posAt poly g.vertex_indices.1))))
        ≠ idxK (refFE mkMid poly) (sortPairN (idxK (refFV mkMid poly) (mkMid (posAt poly g.vertex_indices.2.2) (posAt poly g.vertex_indices.1))) (idxK (refFV mkMid poly) (posAt poly g.vertex_indices.1))) :=
      fun q => g56 (idxK_inj _ _ _ hk5 hk6 q)
    have hx57 : idxK (refFE mkMid poly) (sortPairN (idxK (refFV mkMid poly) (posAt poly g.vertex_indices.2.2)) (idxK (refFV mkMid poly) (mkMid (posAt poly g.vertex_indices.2.2) (posAt poly g.vertex_indices.1))))
        ≠ idxK (refFE mkMid poly) (((idxK (refFV mkMid poly) (mkMid (posAt poly g.vertex_indices.1) (posAt poly g.vertex_indices.2.1))), (idxK (refFV mkMid poly) (mkMid (posAt poly g.vertex_indices.2.2) (posAt poly g.vertex_indices.1))))) :=
      fun q => g57 (idxK_inj _ _ _ hk5 hk7 q)
    have hx58 : idxK (refFE mkMid poly) (sortPairN (idxK (refFV mkMid poly) (posAt poly g.vertex_indices.2.2)) (idxK (refFV mkMid poly) (mkMid (posAt poly g.vertex_indices.2.2) (posAt poly g.vertex_indices.1))))
        ≠ idxK (refFE mkMid poly) (((idxK (refFV mkMid poly) (mkMid (posAt poly g.vertex_indices.1) (posAt poly g.vertex_indices.2.1))), (idxK (refFV mkMid poly) (mkMid (posAt poly g.vertex_indices.2.1) (posAt poly g.vertex_indices.2.2))))) :=
      fun q => g58 (idxK_inj _ _ _ hk5 hk8 q)
    have hx59 : idxK (refFE mkMid poly) (sortPairN (idxK (refFV mkMid poly) (posAt poly g.vertex_indices.2.2)) (idxK (refFV mkMid poly) (mkMid (posAt poly g.vertex_indices.2.2) (posAt poly g.vertex_indices.1))))
        ≠ idxK (refFE mkMid poly) (((idxK (refFV mkMid poly) (mkMid (posAt poly g.vertex_indices.2.1) (posAt poly g.vertex_indices.2.2))), (idxK (refFV mkMid poly) (mkMid (posAt poly g.vertex_indices.2.2) (posAt poly g.vertex_indices.1))))) :=
      fun q => g59 (idxK_inj _ _ _ hk5 hk9 q)
    have hx67 : idxK (refFE mkMid poly) (sortPairN (idxK (refFV mkMid poly) (mkMid (posAt poly g.vertex_indices.2.2) (posAt poly g.vertex_indices.1))) (idxK (refFV mkMid poly) (posAt poly g.vertex_indices.1)))
        ≠ idxK (refFE mkMid poly) (((idxK (refFV mkMid poly) (mkMid (posAt poly g.vertex_indices.1) (posAt poly g.vertex_indices.2.1))), (idxK (refFV mkMid poly) (mkMid (posAt poly g.vertex_indices.2.2) (posAt poly g.vertex_indices.1))))) :=
      fun q => g67 (idxK_inj _ _ _ hk6 hk7 q)
    have hx68 : idxK (refFE mkMid poly) (sortPairN (idxK (refFV mkMid poly) (mkMid (posAt poly g.vertex_indices.2.2) (posAt poly g.vertex_indices.1))) (idxK (refFV mkMid poly) (posAt poly g.vertex_indices.1)))
        ≠ idxK (refFE mkMid poly) (((idxK (refFV mkMid poly) (mkMid (posAt poly g.vertex_indices.1) (posAt poly g.vertex_indices.2.1))), (idxK (refFV mkMid poly) (mkMid (posAt poly g.vertex_indices.2.1) (posAt poly g.vertex_indices.2.2))))) :=
      fun q => g68 (idxK_inj _ _ _ hk6 hk8 q)
    have hx69 : idxK (refFE mkMid poly) (sortPairN (idxK (refFV mkMid poly) (mkMid (posAt poly g.vertex_indices.2.2) (posAt poly g.vertex_indices.1))) (idxK (refFV mkMid poly) (posAt poly g.vertex_indices.1)))
        ≠ idxK (refFE mkMid poly) (((idxK (refFV mkMid poly) (mkMid (posAt poly g.vertex_indices.2.1) (posAt poly g.vertex_indices.2.2))), (idxK (refFV mkMid poly) (mkMid (posAt poly g.vertex_indices.2.2) (posAt poly g.vertex_indices.1))))) :=
      fun q => g69 (idxK_inj _ _ _ hk6 hk9 q)
    have hx78 : idxK (refFE mkMid poly) (((idxK (refFV mkMid poly) (mkMid (posAt poly g.vertex_indices.1) (posAt poly g.vertex_indices.2.1))), (idxK (refFV mkMid poly) (mkMid (posAt poly g.vertex_indices.2.2) (posAt poly g.vertex_indices.1)))))
        ≠ idxK (refFE mkMid poly) (((idxK (refFV mkMid poly) (mkMid (posAt poly g.vertex_indices.1) (posAt poly g.vertex_indices.2.1))), (idxK (refFV mkMid poly) (mkMid (posAt poly g.vertex_indices.2.1) (posAt poly g.vertex_indices.2.2))))) :=
      fun q => g78 (idxK_inj _ _ _ hk7 hk8 q)
    have hx79 : idxK (refFE mkMid poly) (((idxK (refFV mkMid poly) (mkMid (posAt poly g.vertex_indices.1) (posAt poly g.vertex_indices.2.1))), (idxK (refFV mkMid poly) (mkMid (posAt poly g.vertex_indices.2.2) (posAt poly g.vertex_indices.1)))))
        ≠ idxK (refFE mkMid poly) (((idxK (refFV mkMid poly) (mkMid (posAt poly g.vertex_indices.2.1) (posAt poly g.vertex_indices.2.2))), (idxK (refFV mkMid poly) (mkMid (posAt poly g.vertex_indices.2.2) (posAt poly g.vertex_indices.1))))) :=
      fun q => g79 (idxK_inj _ _ _ hk7 hk9 q)
    have hx89 : idxK (refFE mkMid poly) (((idxK (refFV mkMid poly) (mkMid (posAt poly g.vertex_indices.1) (posAt poly g.vertex_indices.2.1))), (idxK (refFV mkMid poly) (mkMid (posAt poly g.vertex_indices.2.1) (posAt poly g.vertex_indices.2.2)))))
        ≠ idxK (refFE mkMid poly) (((idxK (refFV mkMid poly) (mkMid (posAt poly g.vertex_indices.2.1) (posAt poly g.vertex_indices.2.2))), (idxK (refFV mkMid poly) (mkMid (posAt poly g.vertex_indices.2.2) (posAt poly g.vertex_indices.1))))) :=
      fun q => g89 (idxK_inj _ _ _ hk8 hk9 q)
    exact children_pairwise_abstract
      ((idxK (refFV mkMid poly) (posAt poly g.vertex_indices.1)), (idxK (refFV mkMid poly) (mkMid (posAt poly g.vertex_indices.1) (posAt poly g.vertex_indices.2.1))), (idxK (refFV mkMid poly) (mkMid (posAt poly g.vertex_indices.2.2) (posAt poly g.vertex_indices.1))))
      ((idxK (refFV mkMid poly) (mkMid (posAt poly g.vertex_indices.1) (posAt poly g.vertex_indices.2.1))), (idxK (refFV mkMid poly) (posAt poly g.vertex_indices.2.1)), (idxK (refFV mkMid poly) (mkMid (posAt poly g.vertex_indices.2.1) (posAt poly g.vertex_indices.2.2))))
      ((idxK (refFV mkMid poly) (mkMid (posAt poly g.vertex_indices.2.1) (posAt poly g.vertex_indices.2.2))), (idxK (refFV mkMid poly) (posAt poly g.vertex_indices.2.2)), (idxK (refFV mkMid poly) (mkMid (posAt poly g.vertex_indices.2.2) (posAt poly g.vertex_indices.1))))
      ((idxK (refFV mkMid poly) (mkMid (posAt poly g.vertex_indices.1) (posAt poly g.vertex_indices.2.1))), (idxK (refFV mkMid poly) (mkMid (posAt poly g.vertex_indices.2.1) (posAt poly g.vertex_indices.2.2))), (idxK (refFV mkMid poly) (mkMid (posAt poly g.vertex_indices.2.2) (posAt poly g.vertex_indices.1))))
      (idxK (refFE mkMid poly) (sortPairN (idxK (refFV mkMid poly) (posAt poly g.vertex_indices.1)) (idxK (refFV mkMid poly) (mkMid (posAt poly g.vertex_indices.1) (posAt poly g.vertex_indices.2.1)))))
      (idxK (refFE mkMid poly) (sortPairN (idxK (refFV mkMid poly) (mkMid (posAt poly g.vertex_indices.1) (posAt poly g.vertex_indices.2.1))) (idxK (refFV mkMid poly) (posAt poly g.vertex_indices.2.1))))
      (idxK (refFE mkMid poly) (sortPairN (idxK (refFV mkMid poly) (posAt poly g.vertex_indices.2.1)) (idxK (refFV mkMid poly) (mkMid (posAt poly g.vertex_indices.2.1) (posAt poly g.vertex_indices.2.2)))))
      (idxK (refFE mkMid poly) (sortPairN (idxK (refFV mkMid poly) (mkMid (posAt poly g.vertex_indices.2.1) (posAt poly g.vertex_indices.2.2))) (idxK (refFV mkMid poly) (posAt poly g.vertex_indices.2.2))))
      (idxK (refFE mkMid poly) (sortPairN (idxK (refFV mkMid poly) (posAt poly g.vertex_indices.2.2)) (idxK (refFV mkMid poly) (mkMid (posAt poly g.vertex_indices.2.2) (posAt poly g.vertex_indices.1)))))
      (idxK (refFE mkMid poly) (sortPairN (idxK (refFV mkMid poly) (mkMid (posAt poly g.vertex_indices.2.2) (posAt poly g.vertex_indices.1))) (idxK (refFV mkMid poly) (posAt poly g.vertex_indices.1))))
      (idxK (refFE mkMid poly) (((idxK (refFV mkMid poly) (mkMid (posAt poly g.vertex_indices.1) (posAt poly g.vertex_indices.2.1))), (idxK (refFV mkMid poly) (mkMid (posAt poly g.vertex_indices.2.2) (posAt poly g.vertex_indices.1))))))
      (idxK (refFE mkMid poly) (((idxK (refFV mkMid poly) (mkMid (posAt poly g.vertex_indices.1) (posAt poly g.vertex_indices.2.1))), (idxK (refFV mkMid poly) (mkMid (posAt poly g.vertex_indices.2.1) (posAt poly g.vertex_indices.2.2))))))
      (idxK (refFE mkMid poly) (((idxK (refFV mkMid poly) (mkMid (posAt poly g.vertex_indices.2.1) (posAt poly g.vertex_indices.2.2))), (idxK (refFV mkMid poly) (mkMid (posAt poly g.vertex_indices.2.2) (posAt poly g.vertex_indices.1))))))
      hx12 hx13 hx14 hx15 hx16 hx17 hx18 hx19 hx23 hx24 hx25 hx26 hx27 hx28
      hx29 hx34 hx35 hx36 hx37 hx38 hx39 hx45 hx46 hx47 hx48 hx49 hx56 hx57
      hx58 hx59 hx67 hx68 hx69 hx78 hx79 hx89
  · refine List.Pairwise.imp_of_mem (fun {g g'} hg hg' hR => ?_)
      h.2.2.2.2.2.2.2
    intro u hu v hv
    exact cross_children_R poly d h g g' hg hg' hR u v hu hv

theorem GoodPoly_refine (poly : Polyhedron Pos) (d : ℕ) (h : GoodPoly poly d) :
    GoodPoly (refine mkMid poly) (d + 1) :=
  ⟨comp1_ref poly, comp2_ref poly d h, comp3_ref poly d h, comp4_ref poly d h,
   comp5_ref poly d h, comp6_ref poly d h, comp7_ref poly d h,
   comp8_ref poly d h⟩

set_option maxRecDepth 10000 in
theorem goodPoly_base : GoodPoly (makeIcosahedron icoPosList) 0 := by
  unfold GoodPoly
  decide

theorem icoSphere_succ (k : ℕ) :
    icoSphere (k + 1) = refine mkMid (icoSphere k) := by
  unfold icoSphere makeSphere
  rw [List.range_succ, List.foldl_append]
  rfl

theorem icoSphere_invariants (k : ℕ) :
    GoodPoly (icoSphere k) k ∧
    (icoSphere k).vertices.length = 10 * 4 ^ k + 2 ∧
    (icoSphere k).edges.length = 30 * 4 ^ k ∧
    (icoSphere k).faces.length = 20 * 4 ^ k ∧
    (∀ j, j < (icoSphere k).edges.length →
      ((icoSphere k).edges.getD j dfltEdge).face_indices.length = 2) := by
  induction k with
  | zero =>
    refine ⟨goodPoly_base, ?_, ?_, ?_, ?_⟩
    · show (makeIcosahedron icoPosList).vertices.length = 12
      rw [makeIcosahedron_vertices_length]
      rfl
    · show (makeIcosahedron icoPosList).edges.length = 30
      rw [makeIcosahedron_edges_length]
    · rfl
    · intro j hj
      have hj30 : j < 30 := by
        have he := makeIcosahedron_edges_length icoPosList
        show j < 30
        rw [← he]
        exact hj
      show ((makeIcosahedron icoPosList).edges.getD j dfltEdge).face_indices.length = 2
      rw [makeIcosahedron_edge_fi_length icoPosList j hj30]
      have h6 := goodPoly_base.2.2.2.2.2.1
      have := h6 j (by rw [makeIcosahedron_edges_length]; exact hj30)
      exact this
  | succ k ih =>
    obtain ⟨hgp, hV, hE, hF, hfi⟩ := ih
    refine ⟨?_, ?_, ?_, ?_, ?_⟩ <;> rw [icoSphere_succ]
    · exact GoodPoly_refine _ _ hgp
    · rw [refine_vertices_length, refFV_length _ _ hgp, hV, hE]
      ring
    · rw [refine_edges_length, refFE_length _ _ hgp, hE, hF]
      ring
    · rw [refine_faces_length, hF]
      ring
    · intro j hj
      rw [refine_edges_length] at hj
      rw [refine_edge_fi_length mkMid _ j hj]
      exact count2_new _ _ hgp j hj

/-- C1: for every detail level `k ≥ 0`, the mesh built by `make_sphere(k)` —
`k` refine passes over the base icosahedron — has exactly `10·4^k + 2`
vertices, `30·4^k` edges and `20·4^k` faces, satisfies Euler's formula
`V − E + F = 2`, and every one of its edges ends up with exactly two adjacent
faces in its `face_indices` adjacency list. -/
theorem c1_make_sphere_euler_counts (k : ℕ) :
    (makeSphere mkMid icoPosList k).vertices.length = 10 * 4 ^ k + 2 ∧
    (makeSphere mkMid icoPosList k).edges.length = 30 * 4 ^ k ∧
    (makeSphere mkMid icoPosList k).faces.length = 20 * 4 ^ k ∧
    ((makeSphere mkMid icoPosList k).vertices.length : ℤ)
      - ((makeSphere mkMid icoPosList k).edges.length : ℤ)
      + ((makeSphere mkMid icoPosList k).faces.length : ℤ) = 2 ∧
    ∀ e ∈ (makeSphere mkMid icoPosList k).edges,
      e.face_indices.length = 2 := by
  obtain ⟨-, hV, hE, hF, hfi⟩ := icoSphere_invariants k
  have hVs : (makeSphere mkMid icoPosList k).vertices.length
      = 10 * 4 ^ k + 2 := hV
  have hEs : (makeSphere mkMid icoPosList k).edges.length = 30 * 4 ^ k := hE
  have hFs : (makeSphere mkMid icoPosList k).faces.length = 20 * 4 ^ k := hF
  refine ⟨hVs, hEs, hFs, ?_, ?_⟩
  · rw [hVs, hEs, hFs]
    push_cast
    ring
  · intro e he
    obtain ⟨j, hj, hej⟩ := List.mem_iff_getElem.mp he
    have hgd : (makeSphere mkMid icoPosList k).edges.getD j dfltEdge = e := by
      rw [List.getD_eq_getElem _ _ hj, hej]
    rw [← hgd]
    exact hfi j hj
